import Mathlib

/-!
# mGBA OpenGL scanline renderer: register ingress, dirty tracking, scanline capture

Shallow embedding of `src/gba/renderers/gl.c`.  The renderer structure is a Lean
record, every entry point is a function from record to record, and the OpenGL
commands issued by a batch flush are represented by the list of batches together
with the renderer fields the draw calls read.  The window and finalize fragment
shaders, and the coordinate computations of the mode 0 and mode 2 background shaders,
are functions of one fragment, with exact rationals for GLSL floats.

The debugger stack trace of `src/debugger/stack-trace.c` is embedded in the namespace
`StackTrace`, with the frame vector as a list, oldest frame first, and the output
buffer of `mStackTraceFormatFrame` as the list of characters before the terminator.

Machine integers: unsigned quantities are `Nat` (16-bit register values are below
`65536`), signed quantities are `Int`, and every conversion between a bit pattern and
its two's-complement reading is explicit (`toS16`, `toS32`, `toU32`).
-/

set_option maxRecDepth 20000

namespace GBAVideoGL

/-! ## Constants of `mgba/internal/gba/io.h` and `mgba/internal/gba/video.h`

The headers are absent from the repository sources; the values are the memory-mapped
addresses of the hardware registers and the screen size the specification names
(48 sixteen-bit words below `0x60`, 240 by 160 pixels). -/

/-- Modelled from the spec: the address macro `REG_DISPCNT` of the absent header `mgba/internal/gba/io.h` (hardware address of the register the spec names). -/
def REG_DISPCNT : Nat := 0x00
/-- Modelled from the spec: the address macro `REG_BG0CNT` of the absent header `mgba/internal/gba/io.h` (hardware address of the register the spec names). -/
def REG_BG0CNT : Nat := 0x08
/-- Modelled from the spec: the address macro `REG_BG1CNT` of the absent header `mgba/internal/gba/io.h` (hardware address of the register the spec names). -/
def REG_BG1CNT : Nat := 0x0A
/-- Modelled from the spec: the address macro `REG_BG2CNT` of the absent header `mgba/internal/gba/io.h` (hardware address of the register the spec names). -/
def REG_BG2CNT : Nat := 0x0C
/-- Modelled from the spec: the address macro `REG_BG3CNT` of the absent header `mgba/internal/gba/io.h` (hardware address of the register the spec names). -/
def REG_BG3CNT : Nat := 0x0E
/-- Modelled from the spec: the address macro `REG_BG0HOFS` of the absent header `mgba/internal/gba/io.h` (hardware address of the register the spec names). -/
def REG_BG0HOFS : Nat := 0x10
/-- Modelled from the spec: the address macro `REG_BG0VOFS` of the absent header `mgba/internal/gba/io.h` (hardware address of the register the spec names). -/
def REG_BG0VOFS : Nat := 0x12
/-- Modelled from the spec: the address macro `REG_BG1HOFS` of the absent header `mgba/internal/gba/io.h` (hardware address of the register the spec names). -/
def REG_BG1HOFS : Nat := 0x14
/-- Modelled from the spec: the address macro `REG_BG1VOFS` of the absent header `mgba/internal/gba/io.h` (hardware address of the register the spec names). -/
def REG_BG1VOFS : Nat := 0x16
/-- Modelled from the spec: the address macro `REG_BG2HOFS` of the absent header `mgba/internal/gba/io.h` (hardware address of the register the spec names). -/
def REG_BG2HOFS : Nat := 0x18
/-- Modelled from the spec: the address macro `REG_BG2VOFS` of the absent header `mgba/internal/gba/io.h` (hardware address of the register the spec names). -/
def REG_BG2VOFS : Nat := 0x1A
/-- Modelled from the spec: the address macro `REG_BG3HOFS` of the absent header `mgba/internal/gba/io.h` (hardware address of the register the spec names). -/
def REG_BG3HOFS : Nat := 0x1C
/-- Modelled from the spec: the address macro `REG_BG3VOFS` of the absent header `mgba/internal/gba/io.h` (hardware address of the register the spec names). -/
def REG_BG3VOFS : Nat := 0x1E
/-- Modelled from the spec: the address macro `REG_BG2PA` of the absent header `mgba/internal/gba/io.h` (hardware address of the register the spec names). -/
def REG_BG2PA : Nat := 0x20
/-- Modelled from the spec: the address macro `REG_BG2PB` of the absent header `mgba/internal/gba/io.h` (hardware address of the register the spec names). -/
def REG_BG2PB : Nat := 0x22
/-- Modelled from the spec: the address macro `REG_BG2PC` of the absent header `mgba/internal/gba/io.h` (hardware address of the register the spec names). -/
def REG_BG2PC : Nat := 0x24
/-- Modelled from the spec: the address macro `REG_BG2PD` of the absent header `mgba/internal/gba/io.h` (hardware address of the register the spec names). -/
def REG_BG2PD : Nat := 0x26
/-- Modelled from the spec: the address macro `REG_BG2X_LO` of the absent header `mgba/internal/gba/io.h` (hardware address of the register the spec names). -/
def REG_BG2X_LO : Nat := 0x28
/-- Modelled from the spec: the address macro `REG_BG2X_HI` of the absent header `mgba/internal/gba/io.h` (hardware address of the register the spec names). -/
def REG_BG2X_HI : Nat := 0x2A
/-- Modelled from the spec: the address macro `REG_BG2Y_LO` of the absent header `mgba/internal/gba/io.h` (hardware address of the register the spec names). -/
def REG_BG2Y_LO : Nat := 0x2C
/-- Modelled from the spec: the address macro `REG_BG2Y_HI` of the absent header `mgba/internal/gba/io.h` (hardware address of the register the spec names). -/
def REG_BG2Y_HI : Nat := 0x2E
/-- Modelled from the spec: the address macro `REG_BG3PA` of the absent header `mgba/internal/gba/io.h` (hardware address of the register the spec names). -/
def REG_BG3PA : Nat := 0x30
/-- Modelled from the spec: the address macro `REG_BG3PB` of the absent header `mgba/internal/gba/io.h` (hardware address of the register the spec names). -/
def REG_BG3PB : Nat := 0x32
/-- Modelled from the spec: the address macro `REG_BG3PC` of the absent header `mgba/internal/gba/io.h` (hardware address of the register the spec names). -/
def REG_BG3PC : Nat := 0x34
/-- Modelled from the spec: the address macro `REG_BG3PD` of the absent header `mgba/internal/gba/io.h` (hardware address of the register the spec names). -/
def REG_BG3PD : Nat := 0x36
/-- Modelled from the spec: the address macro `REG_BG3X_LO` of the absent header `mgba/internal/gba/io.h` (hardware address of the register the spec names). -/
def REG_BG3X_LO : Nat := 0x38
/-- Modelled from the spec: the address macro `REG_BG3X_HI` of the absent header `mgba/internal/gba/io.h` (hardware address of the register the spec names). -/
def REG_BG3X_HI : Nat := 0x3A
/-- Modelled from the spec: the address macro `REG_BG3Y_LO` of the absent header `mgba/internal/gba/io.h` (hardware address of the register the spec names). -/
def REG_BG3Y_LO : Nat := 0x3C
/-- Modelled from the spec: the address macro `REG_BG3Y_HI` of the absent header `mgba/internal/gba/io.h` (hardware address of the register the spec names). -/
def REG_BG3Y_HI : Nat := 0x3E
/-- Modelled from the spec: the address macro `REG_WIN0H` of the absent header `mgba/internal/gba/io.h` (hardware address of the register the spec names). -/
def REG_WIN0H : Nat := 0x40
/-- Modelled from the spec: the address macro `REG_WIN1H` of the absent header `mgba/internal/gba/io.h` (hardware address of the register the spec names). -/
def REG_WIN1H : Nat := 0x42
/-- Modelled from the spec: the address macro `REG_WIN0V` of the absent header `mgba/internal/gba/io.h` (hardware address of the register the spec names). -/
def REG_WIN0V : Nat := 0x44
/-- Modelled from the spec: the address macro `REG_WIN1V` of the absent header `mgba/internal/gba/io.h` (hardware address of the register the spec names). -/
def REG_WIN1V : Nat := 0x46
/-- Modelled from the spec: the address macro `REG_WININ` of the absent header `mgba/internal/gba/io.h` (hardware address of the register the spec names). -/
def REG_WININ : Nat := 0x48
/-- Modelled from the spec: the address macro `REG_WINOUT` of the absent header `mgba/internal/gba/io.h` (hardware address of the register the spec names). -/
def REG_WINOUT : Nat := 0x4A
/-- Modelled from the spec: the address macro `REG_MOSAIC` of the absent header `mgba/internal/gba/io.h` (hardware address of the register the spec names). -/
def REG_MOSAIC : Nat := 0x4C
/-- Modelled from the spec: the address macro `REG_BLDCNT` of the absent header `mgba/internal/gba/io.h` (hardware address of the register the spec names). -/
def REG_BLDCNT : Nat := 0x50
/-- Modelled from the spec: the address macro `REG_BLDALPHA` of the absent header `mgba/internal/gba/io.h` (hardware address of the register the spec names). -/
def REG_BLDALPHA : Nat := 0x52
/-- Modelled from the spec: the address macro `REG_BLDY` of the absent header `mgba/internal/gba/io.h` (hardware address of the register the spec names). -/
def REG_BLDY : Nat := 0x54

/-- Modelled from the spec: screen width, from the absent header `mgba/internal/gba/video.h`. -/
def GBA_VIDEO_HORIZONTAL_PIXELS : Nat := 240
/-- Modelled from the spec: screen height (160 rows per frame), from the absent header `mgba/internal/gba/video.h`. -/
def GBA_VIDEO_VERTICAL_PIXELS : Nat := 160

/-! ## Machine integers -/

/-- Two's-complement reading of the low 16 bits (`int16_t` from a bit pattern). -/
def toS16 (n : Nat) : Int :=
  if n % 65536 < 32768 then ((n % 65536 : Nat) : Int) else ((n % 65536 : Nat) : Int) - 65536

/-- Two's-complement reading of the low 32 bits (`int32_t` from a bit pattern). -/
def toS32 (n : Nat) : Int :=
  if n % 4294967296 < 2147483648 then ((n % 4294967296 : Nat) : Int)
  else ((n % 4294967296 : Nat) : Int) - 4294967296

/-- Bit pattern of a signed value as a 32-bit unsigned number. -/
def toU32 (x : Int) : Nat := (x % 4294967296).toNat

/-- Result of a 32-bit signed operation whose mathematical value is `x`. -/
def wrap32 (x : Int) : Int := toS32 (toU32 x)

/-- Truncation to `uint8_t`. -/
def toU8 (n : Nat) : Nat := n % 256

/-! ## Bit fields of the registers (`DECL_BITFIELD` declarations of the headers)

Positions are those of the hardware registers: the specification names mode as
DISPCNT bits 0..2, forced blank as bit 7 and the background enables as bits 8..11. -/

/-- Modelled from the spec: the bit-field accessor `GBARegisterDISPCNTGetMode` declared by `DECL_BITFIELD` / `DECL_BITS` in an absent header; position as in the hardware register. -/
def GBARegisterDISPCNTGetMode (v : Nat) : Nat := v &&& 7
/-- Modelled from the spec: the bit-field accessor `GBARegisterDISPCNTIsFrameSelect` declared by `DECL_BITFIELD` / `DECL_BITS` in an absent header; position as in the hardware register. -/
def GBARegisterDISPCNTIsFrameSelect (v : Nat) : Bool := v.testBit 4
/-- Modelled from the spec: the bit-field accessor `GBARegisterDISPCNTIsObjCharacterMapping` declared by `DECL_BITFIELD` / `DECL_BITS` in an absent header; position as in the hardware register. -/
def GBARegisterDISPCNTIsObjCharacterMapping (v : Nat) : Bool := v.testBit 6
/-- Modelled from the spec: the bit-field accessor `GBARegisterDISPCNTIsForcedBlank` declared by `DECL_BITFIELD` / `DECL_BITS` in an absent header; position as in the hardware register. -/
def GBARegisterDISPCNTIsForcedBlank (v : Nat) : Bool := v.testBit 7
/-- Modelled from the spec: the bit-field accessor `GBARegisterDISPCNTGetBg0Enable` declared by `DECL_BITFIELD` / `DECL_BITS` in an absent header; position as in the hardware register. -/
def GBARegisterDISPCNTGetBg0Enable (v : Nat) : Bool := v.testBit 8
/-- Modelled from the spec: the bit-field accessor `GBARegisterDISPCNTGetBg1Enable` declared by `DECL_BITFIELD` / `DECL_BITS` in an absent header; position as in the hardware register. -/
def GBARegisterDISPCNTGetBg1Enable (v : Nat) : Bool := v.testBit 9
/-- Modelled from the spec: the bit-field accessor `GBARegisterDISPCNTGetBg2Enable` declared by `DECL_BITFIELD` / `DECL_BITS` in an absent header; position as in the hardware register. -/
def GBARegisterDISPCNTGetBg2Enable (v : Nat) : Bool := v.testBit 10
/-- Modelled from the spec: the bit-field accessor `GBARegisterDISPCNTGetBg3Enable` declared by `DECL_BITFIELD` / `DECL_BITS` in an absent header; position as in the hardware register. -/
def GBARegisterDISPCNTGetBg3Enable (v : Nat) : Bool := v.testBit 11
/-- Modelled from the spec: the bit-field accessor `GBARegisterDISPCNTIsObjEnable` declared by `DECL_BITFIELD` / `DECL_BITS` in an absent header; position as in the hardware register. -/
def GBARegisterDISPCNTIsObjEnable (v : Nat) : Bool := v.testBit 12

/-- Modelled from the spec: the bit-field accessor `GBARegisterBGCNTGetPriority` declared by `DECL_BITFIELD` / `DECL_BITS` in an absent header; position as in the hardware register. -/
def GBARegisterBGCNTGetPriority (v : Nat) : Nat := v &&& 3
/-- Modelled from the spec: the bit-field accessor `GBARegisterBGCNTGetCharBase` declared by `DECL_BITFIELD` / `DECL_BITS` in an absent header; position as in the hardware register. -/
def GBARegisterBGCNTGetCharBase (v : Nat) : Nat := (v >>> 2) &&& 3
/-- Modelled from the spec: the bit-field accessor `GBARegisterBGCNTGetMosaic` declared by `DECL_BITFIELD` / `DECL_BITS` in an absent header; position as in the hardware register. -/
def GBARegisterBGCNTGetMosaic (v : Nat) : Nat := (v >>> 6) &&& 1
/-- Modelled from the spec: the bit-field accessor `GBARegisterBGCNTGet256Color` declared by `DECL_BITFIELD` / `DECL_BITS` in an absent header; position as in the hardware register. -/
def GBARegisterBGCNTGet256Color (v : Nat) : Nat := (v >>> 7) &&& 1
/-- Modelled from the spec: the bit-field accessor `GBARegisterBGCNTGetScreenBase` declared by `DECL_BITFIELD` / `DECL_BITS` in an absent header; position as in the hardware register. -/
def GBARegisterBGCNTGetScreenBase (v : Nat) : Nat := (v >>> 8) &&& 31
/-- Modelled from the spec: the bit-field accessor `GBARegisterBGCNTGetOverflow` declared by `DECL_BITFIELD` / `DECL_BITS` in an absent header; position as in the hardware register. -/
def GBARegisterBGCNTGetOverflow (v : Nat) : Nat := (v >>> 13) &&& 1
/-- Modelled from the spec: the bit-field accessor `GBARegisterBGCNTGetSize` declared by `DECL_BITFIELD` / `DECL_BITS` in an absent header; position as in the hardware register. -/
def GBARegisterBGCNTGetSize (v : Nat) : Nat := (v >>> 14) &&& 3

/-- Modelled from the spec: the bit-field accessor `GBARegisterBLDCNTGetTarget1Bg0` declared by `DECL_BITFIELD` / `DECL_BITS` in an absent header; position as in the hardware register. -/
def GBARegisterBLDCNTGetTarget1Bg0 (v : Nat) : Nat := v &&& 1
/-- Modelled from the spec: the bit-field accessor `GBARegisterBLDCNTGetTarget1Bg1` declared by `DECL_BITFIELD` / `DECL_BITS` in an absent header; position as in the hardware register. -/
def GBARegisterBLDCNTGetTarget1Bg1 (v : Nat) : Nat := (v >>> 1) &&& 1
/-- Modelled from the spec: the bit-field accessor `GBARegisterBLDCNTGetTarget1Bg2` declared by `DECL_BITFIELD` / `DECL_BITS` in an absent header; position as in the hardware register. -/
def GBARegisterBLDCNTGetTarget1Bg2 (v : Nat) : Nat := (v >>> 2) &&& 1
/-- Modelled from the spec: the bit-field accessor `GBARegisterBLDCNTGetTarget1Bg3` declared by `DECL_BITFIELD` / `DECL_BITS` in an absent header; position as in the hardware register. -/
def GBARegisterBLDCNTGetTarget1Bg3 (v : Nat) : Nat := (v >>> 3) &&& 1
/-- Modelled from the spec: the bit-field accessor `GBARegisterBLDCNTGetTarget1Obj` declared by `DECL_BITFIELD` / `DECL_BITS` in an absent header; position as in the hardware register. -/
def GBARegisterBLDCNTGetTarget1Obj (v : Nat) : Nat := (v >>> 4) &&& 1
/-- Modelled from the spec: the bit-field accessor `GBARegisterBLDCNTGetTarget1Bd` declared by `DECL_BITFIELD` / `DECL_BITS` in an absent header; position as in the hardware register. -/
def GBARegisterBLDCNTGetTarget1Bd (v : Nat) : Nat := (v >>> 5) &&& 1
/-- Modelled from the spec: the bit-field accessor `GBARegisterBLDCNTGetEffect` declared by `DECL_BITFIELD` / `DECL_BITS` in an absent header; position as in the hardware register. -/
def GBARegisterBLDCNTGetEffect (v : Nat) : Nat := (v >>> 6) &&& 3
/-- Modelled from the spec: the bit-field accessor `GBARegisterBLDCNTGetTarget2Bg0` declared by `DECL_BITFIELD` / `DECL_BITS` in an absent header; position as in the hardware register. -/
def GBARegisterBLDCNTGetTarget2Bg0 (v : Nat) : Nat := (v >>> 8) &&& 1
/-- Modelled from the spec: the bit-field accessor `GBARegisterBLDCNTGetTarget2Bg1` declared by `DECL_BITFIELD` / `DECL_BITS` in an absent header; position as in the hardware register. -/
def GBARegisterBLDCNTGetTarget2Bg1 (v : Nat) : Nat := (v >>> 9) &&& 1
/-- Modelled from the spec: the bit-field accessor `GBARegisterBLDCNTGetTarget2Bg2` declared by `DECL_BITFIELD` / `DECL_BITS` in an absent header; position as in the hardware register. -/
def GBARegisterBLDCNTGetTarget2Bg2 (v : Nat) : Nat := (v >>> 10) &&& 1
/-- Modelled from the spec: the bit-field accessor `GBARegisterBLDCNTGetTarget2Bg3` declared by `DECL_BITFIELD` / `DECL_BITS` in an absent header; position as in the hardware register. -/
def GBARegisterBLDCNTGetTarget2Bg3 (v : Nat) : Nat := (v >>> 11) &&& 1
/-- Modelled from the spec: the bit-field accessor `GBARegisterBLDCNTGetTarget2Obj` declared by `DECL_BITFIELD` / `DECL_BITS` in an absent header; position as in the hardware register. -/
def GBARegisterBLDCNTGetTarget2Obj (v : Nat) : Nat := (v >>> 12) &&& 1
/-- Modelled from the spec: the bit-field accessor `GBARegisterBLDCNTGetTarget2Bd` declared by `DECL_BITFIELD` / `DECL_BITS` in an absent header; position as in the hardware register. -/
def GBARegisterBLDCNTGetTarget2Bd (v : Nat) : Nat := (v >>> 13) &&& 1

/-! ## Data model (`struct GBAVideoGLRenderer` of `gl.h`)

The structure declarations live in the absent header `gl.h`; the field types follow
the specification: scroll offsets are unsigned 16-bit, the affine
matrix is signed 8.8 (`int16_t`), reference points and accumulators are signed 32-bit,
window bounds are 8-bit. Arrays are total functions on the index; indices beyond the
declared length are outside the C array. -/

/-- Modelled from the spec: the `affine` member of a background, declared in the absent header
`gl.h`: the matrix (`dx, dmx, dy, dmy`, signed 8.8) and the running reference point
(`sx, sy`, signed 32-bit). -/
structure GBAVideoGLAffine where
  dx : Int
  dmx : Int
  dy : Int
  dmy : Int
  sx : Int
  sy : Int

/-- Modelled from the spec: `struct GBAVideoGLBackground` of the absent header `gl.h`, with the
fields gl.c reads and writes; the GL object handles (`fbo`, `tex`, `flags`) are left out. -/
structure GBAVideoGLBackground where
  enabled : Int
  priority : Nat
  charBase : Nat
  mosaic : Nat
  multipalette : Nat
  screenBase : Nat
  overflow : Nat
  size : Nat
  target1 : Nat
  target2 : Nat
  x : Nat
  y : Nat
  refx : Int
  refy : Int
  affine : GBAVideoGLAffine
  scanlineAffine : Nat → Int
  scanlineOffset : Nat → Int

/-- Modelled from the spec: `struct GBAVideoWindowRegion` of an absent header: two 8-bit
fields (`end` is a reserved word, hence `end_`). -/
structure GBAVideoWindowRegion where
  end_ : Nat
  start : Nat

/-- Modelled from the spec: `struct GBAVideoGLWindowN` of the absent header `gl.h`; `control`
is an 8-bit window-control field. -/
structure GBAVideoGLWindowN where
  h : GBAVideoWindowRegion
  v : GBAVideoWindowRegion
  control : Nat

/-- The renderer inputs of one flushed batch: what `_drawScanlines` and the draw
functions it calls read from the renderer when they issue the GL commands for rows
`firstY .. lastY`. -/
structure Batch where
  firstY : Int
  lastY : Int
  firstAffine : Int
  dispcnt : Nat
  mosaic : Nat
  bg : Fin 4 → GBAVideoGLBackground
  blendEffect : Nat
  target1Obj : Nat
  target1Bd : Nat
  target2Obj : Nat
  target2Bd : Nat
  blda : Nat
  bldb : Nat
  bldy : Nat
  winControl : Fin 2 → Nat
  winout : Nat
  objwin : Nat
  winNHistory : Fin 2 → Nat → Int
  shadowPalette : Nat → Nat
  disableBG : Fin 4 → Bool
  disableOBJ : Bool

/-- Modelled from the spec: `struct GBAVideoGLRenderer` of the absent header `gl.h`, with the
fields gl.c reads and writes outside its GL calls, the external palette memory it
reads (`d.palette`), the frontend overrides (`d.disableBG`, `d.disableOBJ`) and the two
command logs that stand for the GL side effects:
`batches` (one entry per `_drawScanlines` call) and `uploads` (one entry
`(first, count)` per `glTexSubImage2D` call of the VRAM upload). -/
structure GBAVideoGLRenderer where
  shadowRegs : Nat → Nat
  regsDirty : Nat
  paletteDirty : Bool
  vramDirty : Nat
  oamDirty : Bool
  firstAffine : Int
  firstY : Int
  dispcnt : Nat
  mosaic : Nat
  bg : Fin 4 → GBAVideoGLBackground
  winN : Fin 2 → GBAVideoGLWindowN
  winNHistory : Fin 2 → Nat → Int
  blendEffect : Nat
  target1Obj : Nat
  target1Bd : Nat
  target2Obj : Nat
  target2Bd : Nat
  blda : Nat
  bldb : Nat
  bldy : Nat
  winout : Nat
  objwin : Nat
  shadowPalette : Nat → Nat
  palette : Nat → Nat
  disableBG : Fin 4 → Bool
  disableOBJ : Bool
  batches : List Batch
  uploads : List (Nat × Nat)

/-- Assignment to `glRenderer->bg[i]`. -/
def setBg (s : GBAVideoGLRenderer) (i : Fin 4) (b : GBAVideoGLBackground) : GBAVideoGLRenderer :=
  { s with bg := fun j => if j = i then b else s.bg j }

/-- Assignment to `glRenderer->winN[i]`. -/
def setWin (s : GBAVideoGLRenderer) (i : Fin 2) (w : GBAVideoGLWindowN) : GBAVideoGLRenderer :=
  { s with winN := fun j => if j = i then w else s.winN j }

/-- Assignment to one array element. -/
def setAt {α : Type} (f : Nat → α) (i : Nat) (a : α) : Nat → α :=
  fun j => if j = i then a else f j

/-! ## Reference-point writes (gl.c 1535-1557) -/

/-- `GBAVideoGLRendererWriteBGX_LO`. -/
def GBAVideoGLRendererWriteBGX_LO (bg : GBAVideoGLBackground) (value : Nat) : GBAVideoGLBackground :=
  let refx := toS32 ((toU32 bg.refx &&& 0xFFFF0000) ||| value)
  { bg with refx := refx, affine := { bg.affine with sx := refx } }

/-- `GBAVideoGLRendererWriteBGX_HI`: assemble, shift left by 4, arithmetic shift right by 4. -/
def GBAVideoGLRendererWriteBGX_HI (bg : GBAVideoGLBackground) (value : Nat) : GBAVideoGLBackground :=
  let r0 := toS32 ((toU32 bg.refx &&& 0x0000FFFF) ||| ((value <<< 16) % 4294967296))
  let r1 := toS32 ((toU32 r0 <<< 4) % 4294967296)
  let refx := r1 >>> (4 : Nat)
  { bg with refx := refx, affine := { bg.affine with sx := refx } }

/-- `GBAVideoGLRendererWriteBGY_LO`. -/
def GBAVideoGLRendererWriteBGY_LO (bg : GBAVideoGLBackground) (value : Nat) : GBAVideoGLBackground :=
  let refy := toS32 ((toU32 bg.refy &&& 0xFFFF0000) ||| value)
  { bg with refy := refy, affine := { bg.affine with sy := refy } }

/-- `GBAVideoGLRendererWriteBGY_HI`. -/
def GBAVideoGLRendererWriteBGY_HI (bg : GBAVideoGLBackground) (value : Nat) : GBAVideoGLBackground :=
  let r0 := toS32 ((toU32 bg.refy &&& 0x0000FFFF) ||| ((value <<< 16) % 4294967296))
  let r1 := toS32 ((toU32 r0 <<< 4) % 4294967296)
  let refy := r1 >>> (4 : Nat)
  { bg with refy := refy, affine := { bg.affine with sy := refy } }

/-! ## Register ingress (gl.c 948-1134) -/

/-- The window-bound computation shared by the four `REG_WINnH` / `REG_WINnV` cases:
`end = value; start = value >> 8;` on 8-bit fields, then the two clamping
statements against the screen bound. -/
def writeWindowRegion (bound value : Nat) : GBAVideoWindowRegion :=
  let end0 := toU8 value
  let start0 := toU8 (value >>> 8)
  let start1 := if start0 > bound ∧ start0 > end0 then 0 else start0
  if end0 > bound then
    { end_ := bound, start := if start1 > bound then bound else start1 }
  else
    { end_ := end0, start := start1 }

/-- The `switch (address)` of `GBAVideoGLRendererWriteVideoRegister`: the renderer
after the side-table update, the masked value, and the `dirty` flag. -/
def writeSwitch (s : GBAVideoGLRenderer) (address value : Nat) : GBAVideoGLRenderer × Nat × Bool :=
  if address = REG_DISPCNT then (s, value &&& 0xFFF7, true)
  else if address = REG_BG0CNT ∨ address = REG_BG1CNT then (s, value &&& 0xDFFF, true)
  else if address = REG_BG0HOFS then
    (setBg s 0 { s.bg 0 with x := value &&& 0x01FF }, value &&& 0x01FF, false)
  else if address = REG_BG0VOFS then
    (setBg s 0 { s.bg 0 with y := value &&& 0x01FF }, value &&& 0x01FF, false)
  else if address = REG_BG1HOFS then
    (setBg s 1 { s.bg 1 with x := value &&& 0x01FF }, value &&& 0x01FF, false)
  else if address = REG_BG1VOFS then
    (setBg s 1 { s.bg 1 with y := value &&& 0x01FF }, value &&& 0x01FF, false)
  else if address = REG_BG2HOFS then
    (setBg s 2 { s.bg 2 with x := value &&& 0x01FF }, value &&& 0x01FF, false)
  else if address = REG_BG2VOFS then
    (setBg s 2 { s.bg 2 with y := value &&& 0x01FF }, value &&& 0x01FF, false)
  else if address = REG_BG3HOFS then
    (setBg s 3 { s.bg 3 with x := value &&& 0x01FF }, value &&& 0x01FF, false)
  else if address = REG_BG3VOFS then
    (setBg s 3 { s.bg 3 with y := value &&& 0x01FF }, value &&& 0x01FF, false)
  else if address = REG_BG2PA then
    (setBg s 2 { s.bg 2 with affine := { (s.bg 2).affine with dx := toS16 value } }, value, false)
  else if address = REG_BG2PB then
    (setBg s 2 { s.bg 2 with affine := { (s.bg 2).affine with dmx := toS16 value } }, value, false)
  else if address = REG_BG2PC then
    (setBg s 2 { s.bg 2 with affine := { (s.bg 2).affine with dy := toS16 value } }, value, false)
  else if address = REG_BG2PD then
    (setBg s 2 { s.bg 2 with affine := { (s.bg 2).affine with dmy := toS16 value } }, value, false)
  else if address = REG_BG2X_LO then
    (setBg s 2 (GBAVideoGLRendererWriteBGX_LO (s.bg 2) value), value, false)
  else if address = REG_BG2X_HI then
    (setBg s 2 (GBAVideoGLRendererWriteBGX_HI (s.bg 2) value), value, false)
  else if address = REG_BG2Y_LO then
    (setBg s 2 (GBAVideoGLRendererWriteBGY_LO (s.bg 2) value), value, false)
  else if address = REG_BG2Y_HI then
    (setBg s 2 (GBAVideoGLRendererWriteBGY_HI (s.bg 2) value), value, false)
  else if address = REG_BG3PA then
    (setBg s 3 { s.bg 3 with affine := { (s.bg 3).affine with dx := toS16 value } }, value, false)
  else if address = REG_BG3PB then
    (setBg s 3 { s.bg 3 with affine := { (s.bg 3).affine with dmx := toS16 value } }, value, false)
  else if address = REG_BG3PC then
    (setBg s 3 { s.bg 3 with affine := { (s.bg 3).affine with dy := toS16 value } }, value, false)
  else if address = REG_BG3PD then
    (setBg s 3 { s.bg 3 with affine := { (s.bg 3).affine with dmy := toS16 value } }, value, false)
  else if address = REG_BG3X_LO then
    (setBg s 3 (GBAVideoGLRendererWriteBGX_LO (s.bg 3) value), value, false)
  else if address = REG_BG3X_HI then
    (setBg s 3 (GBAVideoGLRendererWriteBGX_HI (s.bg 3) value), value, false)
  else if address = REG_BG3Y_LO then
    (setBg s 3 (GBAVideoGLRendererWriteBGY_LO (s.bg 3) value), value, false)
  else if address = REG_BG3Y_HI then
    (setBg s 3 (GBAVideoGLRendererWriteBGY_HI (s.bg 3) value), value, false)
  else if address = REG_BLDALPHA then (s, value &&& 0x1F1F, true)
  else if address = REG_BLDY then
    (s, if (value &&& 0x1F) > 0x10 then 0x10 else value &&& 0x1F, true)
  else if address = REG_WIN0H then
    (setWin s 0 { s.winN 0 with h := writeWindowRegion GBA_VIDEO_HORIZONTAL_PIXELS value }, value, false)
  else if address = REG_WIN1H then
    (setWin s 1 { s.winN 1 with h := writeWindowRegion GBA_VIDEO_HORIZONTAL_PIXELS value }, value, false)
  else if address = REG_WIN0V then
    (setWin s 0 { s.winN 0 with v := writeWindowRegion GBA_VIDEO_VERTICAL_PIXELS value }, value, false)
  else if address = REG_WIN1V then
    (setWin s 1 { s.winN 1 with v := writeWindowRegion GBA_VIDEO_VERTICAL_PIXELS value }, value, false)
  else if address = REG_WININ ∨ address = REG_WINOUT then (s, value &&& 0x3F3F, true)
  else (s, value, true)

/-- `GBAVideoGLRendererWriteVideoRegister`: returns the renderer after the write and
the value handed back to the caller. `regsDirty` is a `uint64_t`; every shift made
for an address below `0x60` is below 48. The forwarding of the write to `renderer->cache`
touches no field of the renderer. The record has a total shadow table, so this function
is the C function for the addresses whose index `address >> 1` lies inside
`shadowRegs`, that is below `0x60`; `writeVideoRegisterDefined` marks the others. -/
def GBAVideoGLRendererWriteVideoRegister (s : GBAVideoGLRenderer) (address value : Nat) :
    GBAVideoGLRenderer × Nat :=
  let r := writeSwitch s address value
  let s1 := r.1
  let value1 := r.2.1
  let dirty := r.2.2
  let same := decide (s1.shadowRegs (address >>> 1) = value1)
  let s2 := if same then s1 else { s1 with shadowRegs := setAt s1.shadowRegs (address >>> 1) value1 }
  let dirty1 := if same then false else dirty
  let s3 := if dirty1 then { s2 with regsDirty := s2.regsDirty ||| (1 <<< (address >>> 1)) } else s2
  (s3, value1)

/-- Modelled from the spec: the number of elements of `shadowRegs`, an array declared
in the absent header `gl.h`: the 48 sixteen-bit words of the spec, which are also the
bound of the clean loop (gl.c 1311) and the 48 bits `reset` writes to `regsDirty`. -/
def SHADOW_REGS_WORDS : Nat := 0x30

/-- `GBAVideoGLRendererWriteVideoRegister` as C defines it. The tail (gl.c 1125-1131)
reads and writes `shadowRegs[address >> 1]` and shifts `1ULL` by `address >> 1` without
a test of the index: inside the array the call is the function above, outside it the
access is out of bounds and the call has no defined result (`none`). -/
def writeVideoRegisterDefined (s : GBAVideoGLRenderer) (address value : Nat) :
    Option (GBAVideoGLRenderer × Nat) :=
  if address >>> 1 < SHADOW_REGS_WORDS then
    some (GBAVideoGLRendererWriteVideoRegister s address value)
  else none

/-! ## Applying a dirty register (gl.c 1136-1186, 1503-1574) -/

/-- `_enableBg`: disabling is immediate, enabling latches to 4. -/
def _enableBg (s : GBAVideoGLRenderer) (bg : Fin 4) (active : Bool) : GBAVideoGLRenderer :=
  let wasActive := (s.bg bg).enabled
  if !active then setBg s bg { s.bg bg with enabled := 0 }
  else if wasActive = 0 ∧ active then setBg s bg { s.bg bg with enabled := 4 }
  else s

/-- `GBAVideoGLRendererUpdateDISPCNT`. -/
def GBAVideoGLRendererUpdateDISPCNT (s : GBAVideoGLRenderer) : GBAVideoGLRenderer :=
  let s := _enableBg s 0 (GBARegisterDISPCNTGetBg0Enable s.dispcnt)
  let s := _enableBg s 1 (GBARegisterDISPCNTGetBg1Enable s.dispcnt)
  let s := _enableBg s 2 (GBARegisterDISPCNTGetBg2Enable s.dispcnt)
  _enableBg s 3 (GBARegisterDISPCNTGetBg3Enable s.dispcnt)

/-- `GBAVideoGLRendererWriteBGCNT`. -/
def GBAVideoGLRendererWriteBGCNT (bg : GBAVideoGLBackground) (value : Nat) : GBAVideoGLBackground :=
  { bg with
    priority := GBARegisterBGCNTGetPriority value
    charBase := GBARegisterBGCNTGetCharBase value <<< 13
    mosaic := GBARegisterBGCNTGetMosaic value
    multipalette := GBARegisterBGCNTGet256Color value
    screenBase := GBARegisterBGCNTGetScreenBase value <<< 10
    overflow := GBARegisterBGCNTGetOverflow value
    size := GBARegisterBGCNTGetSize value }

/-- `GBAVideoGLRendererWriteBLDCNT`. -/
def GBAVideoGLRendererWriteBLDCNT (s : GBAVideoGLRenderer) (value : Nat) : GBAVideoGLRenderer :=
  let t1 : Fin 4 → Nat := fun j =>
    if j = 0 then GBARegisterBLDCNTGetTarget1Bg0 value
    else if j = 1 then GBARegisterBLDCNTGetTarget1Bg1 value
    else if j = 2 then GBARegisterBLDCNTGetTarget1Bg2 value
    else GBARegisterBLDCNTGetTarget1Bg3 value
  let t2 : Fin 4 → Nat := fun j =>
    if j = 0 then GBARegisterBLDCNTGetTarget2Bg0 value
    else if j = 1 then GBARegisterBLDCNTGetTarget2Bg1 value
    else if j = 2 then GBARegisterBLDCNTGetTarget2Bg2 value
    else GBARegisterBLDCNTGetTarget2Bg3 value
  { s with
    bg := fun j => { s.bg j with target1 := t1 j, target2 := t2 j }
    blendEffect := GBARegisterBLDCNTGetEffect value
    target1Obj := GBARegisterBLDCNTGetTarget1Obj value
    target1Bd := GBARegisterBLDCNTGetTarget1Bd value
    target2Obj := GBARegisterBLDCNTGetTarget2Obj value
    target2Bd := GBARegisterBLDCNTGetTarget2Bd value }

/-- `_cleanRegister`: route one dirty register to the derived renderer state. -/
def _cleanRegister (s : GBAVideoGLRenderer) (address value : Nat) : GBAVideoGLRenderer :=
  if address = REG_DISPCNT then GBAVideoGLRendererUpdateDISPCNT { s with dispcnt := value }
  else if address = REG_BG0CNT then setBg s 0 (GBAVideoGLRendererWriteBGCNT (s.bg 0) value)
  else if address = REG_BG1CNT then setBg s 1 (GBAVideoGLRendererWriteBGCNT (s.bg 1) value)
  else if address = REG_BG2CNT then setBg s 2 (GBAVideoGLRendererWriteBGCNT (s.bg 2) value)
  else if address = REG_BG3CNT then setBg s 3 (GBAVideoGLRendererWriteBGCNT (s.bg 3) value)
  else if address = REG_BLDCNT then GBAVideoGLRendererWriteBLDCNT s value
  else if address = REG_BLDALPHA then
    { s with
      blda := if (value &&& 0x1F) > 0x10 then 0x10 else value &&& 0x1F
      bldb := if ((value >>> 8) &&& 0x1F) > 0x10 then 0x10 else (value >>> 8) &&& 0x1F }
  else if address = REG_BLDY then { s with bldy := value }
  else if address = REG_WININ then
    setWin (setWin s 0 { s.winN 0 with control := toU8 value }) 1
      { s.winN 1 with control := toU8 (value >>> 8) }
  else if address = REG_WINOUT then { s with winout := toU8 value, objwin := toU8 (value >>> 8) }
  else if address = REG_MOSAIC then { s with mosaic := value }
  else s

/-! ## Which scanlines need a VRAM upload (gl.c 1188-1288) -/

/-- `_dirtyMode0`. -/
def _dirtyMode0 (s : GBAVideoGLRenderer) (background : GBAVideoGLBackground) : Bool :=
  if background.enabled = 0 then false
  else
    let screenBase := background.screenBase >>> 11
    let screenMask := (7 <<< screenBase) &&& 0xFFFF
    if s.vramDirty &&& screenMask ≠ 0 then true
    else
      let charBase := background.charBase >>> 11
      let charMask := (0xFFFF <<< charBase) &&& 0xFFFF
      if s.vramDirty &&& charMask ≠ 0 then true else false

/-- `_dirtyMode2`. -/
def _dirtyMode2 (s : GBAVideoGLRenderer) (background : GBAVideoGLBackground) : Bool :=
  if background.enabled = 0 then false
  else
    let screenBase := background.screenBase >>> 11
    let screenMask := (0xF <<< screenBase) &&& 0xFFFF
    if s.vramDirty &&& screenMask ≠ 0 then true
    else
      let charBase := background.charBase >>> 11
      let charMask := (0x3FFF <<< charBase) &&& 0xFFFF
      if s.vramDirty &&& charMask ≠ 0 then true else false

/-- `_dirtyMode3`. -/
def _dirtyMode3 (s : GBAVideoGLRenderer) (background : GBAVideoGLBackground) : Bool :=
  if background.enabled = 0 then false
  else if s.vramDirty &&& 0xFFFFF ≠ 0 then true else false

/-- `_dirtyMode45`. -/
def _dirtyMode45 (s : GBAVideoGLRenderer) (background : GBAVideoGLBackground) : Bool :=
  if background.enabled = 0 then false
  else
    let start := if GBARegisterDISPCNTIsFrameSelect s.dispcnt then 5 else 0
    let mask := 0x3FF <<< start
    if s.vramDirty &&& mask ≠ 0 then true else false

/-- `_needsVramUpload`. -/
def _needsVramUpload (s : GBAVideoGLRenderer) (y : Nat) : Bool :=
  if s.vramDirty = 0 then false
  else if y = 0 then true
  else if GBARegisterDISPCNTIsObjEnable s.dispcnt ∧ s.vramDirty &&& 0xFF0000 ≠ 0 then true
  else
    let mode := GBARegisterDISPCNTGetMode s.dispcnt
    if mode = 0 then
      _dirtyMode0 s (s.bg 0) || _dirtyMode0 s (s.bg 1) || _dirtyMode0 s (s.bg 2) || _dirtyMode0 s (s.bg 3)
    else if mode = 1 then
      _dirtyMode0 s (s.bg 0) || _dirtyMode0 s (s.bg 1) || _dirtyMode2 s (s.bg 2)
    else if mode = 2 then _dirtyMode2 s (s.bg 2) || _dirtyMode2 s (s.bg 3)
    else if mode = 3 then _dirtyMode3 s (s.bg 2)
    else if mode = 4 then _dirtyMode45 s (s.bg 2)
    else if mode = 5 then _dirtyMode45 s (s.bg 2)
    else false

/-! ## Batch flush, scanline capture, end of frame, reset -/

/-- What the draw calls of a flush of rows `s.firstY .. lastY` read. -/
def snapshot (s : GBAVideoGLRenderer) (lastY : Int) : Batch :=
  { firstY := s.firstY
    lastY := lastY
    firstAffine := s.firstAffine
    dispcnt := s.dispcnt
    mosaic := s.mosaic
    bg := s.bg
    blendEffect := s.blendEffect
    target1Obj := s.target1Obj
    target1Bd := s.target1Bd
    target2Obj := s.target2Obj
    target2Bd := s.target2Bd
    blda := s.blda
    bldb := s.bldb
    bldy := s.bldy
    winControl := fun j => (s.winN j).control
    winout := s.winout
    objwin := s.objwin
    winNHistory := s.winNHistory
    shadowPalette := s.shadowPalette
    disableBG := s.disableBG
    disableOBJ := s.disableOBJ }

/-- `_drawScanlines` (gl.c 1402-1469): issue the draws for rows `firstY .. y` from the
current renderer fields and close the batch. -/
def _drawScanlines (s : GBAVideoGLRenderer) (y : Int) : GBAVideoGLRenderer :=
  { s with batches := s.batches ++ [snapshot s y], firstY := -1 }

/-- The loop `for (i = 0; i < 0x30; ++i)` of the scanline call (gl.c 1311-1317), over
the slots in the given list. -/
def cleanLoop (s : GBAVideoGLRenderer) (slots : List Nat) : GBAVideoGLRenderer :=
  slots.foldl (fun t i =>
    if t.regsDirty.testBit i then _cleanRegister t (i <<< 1) (t.shadowRegs i) else t) s

/-- One iteration of the VRAM upload loop (gl.c 1356-1365): `first` is the start of
the run of dirty pages being collected (`none` for `-1`). -/
def vramUploadStep (vramDirty : Nat) (acc : Option Nat × List (Nat × Nat)) (i : Nat) :
    Option Nat × List (Nat × Nat) :=
  if !vramDirty.testBit i then
    match acc.1 with
    | some first => (none, acc.2 ++ [(first, i - first)])
    | none => acc
  else
    match acc.1 with
    | none => (some i, acc.2)
    | some _ => acc

/-- The `glTexSubImage2D` calls of one VRAM upload, as `(first page, page count)`. -/
def vramUploads (vramDirty : Nat) : List (Nat × Nat) :=
  ((List.range 25).foldl (vramUploadStep vramDirty) (none, [])).2

/-- Per-row capture of the scanline call (gl.c 1320-1344). -/
def captureHistory (s : GBAVideoGLRenderer) (y : Nat) : GBAVideoGLRenderer :=
  let winRow : Fin 2 → Nat → Int := fun j =>
    setAt (setAt (setAt (setAt (s.winNHistory j)
      (y * 4 + 0) ((s.winN j).h.start : Int))
      (y * 4 + 1) ((s.winN j).h.end_ : Int))
      (y * 4 + 2) ((s.winN j).v.start : Int))
      (y * 4 + 3) ((s.winN j).v.end_ : Int)
  let bgRow : Fin 4 → GBAVideoGLBackground := fun j =>
    let b := s.bg j
    let off := setAt b.scanlineOffset y (((b.x ||| (b.y <<< 12) : Nat) : Int))
    if j = 2 ∨ j = 3 then
      { b with
        scanlineOffset := off
        scanlineAffine :=
          setAt (setAt (setAt (setAt b.scanlineAffine
            (y * 4) b.affine.dx) (y * 4 + 1) b.affine.dy) (y * 4 + 2) b.affine.sx)
            (y * 4 + 3) b.affine.sy }
    else { b with scanlineOffset := off }
  { s with winNHistory := winRow, bg := bgRow }

/-- The reference-point advance at the end of the scanline call (gl.c 1394-1399). -/
def advanceAffine (s : GBAVideoGLRenderer) : GBAVideoGLRenderer :=
  if GBARegisterDISPCNTGetMode s.dispcnt ≠ 0 then
    { s with bg := fun j =>
        let b := s.bg j
        if j = 2 ∨ j = 3 then
          { b with affine := { b.affine with
              sx := wrap32 (b.affine.sx + b.affine.dmx)
              sy := wrap32 (b.affine.sy + b.affine.dmy) } }
        else b }
  else s

/-- The `firstAffine` bookkeeping at the head of the scanline call (gl.c 1293-1299). -/
def updateFirstAffine (s : GBAVideoGLRenderer) (y : Nat) : GBAVideoGLRenderer :=
  if GBARegisterDISPCNTGetMode s.dispcnt ≠ 0 then
    (if s.firstAffine < 0 then { s with firstAffine := (y : Int) } else s)
  else { s with firstAffine := -1 }

/-- Flush of the batch in flight when anything is dirty (gl.c 1301-1306). -/
def flushIfDirty (s : GBAVideoGLRenderer) (y : Nat) : GBAVideoGLRenderer :=
  if s.paletteDirty ∨ _needsVramUpload s y ∨ s.oamDirty ∨ s.regsDirty ≠ 0 then
    (if s.firstY ≥ 0 then _drawScanlines s ((y : Int) - 1) else s)
  else s

/-- Opening a batch when none is in flight (gl.c 1307-1309). -/
def openBatch (s : GBAVideoGLRenderer) (y : Nat) : GBAVideoGLRenderer :=
  if s.firstY < 0 then { s with firstY := (y : Int) } else s

/-- Applying every dirty register and clearing the bitmap (gl.c 1311-1318). -/
def cleanRegisters (s : GBAVideoGLRenderer) : GBAVideoGLRenderer :=
  { cleanLoop s (List.range 0x30) with regsDirty := 0 }

/-- The palette snapshot (gl.c 1346-1351). -/
def snapshotPalette (s : GBAVideoGLRenderer) : GBAVideoGLRenderer :=
  if s.paletteDirty then { s with shadowPalette := s.palette, paletteDirty := false } else s

/-- The VRAM upload (gl.c 1353-1367). -/
def uploadVram (s : GBAVideoGLRenderer) (y : Nat) : GBAVideoGLRenderer :=
  if _needsVramUpload s y then
    { s with uploads := s.uploads ++ vramUploads s.vramDirty, vramDirty := 0 }
  else s

/-- The sprite-list rebuild (gl.c 1369-1372). The list itself is produced by
`GBAVideoRendererCleanOAM`, which is not part of these sources; only the flag is kept. -/
def cleanOam (s : GBAVideoGLRenderer) : GBAVideoGLRenderer :=
  if s.oamDirty then { s with oamDirty := false } else s

/-- `GBAVideoGLRendererDrawScanline` (gl.c 1290-1400): the statements of the function in
source order. The framebuffer clears at `y == 0` are GL commands without effect on the
record. -/
def GBAVideoGLRendererDrawScanline (s : GBAVideoGLRenderer) (y : Nat) : GBAVideoGLRenderer :=
  let s := updateFirstAffine s y
  let s := flushIfDirty s y
  let s := openBatch s y
  let s := cleanRegisters s
  let s := captureHistory s y
  let s := snapshotPalette s
  let s := uploadVram s y
  let s := cleanOam s
  advanceAffine s

/-- `GBAVideoGLRendererFinishFrame` (gl.c 1471-1483). -/
def GBAVideoGLRendererFinishFrame (s : GBAVideoGLRenderer) : GBAVideoGLRenderer :=
  let s := _drawScanlines s ((GBA_VIDEO_VERTICAL_PIXELS : Int) - 1)
  { s with
    firstAffine := -1
    firstY := -1
    bg := fun j =>
      let b := s.bg j
      if j = 2 ∨ j = 3 then { b with affine := { b.affine with sx := b.refx, sy := b.refy } }
      else b }

/-- `GBAVideoGLRendererReset` (gl.c 917-928). -/
def GBAVideoGLRendererReset (s : GBAVideoGLRenderer) : GBAVideoGLRenderer :=
  { s with
    paletteDirty := true
    vramDirty := 0xFFFFFF
    firstAffine := -1
    firstY := -1
    dispcnt := 0x0080
    mosaic := 0
    shadowRegs := fun _ => 0
    regsDirty := 0xFFFFFFFFFFFE }

/-- `GBAVideoGLRendererWriteVRAM` (gl.c 930-933). -/
def GBAVideoGLRendererWriteVRAM (s : GBAVideoGLRenderer) (address : Nat) : GBAVideoGLRenderer :=
  { s with vramDirty := s.vramDirty ||| (1 <<< (address >>> 12)) }

/-- `GBAVideoGLRendererWriteOAM` (gl.c 935-939). -/
def GBAVideoGLRendererWriteOAM (s : GBAVideoGLRenderer) (_oam : Nat) : GBAVideoGLRenderer :=
  { s with oamDirty := true }

/-- `GBAVideoGLRendererWritePalette` (gl.c 941-946). -/
def GBAVideoGLRendererWritePalette (s : GBAVideoGLRenderer) (_address _value : Nat) :
    GBAVideoGLRenderer :=
  { s with paletteDirty := true }

/-! ## Specification-side definitions -/

/-- The writable-bit mask of the specification: `v & 0xFFF7` for DISPCNT, `v & 0xDFFF`
for BG0CNT and BG1CNT, `v & 0x01FF` for the eight scroll registers, `v & 0x1F1F` for
BLDALPHA, `min(v & 0x1F, 0x10)` for BLDY, `v & 0x3F3F` for WININ and WINOUT, `v` otherwise. -/
def regMask (addr v : Nat) : Nat :=
  if addr = REG_DISPCNT then v &&& 0xFFF7
  else if addr = REG_BG0CNT ∨ addr = REG_BG1CNT then v &&& 0xDFFF
  else if addr ∈ [REG_BG0HOFS, REG_BG0VOFS, REG_BG1HOFS, REG_BG1VOFS,
      REG_BG2HOFS, REG_BG2VOFS, REG_BG3HOFS, REG_BG3VOFS] then v &&& 0x01FF
  else if addr = REG_BLDALPHA then v &&& 0x1F1F
  else if addr = REG_BLDY then min (v &&& 0x1F) 0x10
  else if addr = REG_WININ ∨ addr = REG_WINOUT then v &&& 0x3F3F
  else v

/-- The registers that are routed around the dirty bitmap: scroll offsets, affine
matrix entries, reference points and window bounds. -/
def sideTableRegs : List Nat :=
  [REG_BG0HOFS, REG_BG0VOFS, REG_BG1HOFS, REG_BG1VOFS, REG_BG2HOFS, REG_BG2VOFS,
   REG_BG3HOFS, REG_BG3VOFS,
   REG_BG2PA, REG_BG2PB, REG_BG2PC, REG_BG2PD, REG_BG2X_LO, REG_BG2X_HI, REG_BG2Y_LO, REG_BG2Y_HI,
   REG_BG3PA, REG_BG3PB, REG_BG3PC, REG_BG3PD, REG_BG3X_LO, REG_BG3X_HI, REG_BG3Y_LO, REG_BG3Y_HI,
   REG_WIN0H, REG_WIN1H, REG_WIN0V, REG_WIN1V]

/-- A dirty candidate: DISPCNT, BGnCNT, BLDCNT, BLDALPHA, BLDY, WININ, WINOUT, MOSAIC
and every other address that takes the default branch. -/
def dirtyCandidate (addr : Nat) : Prop := addr ∉ sideTableRegs

instance (addr : Nat) : Decidable (dirtyCandidate addr) := by
  unfold dirtyCandidate; exact inferInstance

/-- Two's-complement signed reading of the low 28 bits of a bit pattern. -/
def signExtend28 (n : Nat) : Int :=
  if n % 268435456 < 134217728 then ((n % 268435456 : Nat) : Int)
  else ((n % 268435456 : Nat) : Int) - 268435456

/-- Number of set bits of a 64-bit bitmap. -/
def popCount (n : Nat) : Nat := ((Finset.range 64).filter (fun i => n.testBit i = true)).card

/-- A background with every field zero. -/
def zeroBackground : GBAVideoGLBackground :=
  { enabled := 0, priority := 0, charBase := 0, mosaic := 0, multipalette := 0, screenBase := 0,
    overflow := 0, size := 0, target1 := 0, target2 := 0, x := 0, y := 0, refx := 0, refy := 0,
    affine := { dx := 0, dmx := 0, dy := 0, dmy := 0, sx := 0, sy := 0 },
    scanlineAffine := fun _ => 0, scanlineOffset := fun _ => 0 }

/-- A renderer with every field zero: the contents of the structure before `reset`. -/
def zeroRenderer : GBAVideoGLRenderer :=
  { shadowRegs := fun _ => 0, regsDirty := 0, paletteDirty := false, vramDirty := 0,
    oamDirty := false, firstAffine := 0, firstY := 0, dispcnt := 0, mosaic := 0,
    bg := fun _ => zeroBackground,
    winN := fun _ => { h := { end_ := 0, start := 0 }, v := { end_ := 0, start := 0 }, control := 0 },
    winNHistory := fun _ _ => 0, blendEffect := 0, target1Obj := 0, target1Bd := 0,
    target2Obj := 0, target2Bd := 0, blda := 0, bldb := 0, bldy := 0, winout := 0, objwin := 0,
    shadowPalette := fun _ => 0, palette := fun _ => 0, disableBG := fun _ => false,
    disableOBJ := false, batches := [], uploads := [] }

/-- The window end bound of the specification: `min(v & 0xFF, bound)`. -/
def winEndSpec (bound v : Nat) : Nat := min (v &&& 0xFF) bound

/-- The window start bound of the specification: `v >> 8` when that is at most the
bound; otherwise `0` when `v >> 8 > (v & 0xFF)` and the bound when `v >> 8 <= (v & 0xFF)`. -/
def winStartSpec (bound v : Nat) : Nat :=
  if v >>> 8 ≤ bound then v >>> 8
  else if v >>> 8 > (v &&& 0xFF) then 0
  else bound

/-- The reference point `ref` is the signed reading of the low 28 bits of
`(hi << 16) | lo`, lies in `[-2^27, 2^27)`, and the running accumulator equals it. -/
def refPointOk (ref acc : Int) (lo hi : Nat) : Prop :=
  ref = signExtend28 ((hi <<< 16) ||| lo) ∧ -134217728 ≤ ref ∧ ref < 134217728 ∧ acc = ref

/-- The renderer after two register writes in a row. -/
def writeTwo (s : GBAVideoGLRenderer) (a1 v1 a2 v2 : Nat) : GBAVideoGLRenderer :=
  (GBAVideoGLRendererWriteVideoRegister (GBAVideoGLRendererWriteVideoRegister s a1 v1).1 a2 v2).1

/-- A sequence of register writes `(address, value)` applied in order. -/
def writeRegs (s : GBAVideoGLRenderer) (ws : List (Nat × Nat)) : GBAVideoGLRenderer :=
  ws.foldl (fun t w => (GBAVideoGLRendererWriteVideoRegister t w.1 w.2).1) s

/-- The calls the emulator core makes between two resets. -/
inductive Op where
  | write (address value : Nat)
  | draw (y : Nat)
  | finish

/-- The calls a renderer can receive: in-table register addresses with 16-bit values,
scanlines below 160. -/
def Op.wellFormed : Op → Prop
  | .write address value => address < 0x60 ∧ value < 65536
  | .draw y => y < GBA_VIDEO_VERTICAL_PIXELS
  | .finish => True

instance (op : Op) : Decidable op.wellFormed := by
  cases op <;> unfold Op.wellFormed <;> exact inferInstance

/-- One call. -/
def step (s : GBAVideoGLRenderer) : Op → GBAVideoGLRenderer
  | .write address value => (GBAVideoGLRendererWriteVideoRegister s address value).1
  | .draw y => GBAVideoGLRendererDrawScanline s y
  | .finish => GBAVideoGLRendererFinishFrame s

/-- The state reached from reset (of a renderer with contents `s0`) by a sequence of calls. -/
def run (s0 : GBAVideoGLRenderer) (ops : List Op) : GBAVideoGLRenderer :=
  ops.foldl step (GBAVideoGLRendererReset s0)

/-- How one call changes the record of applied values: a scanline call passes
`shadowRegs[i]` to `_cleanRegister` for exactly the slots `i < 0x30` whose dirty bit is
set on entry (gl.c 1312-1317). -/
def appliedStep (s : GBAVideoGLRenderer) (applied : Nat → Option Nat) : Op → Nat → Option Nat
  | .draw _ => fun i => if i < 0x30 ∧ s.regsDirty.testBit i = true then some (s.shadowRegs i)
      else applied i
  | _ => applied

/-- The run together with, for every slot, the value passed to `_cleanRegister` at the
most recent scanline that applied it (`none` while nothing has been applied since reset). -/
def runApplied (s0 : GBAVideoGLRenderer) (ops : List Op) :
    GBAVideoGLRenderer × (Nat → Option Nat) :=
  ops.foldl (fun sa op => (step sa.1 op, appliedStep sa.1 sa.2 op))
    (GBAVideoGLRendererReset s0, fun _ => none)

/-- The value of slot `i` last applied to the derived renderer state. -/
def lastApplied (s0 : GBAVideoGLRenderer) (ops : List Op) (i : Nat) : Option Nat :=
  (runApplied s0 ops).2 i

/-- The state after the scanline calls `0, 1, ..., n` of a frame, where the register
writes `ws i` arrive before scanline `i`. -/
def frameUpTo (s : GBAVideoGLRenderer) (ws : Nat → List (Nat × Nat)) : Nat → GBAVideoGLRenderer
  | 0 => GBAVideoGLRendererDrawScanline (writeRegs s (ws 0)) 0
  | n + 1 => GBAVideoGLRendererDrawScanline (writeRegs (frameUpTo s ws n) (ws (n + 1))) (n + 1)

/-- The registers holding `dmx`, `dmy` and the reference point of background 2 or 3. -/
def affineAdvanceRegs (b : Fin 4) : List Nat :=
  if b = 2 then [REG_BG2PB, REG_BG2PD, REG_BG2X_LO, REG_BG2X_HI, REG_BG2Y_LO, REG_BG2Y_HI]
  else [REG_BG3PB, REG_BG3PD, REG_BG3X_LO, REG_BG3X_HI, REG_BG3Y_LO, REG_BG3Y_HI]

/-- The part of the renderer that applying dirty registers never touches: the shadow
table and dirty sets, the batch cursor and command logs, the histories and palettes, and
of every background the scroll offsets, reference point, affine record and histories. -/
structure KeepsCore (s t : GBAVideoGLRenderer) : Prop where
  shadowRegs : t.shadowRegs = s.shadowRegs
  regsDirty : t.regsDirty = s.regsDirty
  paletteDirty : t.paletteDirty = s.paletteDirty
  vramDirty : t.vramDirty = s.vramDirty
  oamDirty : t.oamDirty = s.oamDirty
  firstAffine : t.firstAffine = s.firstAffine
  firstY : t.firstY = s.firstY
  batches : t.batches = s.batches
  uploads : t.uploads = s.uploads
  winNHistory : t.winNHistory = s.winNHistory
  palette : t.palette = s.palette
  shadowPalette : t.shadowPalette = s.shadowPalette
  affine : ∀ j, (t.bg j).affine = (s.bg j).affine
  refx : ∀ j, (t.bg j).refx = (s.bg j).refx
  refy : ∀ j, (t.bg j).refy = (s.bg j).refy
  x : ∀ j, (t.bg j).x = (s.bg j).x
  y : ∀ j, (t.bg j).y = (s.bg j).y
  scanlineAffine : ∀ j, (t.bg j).scanlineAffine = (s.bg j).scanlineAffine
  scanlineOffset : ∀ j, (t.bg j).scanlineOffset = (s.bg j).scanlineOffset
  winH : ∀ j, (t.winN j).h = (s.winN j).h
  winV : ∀ j, (t.winN j).v = (s.winN j).v

/-- The relation between a reachable renderer state and the record of applied values. -/
structure TraceInv (s : GBAVideoGLRenderer) (ap : Nat → Option Nat) : Prop where
  clean : ∀ i, i < 0x30 → dirtyCandidate (i <<< 1) → s.regsDirty.testBit i = false →
    ∀ a, ap i = some a → s.shadowRegs i = a
  applied : ∀ i, 1 ≤ i → i < 0x30 → s.regsDirty.testBit i = false → ap i ≠ none
  dispcnt : ∀ a, ap 0 = some a → s.dispcnt = a
  mosaic : ∀ a, ap 38 = some a → s.mosaic = a
  fresh : ap 0 = none → s.dispcnt = 0x0080 ∧ (s.regsDirty.testBit 0 = false → s.shadowRegs 0 = 0)

/-- The state once scanline `j` has been drawn and the register writes `ws` have
arrived after it. -/
def afterScanline (s0 : GBAVideoGLRenderer) (j : Nat) (ws : List (Nat × Nat)) : GBAVideoGLRenderer :=
  writeRegs (GBAVideoGLRendererDrawScanline s0 j) ws

/-- The accumulator and the per-row increment of a background: `(sx, sy, dmx, dmy)`. -/
def advanceOf (s : GBAVideoGLRenderer) (b : Fin 4) : Int × Int × Int × Int :=
  ((s.bg b).affine.sx, (s.bg b).affine.sy, (s.bg b).affine.dmx, (s.bg b).affine.dmy)

/-- The step taken by the accumulator at a scanline: `(dmx, dmy)` in a non-zero mode,
nothing in mode 0. -/
def stepIs (s : GBAVideoGLRenderer) (b : Fin 4) (dX dY : Int) (t : GBAVideoGLRenderer) : Prop :=
  (GBARegisterDISPCNTGetMode t.dispcnt ≠ 0 ∧ dX = (s.bg b).affine.dmx ∧ dY = (s.bg b).affine.dmy) ∨
  (GBARegisterDISPCNTGetMode t.dispcnt = 0 ∧ dX = 0 ∧ dY = 0)

/-- A renderer in mode 1 with `dmx = 3`, `dmy = -2` for background 2. -/
def affineDemo : GBAVideoGLRenderer :=
  writeRegs (GBAVideoGLRendererReset zeroRenderer)
    [(REG_DISPCNT, 0x0401), (REG_BG2PB, 3), (REG_BG2PD, 0xFFFE)]

/-! ## Initialisation (gl.c 778-888) -/

/-- `GBAVideoGLRendererInit`, as far as the record goes: the four background records
are initialised (the scanline arrays are left as they are) and `reset` is called. The
GL objects and shader programs it creates are outside the record. -/
def GBAVideoGLRendererInit (s : GBAVideoGLRenderer) : GBAVideoGLRenderer :=
  GBAVideoGLRendererReset
    { s with bg := fun i =>
        { s.bg i with
          enabled := 0, priority := 0, charBase := 0, mosaic := 0, multipalette := 0,
          screenBase := 0, overflow := 0, size := 0, target1 := 0, target2 := 0, x := 0, y := 0,
          refx := 0, refy := 0,
          affine := { dx := 256, dmx := 0, dy := 0, dmy := 256, sx := 0, sy := 0 } } }

/-! ## Shader values

Floating-point components are exact rationals; integer components are the
non-negative values the renderer writes into the flag attachments and uniforms. -/

/-- A GLSL `vec2`. -/
structure Vec2 where
  x : ℚ
  y : ℚ
  deriving DecidableEq

/-- A GLSL `vec4`; for a colour `x, y, z, w` are `r, g, b, a`. -/
structure Vec4 where
  x : ℚ
  y : ℚ
  z : ℚ
  w : ℚ
  deriving DecidableEq

/-- A GLSL `ivec3`. -/
structure IVec3 where
  x : Nat
  y : Nat
  z : Nat
  deriving DecidableEq

/-- A GLSL `ivec4`. -/
structure IVec4 where
  x : Nat
  y : Nat
  z : Nat
  w : Nat
  deriving DecidableEq

/-! ## The window shader `_renderWindow` (gl.c 507-563) -/

/-- `crop`: leave `windowFlags` alone when the fragment is outside the window given by
`windowParams = (h.start, h.end, v.start, v.end)`, otherwise store `flags` in its `x`. -/
def crop (texCoord : Vec2) (windowParams : Vec4) (flags : Nat) (windowFlags : IVec3) : IVec3 :=
  let cx : Bool := decide (texCoord.x < windowParams.x)
  let cy : Bool := !decide (texCoord.x < windowParams.y)
  let cz : Bool := decide (texCoord.y < windowParams.z)
  let cw : Bool := !decide (texCoord.y < windowParams.w)
  if cx || cy || cz || cw then
    if (if windowParams.z > windowParams.w then cz && cw else cz || cw) then windowFlags
    else if (if windowParams.x > windowParams.y then cx && cy else cx || cy) then windowFlags
    else { windowFlags with x := flags }
  else { windowFlags with x := flags }

/-- GLSL `int(f)`: truncation toward zero. -/
def truncToInt (q : ℚ) : Int := if 0 ≤ q then ⌊q⌋ else ⌈q⌉

/-- GLSL `fract(f)`. -/
def fract (q : ℚ) : ℚ := q - ⌊q⌋

/-- GLSL `mix(a, b, t)`. -/
def mix (a b t : ℚ) : ℚ := a * (1 - t) + b * t

/-- `interpolate`: the bounds of the row below and of the fragment's row, the horizontal
ones blended by the fractional row position unless the two rows are more than 40 apart
(`distance(top, bottom) > 40.`, compared through the squares). -/
def interpolate (win : Int → Vec4) (texCoord : Vec2) : Vec4 :=
  let bottom := win (truncToInt texCoord.y - 1)
  let top := win (truncToInt texCoord.y)
  if (top.x - bottom.x) ^ 2 + (top.y - bottom.y) ^ 2 + (top.z - bottom.z) ^ 2
      + (top.w - bottom.w) ^ 2 > 40 ^ 2 then top
  else
    { x := mix bottom.x top.x (fract texCoord.y)
      y := mix bottom.y top.y (fract texCoord.y)
      z := top.z
      w := top.w }

/-- The `main` of the window shader: the `ivec4` written to the window attachment. -/
def windowMain (dispcnt : Nat) (blendX blendY : Nat) (flags : IVec3) (win0 win1 : Int → Vec4)
    (texCoord : Vec2) : IVec4 :=
  let dispflags := (dispcnt &&& 0x1F) ||| 0x20
  if dispcnt &&& 0xE0 = 0 then
    { x := dispflags, y := blendX, z := blendY, w := 0 }
  else
    let windowFlags : IVec3 := { x := flags.z, y := blendX, z := blendY }
    let windowFlags :=
      if dispcnt &&& 0x40 ≠ 0 then crop texCoord (interpolate win1 texCoord) flags.y windowFlags
      else windowFlags
    let windowFlags :=
      if dispcnt &&& 0x20 ≠ 0 then crop texCoord (interpolate win0 texCoord) flags.x windowFlags
      else windowFlags
    { x := windowFlags.x, y := windowFlags.y, z := windowFlags.z, w := 0 }

/-- The rows of a window history as the shader's `ivec4 win[160]`: entry `i` is the four
values captured for row `i`. The index `-1`, which `interpolate` reads for a fragment of
row 0, lies outside the array; it is given the values of row 0. -/
def historyRows (hist : Nat → Int) (i : Int) : Vec4 :=
  { x := (hist (i.toNat * 4) : ℚ)
    y := (hist (i.toNat * 4 + 1) : ℚ)
    z := (hist (i.toNat * 4 + 2) : ℚ)
    w := (hist (i.toNat * 4 + 3) : ℚ) }

/-- `GBAVideoGLRendererDrawWindow` (gl.c 1827-1844), per fragment: the uniforms it sets
from the renderer, fed to the window shader. -/
def GBAVideoGLRendererDrawWindow (s : GBAVideoGLRenderer) (texCoord : Vec2) : IVec4 :=
  windowMain (s.dispcnt >>> 8) s.bldb s.bldy
    { x := (s.winN 0).control, y := (s.winN 1).control, z := s.winout }
    (historyRows (s.winNHistory 0)) (historyRows (s.winNHistory 1)) texCoord

/-! ## The backdrop clear of a flush (gl.c 1405-1411) -/

/-- Modelled from the spec: the macro `M_RGB5_TO_RGB8` of an absent header, the RGB555 to
RGB888 conversion that places each 5-bit channel `c` at `c << 3` of its byte
(`0xRRGGBB`). -/
def M_RGB5_TO_RGB8 (x : Nat) : Nat :=
  ((x &&& 0x1F) <<< 19) ||| (((x >>> 5) &&& 0x1F) <<< 11) ||| (((x >>> 10) &&& 0x1F) <<< 3)

/-- The colour `_drawScanlines` clears the backdrop attachment to. -/
def backdropColor (s : GBAVideoGLRenderer) : Vec4 :=
  let backdrop := M_RGB5_TO_RGB8 (s.shadowPalette 0)
  { x := (((backdrop >>> 16) &&& 0xF8 : Nat) : ℚ) / 248
    y := (((backdrop >>> 8) &&& 0xF8 : Nat) : ℚ) / 248
    z := ((backdrop &&& 0xF8 : Nat) : ℚ) / 248
    w := 1 }

/-- The flags `_drawScanlines` clears the backdrop flags attachment to. -/
def backdropFlags (s : GBAVideoGLRenderer) : IVec4 :=
  { x := 32
    y := s.target1Bd ||| (s.target2Bd * 2) ||| (s.blendEffect * 4)
    z := s.blda
    w := 0 }

/-! ## The finalize shader `_finalize` (gl.c 577-649) and `_finalizeLayers` (gl.c 1576-1626) -/

/-- What the finalize shader fetches for one output pixel: the backdrop texel and its
flags, the window texel, and for `i = 0..3` the colour and flags of background `i`, for
`i = 4` those of the object layer (`layers[5]`, `flags[5]`). -/
structure FinalizeInput where
  backdrop : Vec4
  backdropFlags : IVec4
  window : IVec4
  layers : Fin 5 → Vec4
  flags : Fin 5 → IVec4

/-- The four `inout` variables of `composite`. -/
structure Composite where
  topPixel : Vec4
  topFlags : IVec4
  bottomPixel : Vec4
  bottomFlags : IVec4
  deriving DecidableEq

/-- `composite`. -/
def composite (pixel : Vec4) (flags : IVec4) (c : Composite) : Composite :=
  if pixel.w = 0 then c
  else if flags.x ≥ c.topFlags.x then
    (if flags.x ≥ c.bottomFlags.x then c
     else { c with bottomFlags := flags, bottomPixel := pixel })
  else
    { topPixel := pixel, topFlags := flags, bottomPixel := c.topPixel, bottomFlags := c.topFlags }

/-- The sample of the `k`-th composited layer, in the order of `main`: the object layer
(window bit 16, flags kept whole), then backgrounds 0..3 (window bits 1, 2, 4, 8, flags
`w` replaced by 0). The Boolean says whether the window enables the layer. -/
def layerSample (inp : FinalizeInput) (k : Nat) : Bool × Vec4 × IVec4 :=
  if k = 0 then (decide (inp.window.x &&& 16 ≠ 0), inp.layers 4, inp.flags 4)
  else if k = 1 then (decide (inp.window.x &&& 1 ≠ 0), inp.layers 0, { inp.flags 0 with w := 0 })
  else if k = 2 then (decide (inp.window.x &&& 2 ≠ 0), inp.layers 1, { inp.flags 1 with w := 0 })
  else if k = 3 then (decide (inp.window.x &&& 4 ≠ 0), inp.layers 2, { inp.flags 2 with w := 0 })
  else (decide (inp.window.x &&& 8 ≠ 0), inp.layers 3, { inp.flags 3 with w := 0 })

/-- The state of `main` after its first `k` conditional `composite` calls. -/
def compositeUpTo (inp : FinalizeInput) : Nat → Composite
  | 0 => { topPixel := inp.backdrop, topFlags := inp.backdropFlags,
           bottomPixel := inp.backdrop, bottomFlags := inp.backdropFlags }
  | k + 1 =>
    if (layerSample inp k).1 then
      composite (layerSample inp k).2.1 (layerSample inp k).2.2 (compositeUpTo inp k)
    else compositeUpTo inp k

/-- The alpha blend of one colour component: `top *= a / 16.; top += bottom * b / 16.`. -/
def blendAlpha (top bottom : ℚ) (a b : Nat) : ℚ := top * ((a : ℚ) / 16) + bottom * (b : ℚ) / 16

/-- The brighten effect of one component: `top += (1. - top) * y / 16.`. -/
def blendBrighten (top : ℚ) (y : Nat) : ℚ := top + (1 - top) * (y : ℚ) / 16

/-- The darken effect of one component: `top -= top * y / 16.`. -/
def blendDarken (top : ℚ) (y : Nat) : ℚ := top - top * (y : ℚ) / 16

/-- The `main` of the finalize shader: the colour written for the pixel. -/
def finalizeMain (inp : FinalizeInput) : Vec4 :=
  let c := compositeUpTo inp 5
  let topFlags : IVec4 :=
    if inp.window.x &&& 32 = 0 then { c.topFlags with y := c.topFlags.y &&& 0xFFFFFFFE }
    else c.topFlags
  if (topFlags.y &&& 13 = 5 ∨ topFlags.w > 0) ∧ c.bottomFlags.y &&& 2 = 2 then
    { x := blendAlpha c.topPixel.x c.bottomPixel.x topFlags.z inp.window.y
      y := blendAlpha c.topPixel.y c.bottomPixel.y topFlags.z inp.window.y
      z := blendAlpha c.topPixel.z c.bottomPixel.z topFlags.z inp.window.y
      w := c.topPixel.w }
  else if topFlags.y &&& 13 = 9 then
    { x := blendBrighten c.topPixel.x inp.window.z
      y := blendBrighten c.topPixel.y inp.window.z
      z := blendBrighten c.topPixel.z inp.window.z
      w := c.topPixel.w }
  else if topFlags.y &&& 13 = 13 then
    { x := blendDarken c.topPixel.x inp.window.z
      y := blendDarken c.topPixel.y inp.window.z
      z := blendDarken c.topPixel.z inp.window.z
      w := c.topPixel.w }
  else c.topPixel

/-- What `_finalizeLayers` does to the output framebuffer: a clear to one colour, or a
full-screen draw with the finalize shader. -/
inductive FinalizePass where
  | clear (color : Vec4)
  | compose
  deriving DecidableEq

/-- `_finalizeLayers`. -/
def _finalizeLayers (s : GBAVideoGLRenderer) : FinalizePass :=
  if GBARegisterDISPCNTIsForcedBlank s.dispcnt then FinalizePass.clear { x := 1, y := 1, z := 1, w := 1 }
  else FinalizePass.compose

/-- The colour of one output pixel after `finishFrame` (gl.c 1471-1475): the last flush,
then `_finalizeLayers`; `inp` is what the finalize shader fetches for this pixel. -/
def finishFramePixel (s : GBAVideoGLRenderer) (inp : FinalizeInput) : Vec4 :=
  match _finalizeLayers (_drawScanlines s ((GBA_VIDEO_VERTICAL_PIXELS : Int) - 1)) with
  | FinalizePass.clear color => color
  | FinalizePass.compose => finalizeMain inp

/-! ## Specification side of the shader and latch claims -/

/-- The address of BGnHOFS. -/
def scrollRegH (n : Fin 4) : Nat := REG_BG0HOFS + 4 * n.val

/-- The address of BGnVOFS. -/
def scrollRegV (n : Fin 4) : Nat := REG_BG0VOFS + 4 * n.val

/-- Solid white. -/
def white : Vec4 := { x := 1, y := 1, z := 1, w := 1 }

/-- A pixel where a white background 0, first target of an alpha blend with
coefficient 16, lies over a white backdrop that is a second target, with bottom
coefficient 16 in the window flags. -/
def blendDemo : FinalizeInput :=
  { backdrop := { x := 1, y := 1, z := 1, w := 1 }
    backdropFlags := { x := 32, y := 2, z := 16, w := 0 }
    window := { x := 0x3F, y := 16, z := 0, w := 0 }
    layers := fun i => if i = 0 then { x := 1, y := 1, z := 1, w := 1 } else { x := 0, y := 0, z := 0, w := 0 }
    flags := fun i => if i = 0 then { x := 0, y := 5, z := 16, w := 0 } else { x := 0, y := 0, z := 0, w := 0 } }

/-- What the finalize shader fetches for a pixel whose row the flush of state `s` cleared
and where every layer texel is transparent black with zero flags. -/
def backdropOnly (s : GBAVideoGLRenderer) (window : IVec4) : FinalizeInput :=
  { backdrop := backdropColor s
    backdropFlags := backdropFlags s
    window := window
    layers := fun _ => { x := 0, y := 0, z := 0, w := 0 }
    flags := fun _ => { x := 0, y := 0, z := 0, w := 0 } }

/-- The test of one axis of a window: `start <= coord < end` when `start <= end`, and
`coord >= start` or `coord < end` when the window wraps (`start > end`). -/
def axisTest (start end_ coord : ℚ) : Prop :=
  if start ≤ end_ then start ≤ coord ∧ coord < end_ else (coord ≥ start ∨ coord < end_)

instance (start end_ coord : ℚ) : Decidable (axisTest start end_ coord) := by
  unfold axisTest; exact inferInstance

/-- A fragment is inside the window with bounds `(h.start, h.end, v.start, v.end)` when
its horizontal and its vertical test pass. -/
def insideWindow (texCoord : Vec2) (windowParams : Vec4) : Prop :=
  axisTest windowParams.x windowParams.y texCoord.x ∧
  axisTest windowParams.z windowParams.w texCoord.y

instance (texCoord : Vec2) (windowParams : Vec4) : Decidable (insideWindow texCoord windowParams) := by
  unfold insideWindow; exact inferInstance

/-- Sample `k` of the composition order takes part: the window enables its layer and its
pixel is not transparent. -/
def contributes (inp : FinalizeInput) (k : Nat) : Prop :=
  (layerSample inp k).1 = true ∧ (layerSample inp k).2.1.w ≠ 0

instance (inp : FinalizeInput) (k : Nat) : Decidable (contributes inp k) := by
  unfold contributes; exact inferInstance

/-- The priority value of sample `k`. -/
def samplePriority (inp : FinalizeInput) (k : Nat) : Nat := (layerSample inp k).2.2.x

/-- Sample `k` wins against sample `j`: a smaller priority value, or the same value and
not later in the composition order. -/
def beats (inp : FinalizeInput) (k j : Nat) : Prop :=
  samplePriority inp k < samplePriority inp j ∨
  (samplePriority inp k = samplePriority inp j ∧ k ≤ j)

/-- Among the first `n` samples, `t` takes part and wins against every one taking part. -/
def isTopAmong (inp : FinalizeInput) (n t : Nat) : Prop :=
  t < n ∧ contributes inp t ∧ ∀ j, j < n → contributes inp j → beats inp t j

/-- Among the first `n` samples without `t`, `b` takes part and wins against every one
taking part. -/
def isSecondAmong (inp : FinalizeInput) (n t b : Nat) : Prop :=
  b < n ∧ b ≠ t ∧ contributes inp b ∧ ∀ j, j < n → j ≠ t → contributes inp j → beats inp b j

/-- A pixel with an opaque object sample of priority 2, an opaque background 0 sample of
priority 1, a background 1 sample of priority 1 and a transparent background 2. -/
def compositeDemo : FinalizeInput :=
  { backdrop := { x := 0, y := 0, z := 0, w := 1 }
    backdropFlags := { x := 32, y := 0, z := 0, w := 0 }
    window := { x := 0x3F, y := 0, z := 0, w := 0 }
    layers := fun i =>
      if i = 4 then { x := 1, y := 0, z := 0, w := 1 }
      else if i = 0 then { x := 0, y := 1, z := 0, w := 1 }
      else if i = 1 then { x := 0, y := 0, z := 1, w := 1 }
      else { x := 0, y := 0, z := 0, w := 0 }
    flags := fun i =>
      if i = 4 then { x := 2, y := 0, z := 0, w := 0 }
      else if i = 0 then { x := 1, y := 0, z := 0, w := 0 }
      else if i = 1 then { x := 1, y := 0, z := 0, w := 0 }
      else { x := 0, y := 0, z := 0, w := 0 } }

/-- A renderer with window 0 enabled in DISPCNT, WININ mask 0x11 for window 0, WINOUT
mask 0x3F, and window 0 covering columns 10..20 of rows 5..15 in every row of its
history. -/
def windowDemo : GBAVideoGLRenderer :=
  { zeroRenderer with
    dispcnt := 0x2000
    winout := 0x3F
    winN := fun j => if j = 0 then { zeroRenderer.winN 0 with control := 0x11 } else zeroRenderer.winN j
    winNHistory := fun j i =>
      if j = 0 then (if i % 4 = 0 then 10 else if i % 4 = 1 then 20 else if i % 4 = 2 then 5 else 15)
      else 0 }

/-- A renderer whose palette entry 0 is white (0x7FFF), with every register zero. -/
def whiteBackdropDemo : GBAVideoGLRenderer :=
  { zeroRenderer with shadowPalette := fun i => if i = 0 then 0x7FFF else 0 }

/-- A renderer with a black palette entry 0 whose BLDCNT selects the backdrop as first
target of the brighten effect, with BLDY = 16. -/
def brightenDemo : GBAVideoGLRenderer :=
  { zeroRenderer with target1Bd := 1, blendEffect := 2, bldy := 16 }

/-- The window texel the window pass of `s` writes at the origin. -/
def windowAtOrigin (s : GBAVideoGLRenderer) : IVec4 :=
  GBAVideoGLRendererDrawWindow s { x := 0, y := 0 }

/-- `TEST_LAYER_ENABLED(X)` (gl.c 48). -/
def TEST_LAYER_ENABLED (s : GBAVideoGLRenderer) (x : Fin 4) : Bool :=
  !s.disableBG x && decide ((s.bg x).enabled = 4)

/-- The calls of the renderer interface, `reset` included. -/
inductive Call where
  | reset
  | op (o : Op)

/-- One call of the interface. -/
def callStep (s : GBAVideoGLRenderer) : Call → GBAVideoGLRenderer
  | .reset => GBAVideoGLRendererReset s
  | .op o => step s o

/-- The state reached from `init` (of a renderer with contents `s0`) by a sequence of
calls. -/
def runCalls (s0 : GBAVideoGLRenderer) (calls : List Call) : GBAVideoGLRenderer :=
  calls.foldl callStep (GBAVideoGLRendererInit s0)

/-- The latch value the DISPCNT enable bit of background `i` stands for. -/
def latchOf (dispcnt : Nat) (i : Fin 4) : Int := if dispcnt.testBit (8 + i.val) then 4 else 0

/-- Every enable latch agrees with its DISPCNT bit. -/
def latchSynced (s : GBAVideoGLRenderer) : Prop :=
  ∀ i : Fin 4, (s.bg i).enabled = latchOf s.dispcnt i

/-- Every enable latch holds 0 or 4. -/
def latchInRange (s : GBAVideoGLRenderer) : Prop :=
  ∀ i : Fin 4, (s.bg i).enabled = 0 ∨ (s.bg i).enabled = 4

/-! ## Background draws: uniforms and the mode 0 and mode 2 shaders (gl.c 124-286, 1728-1783) -/

/-- Modelled from the spec: `GBAMosaicControlGetBgH` of the absent header
`mgba/internal/gba/video.h`, the background horizontal mosaic size, bits 0..3 of MOSAIC. -/
def GBAMosaicControlGetBgH (v : Nat) : Nat := v &&& 0xF

/-- Modelled from the spec: `GBAMosaicControlGetBgV` of the absent header
`mgba/internal/gba/video.h`, the background vertical mosaic size, bits 4..7 of MOSAIC. -/
def GBAMosaicControlGetBgV (v : Nat) : Nat := (v >>> 4) &&& 0xF

/-- A GLSL `ivec2` with non-negative components. -/
structure IVec2 where
  x : Nat
  y : Nat
  deriving DecidableEq

/-- The uniforms `_prepareBackground` sets from the renderer and the background. -/
structure BackgroundUniforms where
  mosaic : IVec2
  inflags : IVec4
  deriving DecidableEq

/-- `_prepareBackground` (gl.c 1728-1746): the `mosaic` and `inflags` uniforms. -/
def _prepareBackground (renderer : GBAVideoGLRenderer) (background : GBAVideoGLBackground) :
    BackgroundUniforms :=
  { mosaic :=
      if background.mosaic ≠ 0 then
        { x := GBAMosaicControlGetBgV renderer.mosaic + 1
          y := GBAMosaicControlGetBgH renderer.mosaic + 1 }
      else { x := 0, y := 0 }
    inflags :=
      { x := background.priority
        y := background.target1 ||| (background.target2 * 2) ||| (renderer.blendEffect * 4)
        z := renderer.blda
        w := 0 } }

/-- The head of `main` of `_renderMode0`: the fragment's integer coordinate after the
mosaic step (`texCoord` is non-negative). -/
def Mode0.mosaicCoord (texCoord : Vec2) (mosaic : IVec2) : IVec2 :=
  let coord : IVec2 := { x := (truncToInt texCoord.x).toNat, y := (truncToInt texCoord.y).toNat }
  let coord : IVec2 := if mosaic.x > 1 then { coord with x := coord.x - coord.x % mosaic.x } else coord
  if mosaic.y > 1 then { coord with y := coord.y - coord.y % mosaic.y } else coord

/-- The scroll step of `main` of `_renderMode0`:
`coord += (ivec2(0x1FF, 0x1FF000) & offset[int(texCoord.y)]) >> ivec2(0, 12)`. -/
def Mode0.scrollCoord (coord : IVec2) (offset : Nat) : IVec2 :=
  { x := coord.x + ((0x1FF &&& offset) >>> 0)
    y := coord.y + ((0x1FF000 &&& offset) >>> 12) }

/-- The tile-map address computed by `main` of `_renderMode0` from the scrolled
coordinate. -/
def Mode0.mapAddress (screenBase size : Nat) (coord : IVec2) : Nat :=
  let wrapX : Nat := if size &&& 1 = 1 then 511 else 255
  let doty : Nat := if size &&& 1 = 1 then 1 else 0
  let wrapY : Nat := if size &&& 2 = 2 then 511 else 255
  let doty : Nat := if size &&& 2 = 2 then doty + 1 else doty
  let coordX := coord.x &&& wrapX
  let coordY := coord.y &&& wrapY
  let wrapX := coordX &&& 256
  let wrapY := coordY &&& 256
  let coordX := coordX &&& 255
  let coordY := coordY &&& 255
  let coordY := coordY + wrapX + wrapY * doty
  screenBase + (coordX >>> 3) + (coordY >>> 3) * 32

/-- `GBAVideoGLRendererDrawBackgroundMode0` (gl.c 1748-1762), per fragment: the
coordinate after the mosaic step with the uniforms the draw sets. -/
def GBAVideoGLRendererDrawBackgroundMode0 (renderer : GBAVideoGLRenderer)
    (background : GBAVideoGLBackground) (texCoord : Vec2) : IVec2 :=
  Mode0.mosaicCoord texCoord (_prepareBackground renderer background).mosaic

/-- The tile-map address the mode 0 draw fetches for a fragment. -/
def mode0MapAddress (renderer : GBAVideoGLRenderer) (background : GBAVideoGLBackground)
    (texCoord : Vec2) : Nat :=
  Mode0.mapAddress background.screenBase background.size
    (Mode0.scrollCoord (GBAVideoGLRendererDrawBackgroundMode0 renderer background texCoord)
      (background.scanlineOffset (truncToInt texCoord.y).toNat).toNat)

/-- GLSL `interpolate` of `_interpolate` (gl.c 210-217): the cubic Bezier curve through
four control points at parameter `x`, componentwise. -/
def Mode2.interpolate (arr : Fin 4 → Vec2) (x : ℚ) : Vec2 :=
  let x1m := 1 - x
  { x := x1m * x1m * x1m * (arr 0).x + 3 * x1m * x1m * x * (arr 1).x +
      3 * x1m * x * x * (arr 2).x + x * x * x * (arr 3).x
    y := x1m * x1m * x1m * (arr 0).y + 3 * x1m * x1m * x * (arr 1).y +
      3 * x1m * x * x * (arr 2).y + x * x * x * (arr 3).y }

/-- GLSL `loadAffine` of `_interpolate` (gl.c 219-229): the matrix columns `.xy` and the
reference points `.zw` of four consecutive rows of `transform`, from row
`max(range.x, y - 3)` on. The integer entries are given as the floats `interpolate`
converts them to. -/
def Mode2.loadAffine (transform : Int → Vec4) (rangeX : Int) (y : Int) :
    (Fin 4 → Vec2) × (Fin 4 → Vec2) :=
  let start := max rangeX (y - 3)
  (fun k => { x := (transform (start + (k.val : Int))).x, y := (transform (start + (k.val : Int))).y },
   fun k => { x := (transform (start + (k.val : Int))).z, y := (transform (start + (k.val : Int))).w })

/-- The head of `main` of `_renderMode2` (gl.c 268-286): `mixedTransform` and
`mixedOffset`. -/
def Mode2.mixed (transform : Int → Vec4) (rangeX : Int) (mosaic : IVec2) (texCoord : Vec2) :
    Vec2 × Vec2 :=
  let incoord := texCoord
  let incoord : Vec2 :=
    if mosaic.x > 1 then { incoord with x := ((truncToInt incoord.x % (mosaic.x : Int) : Int) : ℚ) }
    else incoord
  let incoord : Vec2 :=
    if mosaic.y > 1 then { incoord with y := ((truncToInt incoord.y % (mosaic.y : Int) : Int) : ℚ) }
    else incoord
  let arrs := Mode2.loadAffine transform rangeX (truncToInt incoord.y)
  let y := fract incoord.y
  let start : ℚ := 3 / 4
  let near : Prop := truncToInt incoord.y - rangeX < 4
  let y : ℚ := if near then incoord.y - (rangeX : ℚ) else y
  let start : ℚ := if near then 0 else start
  let lin := start + y * (1 / 4)
  (Mode2.interpolate arrs.1 lin, Mode2.interpolate arrs.2 lin)

/-- `GBAVideoGLRendererDrawBackgroundMode2` with `_prepareTransform` (gl.c 1764-1783),
per fragment: the interpolated matrix column and reference point with the uniforms the
draw sets, `range.x = firstAffine` and `transform = scanlineAffine`. -/
def GBAVideoGLRendererDrawBackgroundMode2 (renderer : GBAVideoGLRenderer)
    (background : GBAVideoGLBackground) (texCoord : Vec2) : Vec2 × Vec2 :=
  Mode2.mixed (historyRows background.scanlineAffine) renderer.firstAffine
    (_prepareBackground renderer background).mosaic texCoord

/-! ## The object loop of a flush (gl.c 1415-1430) -/

/-- Modelled from the spec: `struct GBAVideoRendererSprite` of the absent header
`mgba/internal/gba/renderers/common.h`, a cleaned sprite: its index in OAM, its first
row `y` and the row after its last, `endY = y + height`. -/
structure GBAVideoRendererSprite where
  obj : Nat
  y : Int
  endY : Int
  deriving DecidableEq

/-- The `continue` condition of the object loop of `_drawScanlines` for the batch
`firstY .. y`. -/
def spriteSkipped (firstY y : Int) (sprite : GBAVideoRendererSprite) : Bool :=
  (decide (y < sprite.y) && (decide (sprite.endY - 256 < 0) || decide (firstY ≥ sprite.endY - 256)))
    || decide (firstY ≥ sprite.endY)

/-- The object draws of `_drawScanlines` for the batch `firstY .. y`: the sprites passed
to `GBAVideoGLRendererDrawSprite`, in order. -/
def objDraws (renderer : GBAVideoGLRenderer) (sprites : List GBAVideoRendererSprite) (y : Int) :
    List GBAVideoRendererSprite :=
  if GBARegisterDISPCNTIsObjEnable renderer.dispcnt && !renderer.disableOBJ then
    sprites.filter (fun sprite => !spriteSkipped renderer.firstY y sprite)
  else []

/-- The rows of the frame a sprite occupies: `y .. endY - 1`, wrapping to
`0 .. endY - 257` when `endY > 256`. -/
def spriteOnRow (sprite : GBAVideoRendererSprite) (r : Int) : Prop :=
  (sprite.y ≤ r ∧ r < sprite.endY) ∨ r < sprite.endY - 256

/-! ## Specification side of the background claims -/

/-- The width of the tile map in pixels for a size code. -/
def mapWidth (size : Nat) : Nat := if size &&& 1 ≠ 0 then 512 else 256

/-- The height of the tile map in pixels for a size code. -/
def mapHeight (size : Nat) : Nat := if size &&& 2 ≠ 0 then 512 else 256

/-- The index of the 256x256 screen block that contains the pixel, after reduction
modulo the map size. -/
def screenBlock (size x y : Nat) : Nat :=
  (x % mapWidth size) / 256 + ((y % mapHeight size) / 256) * (mapWidth size / 256)

/-- A renderer whose MOSAIC register holds horizontal size 3 and vertical size 0. -/
def mosaicDemo : GBAVideoGLRenderer := { zeroRenderer with mosaic := 0x0003 }

/-- A background with its mosaic flag set. -/
def mosaicBackground : GBAVideoGLBackground := { zeroBackground with mosaic := 1 }

/-- A transform history with the identity matrix column and a reference point that
advances by 64 per row. -/
def rampDemo : Int → Vec4 := fun i => { x := 256, y := 0, z := 64 * (i : ℚ), w := 0 }

/-! ## The VRAM upload calls -/

/-- The arguments `yoffset`, `height` and the source index into `d.vram` of the
`glTexSubImage2D` call of an upload `(first, count)` (gl.c 1359). -/
def texSubImageArgs (u : Nat × Nat) : Nat × Nat × Nat := (8 * u.1, 8 * u.2, 2048 * u.1)

/-- A maximal run of dirty pages: `count` pages from `first` on are dirty, the page
before (if any) and the page after are clean. -/
def isDirtyRun (vramDirty first count : Nat) : Prop :=
  0 < count ∧ (∀ p, first ≤ p → p < first + count → vramDirty.testBit p = true) ∧
  (first = 0 ∨ vramDirty.testBit (first - 1) = false) ∧
  vramDirty.testBit (first + count) = false

/-- The upload loop after its first `n` iterations. -/
def vramUploadScan (vramDirty n : Nat) : Option Nat × List (Nat × Nat) :=
  (List.range n).foldl (vramUploadStep vramDirty) (none, [])

/-- The state of the upload loop after `n` iterations, in terms of the bitmap: the run in
progress, and the runs already uploaded, which are the maximal runs that end before
page `n`, in increasing order. -/
structure ScanInv (vramDirty n : Nat) (acc : Option Nat × List (Nat × Nat)) : Prop where
  idle : acc.1 = none → n = 0 ∨ vramDirty.testBit (n - 1) = false
  running : ∀ f, acc.1 = some f →
    f < n ∧ (∀ p, f ≤ p → p < n → vramDirty.testBit p = true) ∧
    (f = 0 ∨ vramDirty.testBit (f - 1) = false)
  runs : ∀ f m, (f, m) ∈ acc.2 ↔ isDirtyRun vramDirty f m ∧ f + m < n
  sorted : acc.2.Pairwise (fun a b => a.1 + a.2 < b.1)

/-- The renderer as it stands when the scanline call reaches the VRAM upload. -/
def beforeUpload (s : GBAVideoGLRenderer) (y : Nat) : GBAVideoGLRenderer :=
  snapshotPalette (captureHistory (cleanRegisters (openBatch (flushIfDirty
    (updateFirstAffine s y) y) y)) y)

/-- A renderer whose VRAM pages 0, 1, 4 and 5 are dirty. -/
def uploadDemo : GBAVideoGLRenderer := { zeroRenderer with vramDirty := 0x33 }

/-! ## A frame with interleaved writes -/

/-- The writes the core can make between two scanline calls. -/
inductive Poke where
  | reg (address value : Nat)
  | vram (address : Nat)
  | oam (oam : Nat)
  | palette (address value : Nat)

/-- One write. -/
def poke (s : GBAVideoGLRenderer) : Poke → GBAVideoGLRenderer
  | .reg address value => (GBAVideoGLRendererWriteVideoRegister s address value).1
  | .vram address => GBAVideoGLRendererWriteVRAM s address
  | .oam oam => GBAVideoGLRendererWriteOAM s oam
  | .palette address value => GBAVideoGLRendererWritePalette s address value

/-- A sequence of writes. -/
def pokes (s : GBAVideoGLRenderer) (l : List Poke) : GBAVideoGLRenderer := l.foldl poke s

/-- The state after the scanline calls `0, 1, ..., n` of a frame, where the writes
`ev i` arrive before scanline `i`. -/
def frameRows (s : GBAVideoGLRenderer) (ev : Nat → List Poke) : Nat → GBAVideoGLRenderer
  | 0 => GBAVideoGLRendererDrawScanline (pokes s (ev 0)) 0
  | n + 1 => GBAVideoGLRendererDrawScanline (pokes (frameRows s ev n) (ev (n + 1))) (n + 1)

/-- The state after a whole frame: scanlines 0..159, the writes `ev 160`, `finishFrame`. -/
def fullFrame (s : GBAVideoGLRenderer) (ev : Nat → List Poke) : GBAVideoGLRenderer :=
  GBAVideoGLRendererFinishFrame (pokes (frameRows s ev 159) (ev 160))

/-- The batches tile the rows `lo .. hi`: each is non-empty and starts right after the
one before, the first at `lo`, the last ends at `hi`. -/
def tiles : List Batch → Int → Int → Prop
  | [], lo, hi => lo = hi + 1
  | b :: rest, lo, hi => b.firstY = lo ∧ lo ≤ b.lastY ∧ b.lastY ≤ hi ∧ tiles rest (b.lastY + 1) hi

/-- Row `r` lies in the batch. -/
def Batch.covers (b : Batch) (r : Int) : Bool := decide (b.firstY ≤ r) && decide (r ≤ b.lastY)

end GBAVideoGL

namespace StackTrace

/-! ## The debugger stack trace (stack-trace.c) -/

/-- The fields of `struct mStackFrame` that `stack-trace.c` accesses; `regs` is the
copied register block, one entry per byte. -/
structure mStackFrame where
  callAddress : Nat
  entryAddress : Nat
  frameBaseAddress : Nat
  regs : List Nat
  finished : Bool
  breakWhenFinished : Bool
  interrupt : Bool
  deriving DecidableEq

/-- The fields of `struct mStackTrace` that `mStackTraceInit`, `mStackTracePush`,
`mStackTracePop`, `mStackTraceGetFrame` and `mStackTraceClear` access: the vector of
frames, oldest first, and the size of a register block. -/
structure mStackTrace where
  stack : List mStackFrame
  registersSize : Nat
  deriving DecidableEq

/-- Modelled from the spec: `mStackFramesSize` of the vector generated by
`DEFINE_VECTOR`, the number of elements. -/
def mStackFramesSize (v : List mStackFrame) : Nat := v.length

/-- Modelled from the spec: `mStackFramesAppend` followed by the stores into the new
element, the vector with one element more at the end. -/
def mStackFramesAppend (v : List mStackFrame) (frame : mStackFrame) : List mStackFrame := v ++ [frame]

/-- Modelled from the spec: `mStackFramesResize(v, -1)` of a non-empty vector, the vector
without its last element. -/
def mStackFramesResize (v : List mStackFrame) : List mStackFrame := v.dropLast

/-- Modelled from the spec: `mStackFramesGetPointer`, the element at an index. -/
def mStackFramesGetPointer (v : List mStackFrame) (i : Nat) : Option mStackFrame := v.get? i

/-- `mStackTraceInit`. -/
def mStackTraceInit (registersSize : Nat) : mStackTrace :=
  { stack := [], registersSize := registersSize }

/-- `mStackTraceGetDepth`. -/
def mStackTraceGetDepth (stack : mStackTrace) : Nat := mStackFramesSize stack.stack

/-- `mStackTracePush`: the first `registersSize` bytes of `regs` are copied. -/
def mStackTracePush (stack : mStackTrace) (pc destAddress sp : Nat) (regs : List Nat) :
    mStackTrace :=
  let frame : mStackFrame :=
    { callAddress := pc
      entryAddress := destAddress
      frameBaseAddress := sp
      regs := regs.take stack.registersSize
      finished := false
      breakWhenFinished := false
      interrupt := false }
  { stack with stack := mStackFramesAppend stack.stack frame }

/-- `mStackTraceGetFrame`: frame 0 is the newest; `none` is the null pointer. -/
def mStackTraceGetFrame (stack : mStackTrace) (frame : Nat) : Option mStackFrame :=
  let depth := mStackTraceGetDepth stack
  if frame ≥ depth then none
  else mStackFramesGetPointer stack.stack (depth - frame - 1)

/-- `mStackTracePop`. -/
def mStackTracePop (stack : mStackTrace) : mStackTrace :=
  let depth := mStackTraceGetDepth stack
  if depth > 0 then { stack with stack := mStackFramesResize stack.stack } else stack

/-- `mStackTraceClear`. -/
def mStackTraceClear (stack : mStackTrace) : mStackTrace := { stack with stack := [] }

/-- The arguments of one `mStackTracePush` call. -/
structure PushArgs where
  pc : Nat
  destAddress : Nat
  sp : Nat
  regs : List Nat

/-- A sequence of `mStackTracePush` calls. -/
def pushAll (stack : mStackTrace) (calls : List PushArgs) : mStackTrace :=
  calls.foldl (fun st c => mStackTracePush st c.pc c.destAddress c.sp c.regs) stack

/-- `k` calls of `mStackTracePop`. -/
def popN (stack : mStackTrace) : Nat → mStackTrace
  | 0 => stack
  | k + 1 => popN (mStackTracePop stack) k

/-! ## Formatting a frame (stack-trace.c 62-91) -/

/-- Modelled from the spec: the conversion `%d` of C `printf`. -/
def fmtDec (n : Int) : List Char :=
  if n < 0 then '-' :: Nat.toDigits 10 n.natAbs else Nat.toDigits 10 n.natAbs

/-- One upper-case hexadecimal digit. -/
def hexDigit (d : Nat) : Char :=
  if d < 10 then Char.ofNat (48 + d) else Char.ofNat (55 + d)

/-- Modelled from the spec: the conversion `%08X` of C `printf` for a 32-bit value. -/
def fmtHex8 (n : Nat) : List Char :=
  (List.range 8).reverse.map (fun i => hexDigit ((n / 16 ^ i) % 16))

/-- Modelled from the spec: `written += snprintf(out + written, *length - written, ...)`
for the formatted text `text`, on the pair of the text in `out` and `written`. C
`snprintf` stores at most `size - 1` characters and returns the length of the whole
text. -/
def emit (length : Nat) (st : List Char × Nat) (text : List Char) : List Char × Nat :=
  (st.1 ++ text.take (length - st.2 - 1), st.2 + text.length)

/-- The last `snprintf` of `mStackTraceFormatFrame` (stack-trace.c 84-90). -/
def formatAt (length : Nat) (st : List Char × Nat) (stackFrame : mStackFrame)
    (prevFrame : Option mStackFrame) : List Char × Nat :=
  match prevFrame with
  | some prev =>
    emit length st
      ("at ".toList ++ fmtHex8 stackFrame.callAddress ++ " [".toList ++
        fmtHex8 prev.entryAddress ++ ['+'] ++
        fmtDec (GBAVideoGL.toS32 (GBAVideoGL.toU32
          ((stackFrame.callAddress : Int) - (prev.entryAddress : Int)))) ++ "]\n".toList)
  | none => emit length st ("at ".toList ++ fmtHex8 stackFrame.callAddress ++ "\n".toList)

/-- Lines 71-90 of `mStackTraceFormatFrame`: the branch on `stackFrame` and on the
callback. -/
def formatBody (length : Nat) (st : List Char × Nat) (stackFrame prevFrame : Option mStackFrame)
    (formatRegisters : Option (mStackFrame → List Char)) : List Char × Nat :=
  match stackFrame with
  | none => emit length st "no stack frame available)\n".toList
  | some stackFrame =>
    match formatRegisters with
    | some f =>
      let st := emit length st ['(']
      if st.2 ≥ length then st
      else
        let st := emit length st (f stackFrame ++ ")\n    ".toList)
        if st.2 ≥ length then st else formatAt length st stackFrame prevFrame
    | none => formatAt length st stackFrame prevFrame

/-- `mStackTraceFormatFrame`: the text left in `out` and the value left in `*length`,
for the value `length` of `*length` on entry. The callback `stack->formatRegisters` is
a parameter: `none` for a null pointer, otherwise the string it leaves in `buffer`.
`frame` is a `uint32_t`: `frame + 1` wraps, and `%d` prints it as an `int`. Each
`CHECK_LENGTH()` is the test `written >= *length`. -/
def mStackTraceFormatFrame (stack : mStackTrace)
    (formatRegisters : Option (mStackFrame → List Char)) (frame length : Nat) :
    List Char × Nat :=
  let stackFrame := mStackTraceGetFrame stack frame
  let prevFrame := mStackTraceGetFrame stack ((frame + 1) % 4294967296)
  let st := emit length ([], 0) ('#' :: fmtDec (GBAVideoGL.toS32 frame) ++ [' ', ' '])
  if st.2 ≥ length then st
  else
    match prevFrame with
    | some prev =>
      let st := emit length st (fmtHex8 prev.entryAddress ++ [' '])
      if st.2 ≥ length then st else formatBody length st stackFrame prevFrame formatRegisters
    | none => formatBody length st stackFrame prevFrame formatRegisters

/-! ## Specification side of the formatting claims -/

/-- The texts of the `snprintf` calls `mStackTraceFormatFrame` makes when nothing is
truncated, in order. -/
def frameSegments (stack : mStackTrace) (formatRegisters : Option (mStackFrame → List Char))
    (frame : Nat) : List (List Char) :=
  let stackFrame := mStackTraceGetFrame stack frame
  let prevFrame := mStackTraceGetFrame stack ((frame + 1) % 4294967296)
  [('#' :: fmtDec (GBAVideoGL.toS32 frame) ++ [' ', ' '])] ++
  (match prevFrame with
    | some prev => [fmtHex8 prev.entryAddress ++ [' ']]
    | none => []) ++
  (match stackFrame with
    | none => ["no stack frame available)\n".toList]
    | some stackFrame =>
      (match formatRegisters with
        | some f => [['('], f stackFrame ++ ")\n    ".toList]
        | none => []) ++
      [match prevFrame with
        | some prev =>
          "at ".toList ++ fmtHex8 stackFrame.callAddress ++ " [".toList ++
            fmtHex8 prev.entryAddress ++ ['+'] ++
            fmtDec (GBAVideoGL.toS32 (GBAVideoGL.toU32
              ((stackFrame.callAddress : Int) - (prev.entryAddress : Int)))) ++ "]\n".toList
        | none => "at ".toList ++ fmtHex8 stackFrame.callAddress ++ "\n".toList])

/-- The complete text of a frame, as an unbounded buffer would receive it. -/
def frameText (stack : mStackTrace) (formatRegisters : Option (mStackFrame → List Char))
    (frame : Nat) : List Char :=
  (frameSegments stack formatRegisters frame).flatten

/-- A sequence of `snprintf` calls, each but the last followed by `CHECK_LENGTH()`. -/
def emitAll (length : Nat) : List (List Char) → List Char × Nat → List Char × Nat
  | [], st => st
  | [text], st => emit length st text
  | text :: next :: rest, st =>
    if (emit length st text).2 ≥ length then emit length st text
    else emitAll length (next :: rest) (emit length st text)

/-- The frame a `mStackTracePush` call with arguments `c` creates in a stack with the
given register block size. -/
def frameOf (registersSize : Nat) (c : PushArgs) : mStackFrame :=
  { callAddress := c.pc
    entryAddress := c.destAddress
    frameBaseAddress := c.sp
    regs := c.regs.take registersSize
    finished := false
    breakWhenFinished := false
    interrupt := false }

/-- The stack of the scenario: frame A pushed first, then frame B. -/
def twoFrames : mStackTrace :=
  mStackTracePush (mStackTracePush (mStackTraceInit 0) 0x08000100 0x08000200 0x03007F00 [])
    0x08000300 0x08000400 0x03007EF0 []

/-- A register-format callback that writes `r0`. -/
def demoRegisters : mStackFrame → List Char := fun _ => ['r', '0']

end StackTrace

namespace GBAVideoGL

/-! ## Lemmas on register ingress -/

theorem writeSwitch_shadowRegs (s : GBAVideoGLRenderer) (a v : Nat) :
    (writeSwitch s a v).1.shadowRegs = s.shadowRegs := by
  simp only [writeSwitch, apply_ite Prod.fst, apply_ite GBAVideoGLRenderer.shadowRegs, setBg,
    setWin, ite_self]

theorem writeSwitch_regsDirty (s : GBAVideoGLRenderer) (a v : Nat) :
    (writeSwitch s a v).1.regsDirty = s.regsDirty := by
  simp only [writeSwitch, apply_ite Prod.fst, apply_ite GBAVideoGLRenderer.regsDirty, setBg,
    setWin, ite_self]

theorem writeSwitch_value (s : GBAVideoGLRenderer) (a v : Nat) (ha : a < 0x60) :
    (writeSwitch s a v).2.1 = regMask a v := by
  interval_cases a <;>
    simp [writeSwitch, regMask, REG_DISPCNT, REG_BG0CNT, REG_BG1CNT, REG_BG2CNT, REG_BG3CNT,
      REG_BG0HOFS, REG_BG0VOFS, REG_BG1HOFS, REG_BG1VOFS, REG_BG2HOFS, REG_BG2VOFS, REG_BG3HOFS,
      REG_BG3VOFS, REG_BG2PA, REG_BG2PB, REG_BG2PC, REG_BG2PD, REG_BG2X_LO, REG_BG2X_HI,
      REG_BG2Y_LO, REG_BG2Y_HI, REG_BG3PA, REG_BG3PB, REG_BG3PC, REG_BG3PD, REG_BG3X_LO,
      REG_BG3X_HI, REG_BG3Y_LO, REG_BG3Y_HI, REG_WIN0H, REG_WIN1H, REG_WIN0V, REG_WIN1V,
      REG_WININ, REG_WINOUT, REG_MOSAIC, REG_BLDCNT, REG_BLDALPHA, REG_BLDY]
  rw [min_def]
  split_ifs <;> omega

theorem writeSwitch_dirty (s : GBAVideoGLRenderer) (a v : Nat) (ha : a < 0x60) :
    (writeSwitch s a v).2.2 = decide (dirtyCandidate a) := by
  interval_cases a <;>
    simp [writeSwitch, dirtyCandidate, sideTableRegs, REG_DISPCNT, REG_BG0CNT, REG_BG1CNT,
      REG_BG2CNT, REG_BG3CNT,
      REG_BG0HOFS, REG_BG0VOFS, REG_BG1HOFS, REG_BG1VOFS, REG_BG2HOFS, REG_BG2VOFS, REG_BG3HOFS,
      REG_BG3VOFS, REG_BG2PA, REG_BG2PB, REG_BG2PC, REG_BG2PD, REG_BG2X_LO, REG_BG2X_HI,
      REG_BG2Y_LO, REG_BG2Y_HI, REG_BG3PA, REG_BG3PB, REG_BG3PC, REG_BG3PD, REG_BG3X_LO,
      REG_BG3X_HI, REG_BG3Y_LO, REG_BG3Y_HI, REG_WIN0H, REG_WIN1H, REG_WIN0V, REG_WIN1V,
      REG_WININ, REG_WINOUT, REG_MOSAIC, REG_BLDCNT, REG_BLDALPHA, REG_BLDY]

theorem setAt_self {α : Type} (f : Nat → α) (i : Nat) : setAt f i (f i) = f := by
  funext j
  unfold setAt
  split_ifs with h
  · rw [h]
  · rfl

/-- The register write in closed form: the side-table update of the switch, the shadow
slot overwritten with the masked value, and the dirty bit or-ed in exactly when the
register is flagged dirty by the switch and the masked value differs from the shadow. -/
theorem wvr_eq (s : GBAVideoGLRenderer) (a v : Nat) :
    (GBAVideoGLRendererWriteVideoRegister s a v).1 =
      { (writeSwitch s a v).1 with
        shadowRegs := setAt s.shadowRegs (a >>> 1) (writeSwitch s a v).2.1
        regsDirty :=
          if (writeSwitch s a v).2.2 = true ∧ s.shadowRegs (a >>> 1) ≠ (writeSwitch s a v).2.1
          then s.regsDirty ||| (1 <<< (a >>> 1)) else s.regsDirty } := by
  have hs := writeSwitch_shadowRegs s a v
  have hd := writeSwitch_regsDirty s a v
  unfold GBAVideoGLRendererWriteVideoRegister
  generalize writeSwitch s a v = r at hs hd ⊢
  obtain ⟨sw, m, d⟩ := r
  cases sw
  simp only at hs hd
  subst hs hd
  by_cases hsame : s.shadowRegs (a >>> 1) = m
  · have e : setAt s.shadowRegs (a >>> 1) m = s.shadowRegs := by
      rw [← hsame]; exact setAt_self _ _
    simp [hsame, e]
  · cases d <;> simp [hsame]

theorem wvr_snd (s : GBAVideoGLRenderer) (a v : Nat) :
    (GBAVideoGLRendererWriteVideoRegister s a v).2 = (writeSwitch s a v).2.1 := rfl

theorem wvr_shadowRegs (s : GBAVideoGLRenderer) (a v : Nat) :
    (GBAVideoGLRendererWriteVideoRegister s a v).1.shadowRegs =
      setAt s.shadowRegs (a >>> 1) (writeSwitch s a v).2.1 := by
  rw [wvr_eq]

theorem wvr_regsDirty (s : GBAVideoGLRenderer) (a v : Nat) :
    (GBAVideoGLRendererWriteVideoRegister s a v).1.regsDirty =
      if (writeSwitch s a v).2.2 = true ∧ s.shadowRegs (a >>> 1) ≠ (writeSwitch s a v).2.1
      then s.regsDirty ||| (1 <<< (a >>> 1)) else s.regsDirty := by
  rw [wvr_eq]

theorem testBit_or_bit (n i j : Nat) :
    (n ||| (1 <<< i)).testBit j = (n.testBit j || decide (i = j)) := by
  rw [Nat.testBit_or, Nat.one_shiftLeft, Nat.testBit_two_pow]

theorem writeSwitch_congr (s : GBAVideoGLRenderer) (f : Nat → Nat) (d : Nat) (a v : Nat) :
    writeSwitch { s with shadowRegs := f, regsDirty := d } a v =
      (fun r : GBAVideoGLRenderer × Nat × Bool =>
        ({ r.1 with shadowRegs := f, regsDirty := d }, r.2)) (writeSwitch s a v) := by
  unfold writeSwitch
  simp only [apply_ite (fun r : GBAVideoGLRenderer × Nat × Bool =>
        ({ r.1 with shadowRegs := f, regsDirty := d }, r.2))]
  rfl

/-! ## Bit-pattern arithmetic -/

theorem and_hi16 (p : Nat) (hp : p < 4294967296) : p &&& 0xFFFF0000 = p / 65536 * 65536 := by
  have e1 : (0xFFFF0000 : Nat) = (2 ^ 16 - 1) <<< 16 := by decide
  have e2 : p / 65536 * 65536 = (p >>> 16) <<< 16 := by
    rw [Nat.shiftRight_eq_div_pow, Nat.shiftLeft_eq]
  rw [e1, e2]
  apply Nat.eq_of_testBit_eq
  intro i
  simp only [Nat.testBit_and, Nat.testBit_shiftLeft, Nat.testBit_two_pow_sub_one,
    Nat.testBit_shiftRight]
  by_cases h : i ≥ 16
  · have h2 : 16 + (i - 16) = i := by omega
    simp only [h, h2, decide_True, Bool.true_and]
    by_cases h3 : i - 16 < 16
    · simp [h3]
    · have : p.testBit i = false := by
        apply Nat.testBit_lt_two_pow
        calc p < 2 ^ 32 := hp
          _ ≤ 2 ^ i := Nat.pow_le_pow_right (by decide) (by omega)
      simp [h3, this]
  · simp [h]

theorem and_lo16 (p : Nat) : p &&& 0x0000FFFF = p % 65536 := by
  have := Nat.and_pow_two_sub_one_eq_mod p 16
  simpa using this

theorem or_hi_lo (a v : Nat) (hv : v < 65536) : (a * 65536) ||| v = a * 65536 + v := by
  have := Nat.mul_add_lt_is_or (i := 16) (b := v) (by simpa using hv) a
  rw [Nat.mul_comm] at this
  simpa using this.symm

theorem toU32_lt (x : Int) : toU32 x < 4294967296 := by
  unfold toU32; omega

theorem toU32_toS32 (n : Nat) : toU32 (toS32 n) = n % 4294967296 := by
  unfold toU32 toS32
  split_ifs <;> omega

theorem refLo_arith (x : Int) (v : Nat) (hv : v < 65536) :
    toS32 ((toU32 x &&& 0xFFFF0000) ||| v) = toS32 (toU32 x / 65536 * 65536 + v) := by
  rw [and_hi16 _ (toU32_lt x), or_hi_lo _ _ hv]

theorem refHi_arith (x : Int) (v : Nat) (hv : v < 65536) :
    (toS32 ((toU32 (toS32 ((toU32 x &&& 0x0000FFFF) ||| ((v <<< 16) % 4294967296))) <<< 4)
      % 4294967296)) >>> (4 : Nat) =
    toS32 (((v * 65536 + toU32 x % 65536) * 16) % 4294967296) / 16 := by
  have e1 : (v <<< 16) % 4294967296 = v * 65536 := by
    rw [Nat.shiftLeft_eq]; omega
  have e2 : (toU32 x &&& 0x0000FFFF) ||| (v * 65536) = v * 65536 + toU32 x % 65536 := by
    rw [and_lo16, Nat.lor_comm, or_hi_lo _ _ (by omega)]
  have e3 : (v * 65536 + toU32 x % 65536) % 4294967296 = v * 65536 + toU32 x % 65536 := by omega
  rw [e1, e2, toU32_toS32, e3, Nat.shiftLeft_eq, Int.shiftRight_eq_div_pow]
  rfl


theorem refHi_value (x : Int) (v : Nat) :
    toS32 (((v * 65536 + toU32 x % 65536) * 16) % 4294967296) / 16 =
      signExtend28 (v * 65536 + toU32 x % 65536) := by
  unfold toS32 signExtend28 toU32
  split_ifs <;> omega

/-! ## Idempotence of the side-table updates -/

theorem setBg_bg_same (s : GBAVideoGLRenderer) (i : Fin 4) (b : GBAVideoGLBackground) :
    (setBg s i b).bg i = b := by simp [setBg]

theorem setBg_setBg (s : GBAVideoGLRenderer) (i : Fin 4) (b b' : GBAVideoGLBackground) :
    setBg (setBg s i b) i b' = setBg s i b' := by
  unfold setBg
  congr 1
  funext j
  by_cases h : j = i <;> simp [h]

theorem setWin_winN_same (s : GBAVideoGLRenderer) (i : Fin 2) (w : GBAVideoGLWindowN) :
    (setWin s i w).winN i = w := by simp [setWin]

theorem setWin_setWin (s : GBAVideoGLRenderer) (i : Fin 2) (w w' : GBAVideoGLWindowN) :
    setWin (setWin s i w) i w' = setWin s i w' := by
  unfold setWin
  congr 1
  funext j
  by_cases h : j = i <;> simp [h]

theorem writeBGX_LO_idem (b : GBAVideoGLBackground) (v : Nat) (hv : v < 65536) :
    GBAVideoGLRendererWriteBGX_LO (GBAVideoGLRendererWriteBGX_LO b v) v =
      GBAVideoGLRendererWriteBGX_LO b v := by
  have e : toS32 (toU32 (toS32 (toU32 b.refx / 65536 * 65536 + v)) / 65536 * 65536 + v) =
      toS32 (toU32 b.refx / 65536 * 65536 + v) := by
    rw [toU32_toS32]; unfold toS32; split_ifs <;> omega
  simp only [GBAVideoGLRendererWriteBGX_LO, refLo_arith _ _ hv, e]

theorem writeBGY_LO_idem (b : GBAVideoGLBackground) (v : Nat) (hv : v < 65536) :
    GBAVideoGLRendererWriteBGY_LO (GBAVideoGLRendererWriteBGY_LO b v) v =
      GBAVideoGLRendererWriteBGY_LO b v := by
  have e : toS32 (toU32 (toS32 (toU32 b.refy / 65536 * 65536 + v)) / 65536 * 65536 + v) =
      toS32 (toU32 b.refy / 65536 * 65536 + v) := by
    rw [toU32_toS32]; unfold toS32; split_ifs <;> omega
  simp only [GBAVideoGLRendererWriteBGY_LO, refLo_arith _ _ hv, e]

theorem signExtend28_idem (x : Int) (v : Nat) (hv : v < 65536) :
    signExtend28 (v * 65536 + toU32 (signExtend28 (v * 65536 + toU32 x % 65536)) % 65536) =
      signExtend28 (v * 65536 + toU32 x % 65536) := by
  have _ := hv
  unfold signExtend28 toU32
  split_ifs <;> omega

theorem writeBGX_HI_idem (b : GBAVideoGLBackground) (v : Nat) (hv : v < 65536) :
    GBAVideoGLRendererWriteBGX_HI (GBAVideoGLRendererWriteBGX_HI b v) v =
      GBAVideoGLRendererWriteBGX_HI b v := by
  simp only [GBAVideoGLRendererWriteBGX_HI, refHi_arith _ _ hv, refHi_value _ _,
    signExtend28_idem _ _ hv]

theorem writeBGY_HI_idem (b : GBAVideoGLBackground) (v : Nat) (hv : v < 65536) :
    GBAVideoGLRendererWriteBGY_HI (GBAVideoGLRendererWriteBGY_HI b v) v =
      GBAVideoGLRendererWriteBGY_HI b v := by
  simp only [GBAVideoGLRendererWriteBGY_HI, refHi_arith _ _ hv, refHi_value _ _,
    signExtend28_idem _ _ hv]

theorem writeSwitch_idem (s : GBAVideoGLRenderer) (a v : Nat) (ha : a < 0x60) (hv : v < 65536) :
    writeSwitch (writeSwitch s a v).1 a v = writeSwitch s a v := by
  interval_cases a <;>
    simp [writeSwitch, setBg_bg_same, setBg_setBg, setWin_winN_same, setWin_setWin,
      writeBGX_LO_idem _ _ hv, writeBGX_HI_idem _ _ hv, writeBGY_LO_idem _ _ hv,
      writeBGY_HI_idem _ _ hv,
      REG_DISPCNT, REG_BG0CNT, REG_BG1CNT, REG_BG2CNT, REG_BG3CNT,
      REG_BG0HOFS, REG_BG0VOFS, REG_BG1HOFS, REG_BG1VOFS, REG_BG2HOFS, REG_BG2VOFS, REG_BG3HOFS,
      REG_BG3VOFS, REG_BG2PA, REG_BG2PB, REG_BG2PC, REG_BG2PD, REG_BG2X_LO, REG_BG2X_HI,
      REG_BG2Y_LO, REG_BG2Y_HI, REG_BG3PA, REG_BG3PB, REG_BG3PC, REG_BG3PD, REG_BG3X_LO,
      REG_BG3X_HI, REG_BG3Y_LO, REG_BG3Y_HI, REG_WIN0H, REG_WIN1H, REG_WIN0V, REG_WIN1V,
      REG_WININ, REG_WINOUT, REG_MOSAIC, REG_BLDCNT, REG_BLDALPHA, REG_BLDY]

/-! ## Counting dirty bits -/

theorem popCount_or_bit (n i : Nat) (hi : i < 64) (hb : n.testBit i = false) :
    popCount (n ||| (1 <<< i)) = popCount n + 1 := by
  unfold popCount
  have e : (Finset.range 64).filter (fun j => (n ||| (1 <<< i)).testBit j = true) =
      insert i ((Finset.range 64).filter (fun j => n.testBit j = true)) := by
    ext j
    simp only [Finset.mem_filter, Finset.mem_range, Finset.mem_insert, testBit_or_bit,
      Bool.or_eq_true, decide_eq_true_eq]
    constructor
    · rintro ⟨hj, h | h⟩
      · exact Or.inr ⟨hj, h⟩
      · exact Or.inl h.symm
    · rintro (h | ⟨hj, h⟩)
      · subst h; exact ⟨hi, Or.inr rfl⟩
      · exact ⟨hj, Or.inl h⟩
  rw [e, Finset.card_insert_of_not_mem]
  simp [hb]

theorem or_bit_of_testBit (n i : Nat) (hb : n.testBit i = true) : n ||| (1 <<< i) = n := by
  apply Nat.eq_of_testBit_eq
  intro j
  rw [testBit_or_bit]
  by_cases h : i = j
  · subst h; simp [hb]
  · simp [h]

/-! ## C1 -/

/-- C1: for every even register address below `0x60` and every 16-bit value, the
register write returns the masked value `regMask addr v`, and afterwards the shadow
slot `addr >> 1` holds the returned value. -/
theorem C1_write_returns_masked_value (s : GBAVideoGLRenderer) (addr v : Nat)
    (heven : addr % 2 = 0) (haddr : addr < 0x60) (hv : v < 65536) :
    (GBAVideoGLRendererWriteVideoRegister s addr v).2 = regMask addr v ∧
    (GBAVideoGLRendererWriteVideoRegister s addr v).1.shadowRegs (addr >>> 1) =
      (GBAVideoGLRendererWriteVideoRegister s addr v).2 := by
  have _ := heven
  have _ := hv
  refine ⟨?_, ?_⟩
  · rw [wvr_snd, writeSwitch_value s addr v haddr]
  · rw [wvr_shadowRegs, wvr_snd]
    simp [setAt]

/-- C1 at BLDY with every bit set: the write returns the saturated value `0x10`. -/
theorem C1_write_returns_masked_value_witness :
    (GBAVideoGLRendererWriteVideoRegister zeroRenderer REG_BLDY 0xFFFF).2 = regMask REG_BLDY 0xFFFF ∧
    (GBAVideoGLRendererWriteVideoRegister zeroRenderer REG_BLDY 0xFFFF).1.shadowRegs
        (REG_BLDY >>> 1) =
      (GBAVideoGLRendererWriteVideoRegister zeroRenderer REG_BLDY 0xFFFF).2 :=
  C1_write_returns_masked_value zeroRenderer REG_BLDY 0xFFFF (by decide) (by decide) (by decide)

/-! ## C2 -/

/-- C2: for a dirty-candidate register, a write whose masked value equals the shadow
leaves `regsDirty` and the shadow table unchanged; otherwise the masked value is stored
in slot `addr >> 1` (no other slot changes), bit `addr >> 1` of `regsDirty` is set and
every other bit of `regsDirty` is as before. -/
theorem C2_dirty_candidate_write (s : GBAVideoGLRenderer) (addr v : Nat)
    (haddr : addr < 0x60) (hcand : dirtyCandidate addr) :
    (s.shadowRegs (addr >>> 1) = regMask addr v →
      (GBAVideoGLRendererWriteVideoRegister s addr v).1.regsDirty = s.regsDirty ∧
      (GBAVideoGLRendererWriteVideoRegister s addr v).1.shadowRegs = s.shadowRegs) ∧
    (s.shadowRegs (addr >>> 1) ≠ regMask addr v →
      (GBAVideoGLRendererWriteVideoRegister s addr v).1.shadowRegs (addr >>> 1) = regMask addr v ∧
      (∀ j, j ≠ addr >>> 1 →
        (GBAVideoGLRendererWriteVideoRegister s addr v).1.shadowRegs j = s.shadowRegs j) ∧
      (GBAVideoGLRendererWriteVideoRegister s addr v).1.regsDirty.testBit (addr >>> 1) = true ∧
      (∀ j, j ≠ addr >>> 1 →
        (GBAVideoGLRendererWriteVideoRegister s addr v).1.regsDirty.testBit j =
          s.regsDirty.testBit j)) := by
  have hval := writeSwitch_value s addr v haddr
  have hdirty := writeSwitch_dirty s addr v haddr
  rw [wvr_regsDirty, wvr_shadowRegs, hval, hdirty]
  refine ⟨?_, ?_⟩
  · intro h
    refine ⟨by simp [h], ?_⟩
    rw [← h]; exact setAt_self _ _
  · intro h
    have hc : decide (dirtyCandidate addr) = true ∧ s.shadowRegs (addr >>> 1) ≠ regMask addr v :=
      ⟨by simpa using hcand, h⟩
    rw [if_pos hc]
    refine ⟨by simp [setAt], ?_, ?_, ?_⟩
    · intro j hj
      simp [setAt, hj]
    · rw [testBit_or_bit]; simp
    · intro j hj
      have hj2 : ¬ (addr >>> 1 = j) := fun e => hj e.symm
      rw [testBit_or_bit]; simp [hj2]

/-- C2 at MOSAIC on a zeroed renderer: the value 5 differs from the shadow, so it is
stored and bit `0x26` of `regsDirty` is set. -/
theorem C2_dirty_candidate_write_witness :
    (zeroRenderer.shadowRegs (REG_MOSAIC >>> 1) = regMask REG_MOSAIC 5 →
      (GBAVideoGLRendererWriteVideoRegister zeroRenderer REG_MOSAIC 5).1.regsDirty =
        zeroRenderer.regsDirty ∧
      (GBAVideoGLRendererWriteVideoRegister zeroRenderer REG_MOSAIC 5).1.shadowRegs =
        zeroRenderer.shadowRegs) ∧
    (zeroRenderer.shadowRegs (REG_MOSAIC >>> 1) ≠ regMask REG_MOSAIC 5 →
      (GBAVideoGLRendererWriteVideoRegister zeroRenderer REG_MOSAIC 5).1.shadowRegs
          (REG_MOSAIC >>> 1) = regMask REG_MOSAIC 5 ∧
      (∀ j, j ≠ REG_MOSAIC >>> 1 →
        (GBAVideoGLRendererWriteVideoRegister zeroRenderer REG_MOSAIC 5).1.shadowRegs j =
          zeroRenderer.shadowRegs j) ∧
      (GBAVideoGLRendererWriteVideoRegister zeroRenderer REG_MOSAIC 5).1.regsDirty.testBit
          (REG_MOSAIC >>> 1) = true ∧
      (∀ j, j ≠ REG_MOSAIC >>> 1 →
        (GBAVideoGLRendererWriteVideoRegister zeroRenderer REG_MOSAIC 5).1.regsDirty.testBit j =
          zeroRenderer.regsDirty.testBit j)) :=
  C2_dirty_candidate_write zeroRenderer REG_MOSAIC 5 (by decide) (by decide)

theorem wvr_of_switch (s t : GBAVideoGLRenderer) (a v m : Nat) (d : Bool)
    (h : writeSwitch s a v = (t, m, d)) (hm : t.shadowRegs (a >>> 1) = m) :
    GBAVideoGLRendererWriteVideoRegister s a v = (t, m) := by
  unfold GBAVideoGLRendererWriteVideoRegister
  rw [h]
  simp [hm]

theorem wvr_idem (s : GBAVideoGLRenderer) (a v : Nat) (ha : a < 0x60) (hv : v < 65536) :
    GBAVideoGLRendererWriteVideoRegister (GBAVideoGLRendererWriteVideoRegister s a v).1 a v =
      GBAVideoGLRendererWriteVideoRegister s a v := by
  have h1 : writeSwitch (GBAVideoGLRendererWriteVideoRegister s a v).1 a v =
      ((GBAVideoGLRendererWriteVideoRegister s a v).1, (writeSwitch s a v).2.1,
        (writeSwitch s a v).2.2) := by
    rw [wvr_eq, writeSwitch_congr, writeSwitch_idem s a v ha hv]
  have h2 : (GBAVideoGLRendererWriteVideoRegister s a v).1.shadowRegs (a >>> 1) =
      (writeSwitch s a v).2.1 := by
    rw [wvr_shadowRegs]; simp [setAt]
  rw [wvr_of_switch _ _ a v _ _ h1 h2]
  rfl

/-! ## C3 -/

/-- C3 as stated fails right after reset: writing DISPCNT = 0 twice leaves `regsDirty`
as it was, so the number of set bits has not grown by one. -/
theorem C3_counterexample :
    popCount (GBAVideoGLRendererWriteVideoRegister
        (GBAVideoGLRendererWriteVideoRegister (GBAVideoGLRendererReset zeroRenderer)
          REG_DISPCNT 0).1 REG_DISPCNT 0).1.regsDirty ≠
      popCount (GBAVideoGLRendererReset zeroRenderer).regsDirty + 1 := by
  have e : (GBAVideoGLRendererWriteVideoRegister
        (GBAVideoGLRendererWriteVideoRegister (GBAVideoGLRendererReset zeroRenderer)
          REG_DISPCNT 0).1 REG_DISPCNT 0).1.regsDirty =
      (GBAVideoGLRendererReset zeroRenderer).regsDirty := by decide
  rw [e]
  omega

/-- C3 (amended): for every renderer state, in-table address and 16-bit value, the
second of two identical writes in a row leaves `regsDirty` as the first write left it,
and over the two writes the number of set bits grows by one exactly when the register
is a dirty candidate, the masked value differs from the shadow and bit `addr >> 1` was
clear before; otherwise it does not grow. -/
theorem C3_second_write_suppressed (s : GBAVideoGLRenderer) (addr v : Nat)
    (haddr : addr < 0x60) (hv : v < 65536) :
    (GBAVideoGLRendererWriteVideoRegister
        (GBAVideoGLRendererWriteVideoRegister s addr v).1 addr v).1.regsDirty =
      (GBAVideoGLRendererWriteVideoRegister s addr v).1.regsDirty ∧
    popCount (GBAVideoGLRendererWriteVideoRegister
        (GBAVideoGLRendererWriteVideoRegister s addr v).1 addr v).1.regsDirty =
      popCount s.regsDirty +
        (if dirtyCandidate addr ∧ s.shadowRegs (addr >>> 1) ≠ regMask addr v ∧
            s.regsDirty.testBit (addr >>> 1) = false then 1 else 0) := by
  rw [wvr_idem s addr v haddr hv, wvr_regsDirty, writeSwitch_value s addr v haddr,
    writeSwitch_dirty s addr v haddr]
  refine ⟨rfl, ?_⟩
  have hi : addr >>> 1 < 64 := by
    rw [Nat.shiftRight_eq_div_pow]; omega
  by_cases hc : dirtyCandidate addr
  · by_cases hs : s.shadowRegs (addr >>> 1) = regMask addr v
    · simp [hs]
    · cases hb : s.regsDirty.testBit (addr >>> 1)
      · simp [hc, hs, popCount_or_bit _ _ hi hb]
      · simp [hc, hs, or_bit_of_testBit _ _ hb]
  · simp [hc]

/-- C3 (amended) at MOSAIC = 5 on a zeroed renderer, where the count grows by one. -/
theorem C3_second_write_suppressed_witness :
    (GBAVideoGLRendererWriteVideoRegister
        (GBAVideoGLRendererWriteVideoRegister zeroRenderer REG_MOSAIC 5).1 REG_MOSAIC 5).1.regsDirty =
      (GBAVideoGLRendererWriteVideoRegister zeroRenderer REG_MOSAIC 5).1.regsDirty ∧
    popCount (GBAVideoGLRendererWriteVideoRegister
        (GBAVideoGLRendererWriteVideoRegister zeroRenderer REG_MOSAIC 5).1 REG_MOSAIC 5).1.regsDirty =
      popCount zeroRenderer.regsDirty +
        (if dirtyCandidate REG_MOSAIC ∧
            zeroRenderer.shadowRegs (REG_MOSAIC >>> 1) ≠ regMask REG_MOSAIC 5 ∧
            zeroRenderer.regsDirty.testBit (REG_MOSAIC >>> 1) = false then 1 else 0) :=
  C3_second_write_suppressed zeroRenderer REG_MOSAIC 5 (by decide) (by decide)

/-! ## C4 -/

/-- C4: for every renderer state, in-table address and 16-bit value, repeating a
register write on the state the first write produced returns the same value and gives
back that same state: no field of the renderer changes. -/
theorem C4_write_idempotent (s : GBAVideoGLRenderer) (a v : Nat) (ha : a < 0x60)
    (hv : v < 65536) :
    (GBAVideoGLRendererWriteVideoRegister (GBAVideoGLRendererWriteVideoRegister s a v).1 a v).2 =
      (GBAVideoGLRendererWriteVideoRegister s a v).2 ∧
    (GBAVideoGLRendererWriteVideoRegister (GBAVideoGLRendererWriteVideoRegister s a v).1 a v).1 =
      (GBAVideoGLRendererWriteVideoRegister s a v).1 := by
  rw [wvr_idem s a v ha hv]
  exact ⟨rfl, rfl⟩

/-- C4 at the high half of the BG2 reference point with the sign bit of the 28-bit
value set. -/
theorem C4_write_idempotent_witness :
    (GBAVideoGLRendererWriteVideoRegister
        (GBAVideoGLRendererWriteVideoRegister zeroRenderer REG_BG2X_HI 0x0800).1
        REG_BG2X_HI 0x0800).2 =
      (GBAVideoGLRendererWriteVideoRegister zeroRenderer REG_BG2X_HI 0x0800).2 ∧
    (GBAVideoGLRendererWriteVideoRegister
        (GBAVideoGLRendererWriteVideoRegister zeroRenderer REG_BG2X_HI 0x0800).1
        REG_BG2X_HI 0x0800).1 =
      (GBAVideoGLRendererWriteVideoRegister zeroRenderer REG_BG2X_HI 0x0800).1 :=
  C4_write_idempotent zeroRenderer REG_BG2X_HI 0x0800 (by decide) (by decide)


theorem writeWindowRegion_eq (bound v : Nat) (hv : v < 65536) :
    writeWindowRegion bound v = { end_ := winEndSpec bound v, start := winStartSpec bound v } := by
  have e1 : v &&& 0xFF = v % 256 := by
    have := Nat.and_pow_two_sub_one_eq_mod v 8
    simpa using this
  have e2 : v >>> 8 = v / 256 := by
    rw [Nat.shiftRight_eq_div_pow]
  have e3 : v / 256 % 256 = v / 256 := by omega
  unfold writeWindowRegion winEndSpec winStartSpec toU8
  simp only [e1, e2, e3, min_def]
  split_ifs <;> simp only [GBAVideoWindowRegion.mk.injEq] <;> omega

theorem wvr_winN (s : GBAVideoGLRenderer) (a v : Nat) :
    (GBAVideoGLRendererWriteVideoRegister s a v).1.winN = (writeSwitch s a v).1.winN := by
  rw [wvr_eq]

theorem wvr_bg (s : GBAVideoGLRenderer) (a v : Nat) :
    (GBAVideoGLRendererWriteVideoRegister s a v).1.bg = (writeSwitch s a v).1.bg := by
  rw [wvr_eq]

theorem winStartSpec_le (bound v : Nat) : winStartSpec bound v ≤ bound := by
  unfold winStartSpec; split_ifs <;> omega

theorem winEndSpec_le (bound v : Nat) : winEndSpec bound v ≤ bound := by
  unfold winEndSpec; omega

/-! ## C8 -/

/-- C8: for every 16-bit value and each of the four window-bound registers, the write
leaves `end = min(v & 0xFF, bound)` and `start` as the specification's clamp gives it
(`winStartSpec`), with bound 240 for WIN0H/WIN1H and 160 for WIN0V/WIN1V; hence both
bounds lie in `[0, bound]`. -/
theorem C8_window_bounds_clamped (s : GBAVideoGLRenderer) (v : Nat) (hv : v < 65536) :
    (((GBAVideoGLRendererWriteVideoRegister s REG_WIN0H v).1.winN 0).h.end_ = winEndSpec 240 v ∧
     ((GBAVideoGLRendererWriteVideoRegister s REG_WIN0H v).1.winN 0).h.start = winStartSpec 240 v) ∧
    (((GBAVideoGLRendererWriteVideoRegister s REG_WIN1H v).1.winN 1).h.end_ = winEndSpec 240 v ∧
     ((GBAVideoGLRendererWriteVideoRegister s REG_WIN1H v).1.winN 1).h.start = winStartSpec 240 v) ∧
    (((GBAVideoGLRendererWriteVideoRegister s REG_WIN0V v).1.winN 0).v.end_ = winEndSpec 160 v ∧
     ((GBAVideoGLRendererWriteVideoRegister s REG_WIN0V v).1.winN 0).v.start = winStartSpec 160 v) ∧
    (((GBAVideoGLRendererWriteVideoRegister s REG_WIN1V v).1.winN 1).v.end_ = winEndSpec 160 v ∧
     ((GBAVideoGLRendererWriteVideoRegister s REG_WIN1V v).1.winN 1).v.start = winStartSpec 160 v) ∧
    (winStartSpec 240 v ≤ 240 ∧ winEndSpec 240 v ≤ 240 ∧
     winStartSpec 160 v ≤ 160 ∧ winEndSpec 160 v ≤ 160) := by
  refine ⟨?_, ?_, ?_, ?_, winStartSpec_le _ _, winEndSpec_le _ _, winStartSpec_le _ _,
    winEndSpec_le _ _⟩ <;>
  · rw [wvr_winN]
    simp [writeSwitch, setWin, writeWindowRegion_eq _ _ hv, GBA_VIDEO_HORIZONTAL_PIXELS,
      GBA_VIDEO_VERTICAL_PIXELS,
      REG_DISPCNT, REG_BG0CNT, REG_BG1CNT, REG_BG2CNT, REG_BG3CNT,
      REG_BG0HOFS, REG_BG0VOFS, REG_BG1HOFS, REG_BG1VOFS, REG_BG2HOFS, REG_BG2VOFS, REG_BG3HOFS,
      REG_BG3VOFS, REG_BG2PA, REG_BG2PB, REG_BG2PC, REG_BG2PD, REG_BG2X_LO, REG_BG2X_HI,
      REG_BG2Y_LO, REG_BG2Y_HI, REG_BG3PA, REG_BG3PB, REG_BG3PC, REG_BG3PD, REG_BG3X_LO,
      REG_BG3X_HI, REG_BG3Y_LO, REG_BG3Y_HI, REG_WIN0H, REG_WIN1H, REG_WIN0V, REG_WIN1V,
      REG_WININ, REG_WINOUT, REG_MOSAIC, REG_BLDCNT, REG_BLDALPHA, REG_BLDY]

/-- C8 at `v = 0xFFF5`: start 255 exceeds both the screen and the end 245, so the
horizontal window becomes start 0, end 240. -/
theorem C8_window_bounds_clamped_witness :
    ((GBAVideoGLRendererWriteVideoRegister zeroRenderer REG_WIN0H 0xFFF5).1.winN 0).h.end_ = 240 ∧
    ((GBAVideoGLRendererWriteVideoRegister zeroRenderer REG_WIN0H 0xFFF5).1.winN 0).h.start = 0 := by
  have h := (C8_window_bounds_clamped zeroRenderer 0xFFF5 (by decide)).1
  have e1 : winEndSpec 240 0xFFF5 = 240 := by decide
  have e2 : winStartSpec 240 0xFFF5 = 0 := by decide
  rw [e1, e2] at h
  exact h


theorem hi_or_lo (lo hi : Nat) (hlo : lo < 65536) : (hi <<< 16) ||| lo = hi * 65536 + lo := by
  rw [Nat.shiftLeft_eq]
  exact or_hi_lo hi lo hlo

theorem refPoint_lo_hi (x : Int) (lo hi : Nat) (hlo : lo < 65536) (hhi : hi < 65536) :
    (toS32 ((toU32 (toS32 ((toU32 (toS32 ((toU32 x &&& 0xFFFF0000) ||| lo)) &&& 0x0000FFFF) |||
        ((hi <<< 16) % 4294967296))) <<< 4) % 4294967296)) >>> (4 : Nat) =
      signExtend28 ((hi <<< 16) ||| lo) := by
  rw [refHi_arith _ _ hhi, refHi_value, refLo_arith _ _ hlo, toU32_toS32, hi_or_lo _ _ hlo]
  congr 1
  have := toU32_lt x
  omega

theorem refPoint_hi_lo (x : Int) (lo hi : Nat) (hlo : lo < 65536) (hhi : hi < 65536) :
    toS32 ((toU32 ((toS32 ((toU32 (toS32 ((toU32 x &&& 0x0000FFFF) |||
        ((hi <<< 16) % 4294967296))) <<< 4) % 4294967296)) >>> (4 : Nat)) &&& 0xFFFF0000) ||| lo) =
      signExtend28 ((hi <<< 16) ||| lo) := by
  rw [refHi_arith _ _ hhi, refHi_value, refLo_arith _ _ hlo, hi_or_lo _ _ hlo]
  have := toU32_lt x
  unfold signExtend28 toS32 toU32
  split_ifs <;> omega

theorem signExtend28_range (n : Nat) :
    -134217728 ≤ signExtend28 n ∧ signExtend28 n < 134217728 := by
  unfold signExtend28
  split_ifs <;> omega

theorem refPointOk_of_eq (r acc : Int) (lo hi : Nat)
    (h1 : r = signExtend28 ((hi <<< 16) ||| lo)) (h2 : acc = r) : refPointOk r acc lo hi := by
  refine ⟨h1, ?_, ?_, h2⟩
  · rw [h1]; exact (signExtend28_range _).1
  · rw [h1]; exact (signExtend28_range _).2

/-! ## C9 -/

/-- C9: for every pair of 16-bit values `lo`, `hi`, after writing the low and the high
half of a reference point of background 2 or 3 in either order, `refx` (resp. `refy`) is
the signed reading of the low 28 bits of `(hi << 16) | lo`, lies in `[-2^27, 2^27)`, and
`affine.sx` (resp. `affine.sy`) equals it. -/
theorem C9_reference_point_sign_extended (s : GBAVideoGLRenderer) (lo hi : Nat)
    (hlo : lo < 65536) (hhi : hi < 65536) :
    (refPointOk ((writeTwo s REG_BG2X_LO lo REG_BG2X_HI hi).bg 2).refx
        ((writeTwo s REG_BG2X_LO lo REG_BG2X_HI hi).bg 2).affine.sx lo hi ∧
     refPointOk ((writeTwo s REG_BG2X_HI hi REG_BG2X_LO lo).bg 2).refx
        ((writeTwo s REG_BG2X_HI hi REG_BG2X_LO lo).bg 2).affine.sx lo hi) ∧
    (refPointOk ((writeTwo s REG_BG2Y_LO lo REG_BG2Y_HI hi).bg 2).refy
        ((writeTwo s REG_BG2Y_LO lo REG_BG2Y_HI hi).bg 2).affine.sy lo hi ∧
     refPointOk ((writeTwo s REG_BG2Y_HI hi REG_BG2Y_LO lo).bg 2).refy
        ((writeTwo s REG_BG2Y_HI hi REG_BG2Y_LO lo).bg 2).affine.sy lo hi) ∧
    (refPointOk ((writeTwo s REG_BG3X_LO lo REG_BG3X_HI hi).bg 3).refx
        ((writeTwo s REG_BG3X_LO lo REG_BG3X_HI hi).bg 3).affine.sx lo hi ∧
     refPointOk ((writeTwo s REG_BG3X_HI hi REG_BG3X_LO lo).bg 3).refx
        ((writeTwo s REG_BG3X_HI hi REG_BG3X_LO lo).bg 3).affine.sx lo hi) ∧
    (refPointOk ((writeTwo s REG_BG3Y_LO lo REG_BG3Y_HI hi).bg 3).refy
        ((writeTwo s REG_BG3Y_LO lo REG_BG3Y_HI hi).bg 3).affine.sy lo hi ∧
     refPointOk ((writeTwo s REG_BG3Y_HI hi REG_BG3Y_LO lo).bg 3).refy
        ((writeTwo s REG_BG3Y_HI hi REG_BG3Y_LO lo).bg 3).affine.sy lo hi) := by
  refine ⟨⟨?_, ?_⟩, ⟨?_, ?_⟩, ⟨?_, ?_⟩, ⟨?_, ?_⟩⟩ <;>
  · apply refPointOk_of_eq
    · simp only [writeTwo, wvr_bg]
      simp [wvr_bg, writeSwitch, setBg, GBAVideoGLRendererWriteBGX_LO, GBAVideoGLRendererWriteBGX_HI,
        GBAVideoGLRendererWriteBGY_LO, GBAVideoGLRendererWriteBGY_HI,
        refPoint_lo_hi _ _ _ hlo hhi, refPoint_hi_lo _ _ _ hlo hhi,
        REG_DISPCNT, REG_BG0CNT, REG_BG1CNT, REG_BG2CNT, REG_BG3CNT,
        REG_BG0HOFS, REG_BG0VOFS, REG_BG1HOFS, REG_BG1VOFS, REG_BG2HOFS, REG_BG2VOFS, REG_BG3HOFS,
        REG_BG3VOFS, REG_BG2PA, REG_BG2PB, REG_BG2PC, REG_BG2PD, REG_BG2X_LO, REG_BG2X_HI,
        REG_BG2Y_LO, REG_BG2Y_HI, REG_BG3PA, REG_BG3PB, REG_BG3PC, REG_BG3PD, REG_BG3X_LO,
        REG_BG3X_HI, REG_BG3Y_LO, REG_BG3Y_HI, REG_WIN0H, REG_WIN1H, REG_WIN0V, REG_WIN1V,
        REG_WININ, REG_WINOUT, REG_MOSAIC, REG_BLDCNT, REG_BLDALPHA, REG_BLDY]
    · simp only [writeTwo, wvr_bg]
      simp [wvr_bg, writeSwitch, setBg, GBAVideoGLRendererWriteBGX_LO, GBAVideoGLRendererWriteBGX_HI,
        GBAVideoGLRendererWriteBGY_LO, GBAVideoGLRendererWriteBGY_HI,
        REG_DISPCNT, REG_BG0CNT, REG_BG1CNT, REG_BG2CNT, REG_BG3CNT,
        REG_BG0HOFS, REG_BG0VOFS, REG_BG1HOFS, REG_BG1VOFS, REG_BG2HOFS, REG_BG2VOFS, REG_BG3HOFS,
        REG_BG3VOFS, REG_BG2PA, REG_BG2PB, REG_BG2PC, REG_BG2PD, REG_BG2X_LO, REG_BG2X_HI,
        REG_BG2Y_LO, REG_BG2Y_HI, REG_BG3PA, REG_BG3PB, REG_BG3PC, REG_BG3PD, REG_BG3X_LO,
        REG_BG3X_HI, REG_BG3Y_LO, REG_BG3Y_HI, REG_WIN0H, REG_WIN1H, REG_WIN0V, REG_WIN1V,
        REG_WININ, REG_WINOUT, REG_MOSAIC, REG_BLDCNT, REG_BLDALPHA, REG_BLDY]

/-- C9 at `lo = 0x5678`, `hi = 0x0834`: bit 27 is set, so the reference point is negative. -/
theorem C9_reference_point_sign_extended_witness :
    refPointOk ((writeTwo zeroRenderer REG_BG2X_LO 0x5678 REG_BG2X_HI 0x0834).bg 2).refx
      ((writeTwo zeroRenderer REG_BG2X_LO 0x5678 REG_BG2X_HI 0x0834).bg 2).affine.sx
      0x5678 0x0834 :=
  (C9_reference_point_sign_extended zeroRenderer 0x5678 0x0834 (by decide) (by decide)).1.1


/-! ## Applying dirty registers: what the loop leaves alone -/

theorem KeepsCore.refl (s : GBAVideoGLRenderer) : KeepsCore s s :=
  ⟨rfl, rfl, rfl, rfl, rfl, rfl, rfl, rfl, rfl, rfl, rfl, rfl, fun _ => rfl, fun _ => rfl,
    fun _ => rfl, fun _ => rfl, fun _ => rfl, fun _ => rfl, fun _ => rfl, fun _ => rfl,
    fun _ => rfl⟩

theorem KeepsCore.trans {s t u : GBAVideoGLRenderer} (h1 : KeepsCore s t) (h2 : KeepsCore t u) :
    KeepsCore s u :=
  ⟨h2.shadowRegs.trans h1.shadowRegs, h2.regsDirty.trans h1.regsDirty,
    h2.paletteDirty.trans h1.paletteDirty, h2.vramDirty.trans h1.vramDirty,
    h2.oamDirty.trans h1.oamDirty, h2.firstAffine.trans h1.firstAffine,
    h2.firstY.trans h1.firstY, h2.batches.trans h1.batches, h2.uploads.trans h1.uploads,
    h2.winNHistory.trans h1.winNHistory, h2.palette.trans h1.palette,
    h2.shadowPalette.trans h1.shadowPalette,
    fun j => (h2.affine j).trans (h1.affine j), fun j => (h2.refx j).trans (h1.refx j),
    fun j => (h2.refy j).trans (h1.refy j), fun j => (h2.x j).trans (h1.x j),
    fun j => (h2.y j).trans (h1.y j),
    fun j => (h2.scanlineAffine j).trans (h1.scanlineAffine j),
    fun j => (h2.scanlineOffset j).trans (h1.scanlineOffset j),
    fun j => (h2.winH j).trans (h1.winH j), fun j => (h2.winV j).trans (h1.winV j)⟩

/-- Replacing a background by one that differs only in its control attributes. -/
theorem keepsCore_setBg (s : GBAVideoGLRenderer) (i : Fin 4) (b : GBAVideoGLBackground)
    (h1 : b.affine = (s.bg i).affine) (h2 : b.refx = (s.bg i).refx) (h3 : b.refy = (s.bg i).refy)
    (h4 : b.x = (s.bg i).x) (h5 : b.y = (s.bg i).y)
    (h6 : b.scanlineAffine = (s.bg i).scanlineAffine)
    (h7 : b.scanlineOffset = (s.bg i).scanlineOffset) : KeepsCore s (setBg s i b) := by
  refine ⟨rfl, rfl, rfl, rfl, rfl, rfl, rfl, rfl, rfl, rfl, rfl, rfl, ?_, ?_, ?_, ?_, ?_, ?_, ?_,
    fun _ => rfl, fun _ => rfl⟩ <;> intro j <;> simp only [setBg] <;> split_ifs with h <;>
    first | rfl | (subst h; assumption)

theorem keepsCore_enableBg (s : GBAVideoGLRenderer) (i : Fin 4) (act : Bool) :
    KeepsCore s (_enableBg s i act) := by
  simp only [_enableBg]
  split_ifs
  · exact keepsCore_setBg s i _ rfl rfl rfl rfl rfl rfl rfl
  · exact keepsCore_setBg s i _ rfl rfl rfl rfl rfl rfl rfl
  · exact KeepsCore.refl s

theorem keepsCore_updateDISPCNT (s : GBAVideoGLRenderer) :
    KeepsCore s (GBAVideoGLRendererUpdateDISPCNT s) := by
  simp only [GBAVideoGLRendererUpdateDISPCNT]
  exact (((keepsCore_enableBg _ _ _).trans (keepsCore_enableBg _ _ _)).trans
    (keepsCore_enableBg _ _ _)).trans (keepsCore_enableBg _ _ _)

theorem keepsCore_cleanRegister (s : GBAVideoGLRenderer) (a v : Nat) :
    KeepsCore s (_cleanRegister s a v) := by
  unfold _cleanRegister
  by_cases h0 : a = REG_DISPCNT
  · rw [if_pos h0]
    have hd : KeepsCore s { s with dispcnt := v } :=
      ⟨rfl, rfl, rfl, rfl, rfl, rfl, rfl, rfl, rfl, rfl, rfl, rfl,
        fun _ => rfl, fun _ => rfl, fun _ => rfl, fun _ => rfl, fun _ => rfl, fun _ => rfl,
        fun _ => rfl, fun _ => rfl, fun _ => rfl⟩
    exact hd.trans (keepsCore_updateDISPCNT _)
  rw [if_neg h0]
  by_cases h1 : a = REG_BG0CNT
  · rw [if_pos h1]; exact keepsCore_setBg s 0 _ rfl rfl rfl rfl rfl rfl rfl
  rw [if_neg h1]
  by_cases h2 : a = REG_BG1CNT
  · rw [if_pos h2]; exact keepsCore_setBg s 1 _ rfl rfl rfl rfl rfl rfl rfl
  rw [if_neg h2]
  by_cases h3 : a = REG_BG2CNT
  · rw [if_pos h3]; exact keepsCore_setBg s 2 _ rfl rfl rfl rfl rfl rfl rfl
  rw [if_neg h3]
  by_cases h4 : a = REG_BG3CNT
  · rw [if_pos h4]; exact keepsCore_setBg s 3 _ rfl rfl rfl rfl rfl rfl rfl
  rw [if_neg h4]
  by_cases h5 : a = REG_BLDCNT
  · rw [if_pos h5]
    exact ⟨rfl, rfl, rfl, rfl, rfl, rfl, rfl, rfl, rfl, rfl, rfl, rfl,
      fun _ => rfl, fun _ => rfl, fun _ => rfl, fun _ => rfl, fun _ => rfl, fun _ => rfl,
      fun _ => rfl, fun _ => rfl, fun _ => rfl⟩
  rw [if_neg h5]
  by_cases h6 : a = REG_BLDALPHA
  · rw [if_pos h6]
    exact ⟨rfl, rfl, rfl, rfl, rfl, rfl, rfl, rfl, rfl, rfl, rfl, rfl,
      fun _ => rfl, fun _ => rfl, fun _ => rfl, fun _ => rfl, fun _ => rfl, fun _ => rfl,
      fun _ => rfl, fun _ => rfl, fun _ => rfl⟩
  rw [if_neg h6]
  by_cases h7 : a = REG_BLDY
  · rw [if_pos h7]
    exact ⟨rfl, rfl, rfl, rfl, rfl, rfl, rfl, rfl, rfl, rfl, rfl, rfl,
      fun _ => rfl, fun _ => rfl, fun _ => rfl, fun _ => rfl, fun _ => rfl, fun _ => rfl,
      fun _ => rfl, fun _ => rfl, fun _ => rfl⟩
  rw [if_neg h7]
  by_cases h8 : a = REG_WININ
  · rw [if_pos h8]
    refine ⟨rfl, rfl, rfl, rfl, rfl, rfl, rfl, rfl, rfl, rfl, rfl, rfl,
      fun _ => rfl, fun _ => rfl, fun _ => rfl, fun _ => rfl, fun _ => rfl, fun _ => rfl,
      fun _ => rfl, ?_, ?_⟩ <;> intro j <;> simp only [setWin] <;> split_ifs with k1 k2 <;>
      first | rfl | (subst k1; rfl) | (subst k2; rfl)
  rw [if_neg h8]
  by_cases h9 : a = REG_WINOUT
  · rw [if_pos h9]
    exact ⟨rfl, rfl, rfl, rfl, rfl, rfl, rfl, rfl, rfl, rfl, rfl, rfl,
      fun _ => rfl, fun _ => rfl, fun _ => rfl, fun _ => rfl, fun _ => rfl, fun _ => rfl,
      fun _ => rfl, fun _ => rfl, fun _ => rfl⟩
  rw [if_neg h9]
  by_cases h10 : a = REG_MOSAIC
  · rw [if_pos h10]
    exact ⟨rfl, rfl, rfl, rfl, rfl, rfl, rfl, rfl, rfl, rfl, rfl, rfl,
      fun _ => rfl, fun _ => rfl, fun _ => rfl, fun _ => rfl, fun _ => rfl, fun _ => rfl,
      fun _ => rfl, fun _ => rfl, fun _ => rfl⟩
  rw [if_neg h10]
  exact KeepsCore.refl s

theorem cleanLoop_nil (s : GBAVideoGLRenderer) : cleanLoop s [] = s := rfl

theorem cleanLoop_cons (s : GBAVideoGLRenderer) (i : Nat) (l : List Nat) :
    cleanLoop s (i :: l) =
      cleanLoop (if s.regsDirty.testBit i then _cleanRegister s (i <<< 1) (s.shadowRegs i) else s) l :=
  rfl

theorem cleanLoop_append (s : GBAVideoGLRenderer) (l1 l2 : List Nat) :
    cleanLoop s (l1 ++ l2) = cleanLoop (cleanLoop s l1) l2 := by
  unfold cleanLoop
  rw [List.foldl_append]

theorem keepsCore_cleanLoop (l : List Nat) (s : GBAVideoGLRenderer) :
    KeepsCore s (cleanLoop s l) := by
  induction l generalizing s with
  | nil => exact KeepsCore.refl s
  | cons i l ih =>
    rw [cleanLoop_cons]
    refine KeepsCore.trans ?_ (ih _)
    split_ifs
    · exact keepsCore_cleanRegister _ _ _
    · exact KeepsCore.refl s

/-- A projection that no `_cleanRegister` call for a slot in `l` changes is unchanged
by the loop over `l`. -/
theorem cleanLoop_preserves {α : Type} (F : GBAVideoGLRenderer → α) (l : List Nat)
    (hF : ∀ t i v, i ∈ l → F (_cleanRegister t (i <<< 1) v) = F t) (s : GBAVideoGLRenderer) :
    F (cleanLoop s l) = F s := by
  induction l generalizing s with
  | nil => rfl
  | cons i l ih =>
    rw [cleanLoop_cons, ih (fun t j v hj => hF t j v (List.mem_cons_of_mem _ hj))]
    split_ifs
    · exact hF s i _ (List.mem_cons_self _ _)
    · rfl

/-! ## The scanline call, field by field -/

theorem drawScanline_shadowRegs (s : GBAVideoGLRenderer) (y : Nat) :
    (GBAVideoGLRendererDrawScanline s y).shadowRegs = s.shadowRegs := by
  simp only [GBAVideoGLRendererDrawScanline, advanceAffine, cleanOam, uploadVram, snapshotPalette,
    captureHistory, cleanRegisters, apply_ite GBAVideoGLRenderer.shadowRegs, ite_self]
  rw [(keepsCore_cleanLoop _ _).shadowRegs]
  simp only [openBatch, flushIfDirty, updateFirstAffine, _drawScanlines,
    apply_ite GBAVideoGLRenderer.shadowRegs, ite_self]

theorem drawScanline_regsDirty (s : GBAVideoGLRenderer) (y : Nat) :
    (GBAVideoGLRendererDrawScanline s y).regsDirty = 0 := by
  simp only [GBAVideoGLRendererDrawScanline, advanceAffine, cleanOam, uploadVram, snapshotPalette,
    captureHistory, cleanRegisters, apply_ite GBAVideoGLRenderer.regsDirty, ite_self]

theorem drawScanline_firstAffine (s : GBAVideoGLRenderer) (y : Nat) :
    (GBAVideoGLRendererDrawScanline s y).firstAffine = (updateFirstAffine s y).firstAffine := by
  simp only [GBAVideoGLRendererDrawScanline, advanceAffine, cleanOam, uploadVram, snapshotPalette,
    captureHistory, cleanRegisters, apply_ite GBAVideoGLRenderer.firstAffine, ite_self]
  rw [(keepsCore_cleanLoop _ _).firstAffine]
  simp only [openBatch, flushIfDirty, _drawScanlines,
    apply_ite GBAVideoGLRenderer.firstAffine, ite_self]

theorem drawScanline_firstY (s : GBAVideoGLRenderer) (y : Nat) :
    (GBAVideoGLRendererDrawScanline s y).firstY = (openBatch (flushIfDirty (updateFirstAffine s y) y) y).firstY := by
  simp only [GBAVideoGLRendererDrawScanline, advanceAffine, cleanOam, uploadVram, snapshotPalette,
    captureHistory, cleanRegisters, apply_ite GBAVideoGLRenderer.firstY, ite_self]
  rw [(keepsCore_cleanLoop _ _).firstY]

theorem drawScanline_firstY_nonneg (s : GBAVideoGLRenderer) (y : Nat) :
    0 ≤ (GBAVideoGLRendererDrawScanline s y).firstY := by
  rw [drawScanline_firstY]
  unfold openBatch
  split_ifs with h
  · exact Int.natCast_nonneg y
  · omega

theorem drawScanline_batches (s : GBAVideoGLRenderer) (y : Nat) :
    (GBAVideoGLRendererDrawScanline s y).batches = (flushIfDirty (updateFirstAffine s y) y).batches := by
  simp only [GBAVideoGLRendererDrawScanline, advanceAffine, cleanOam, uploadVram, snapshotPalette,
    captureHistory, cleanRegisters, apply_ite GBAVideoGLRenderer.batches, ite_self]
  rw [(keepsCore_cleanLoop _ _).batches]
  simp only [openBatch, apply_ite GBAVideoGLRenderer.batches, ite_self]

theorem drawScanline_dispcnt (s : GBAVideoGLRenderer) (y : Nat) :
    (GBAVideoGLRendererDrawScanline s y).dispcnt =
      (cleanLoop (openBatch (flushIfDirty (updateFirstAffine s y) y) y) (List.range 0x30)).dispcnt := by
  simp only [GBAVideoGLRendererDrawScanline, advanceAffine, cleanOam, uploadVram, snapshotPalette,
    captureHistory, cleanRegisters, apply_ite GBAVideoGLRenderer.dispcnt, ite_self]

theorem enableBg_dispcnt (s : GBAVideoGLRenderer) (i : Fin 4) (act : Bool) :
    (_enableBg s i act).dispcnt = s.dispcnt ∧ (_enableBg s i act).mosaic = s.mosaic := by
  simp only [_enableBg, setBg, apply_ite GBAVideoGLRenderer.dispcnt,
    apply_ite GBAVideoGLRenderer.mosaic, ite_self, and_self]

theorem updateDISPCNT_dispcnt (s : GBAVideoGLRenderer) :
    (GBAVideoGLRendererUpdateDISPCNT s).dispcnt = s.dispcnt ∧
    (GBAVideoGLRendererUpdateDISPCNT s).mosaic = s.mosaic := by
  simp only [GBAVideoGLRendererUpdateDISPCNT, enableBg_dispcnt, and_self]

theorem cleanRegister_dispcnt_self (t : GBAVideoGLRenderer) (v : Nat) :
    (_cleanRegister t (0 <<< 1) v).dispcnt = v := by
  have h : (0 <<< 1 : Nat) = REG_DISPCNT := by decide
  unfold _cleanRegister
  rw [if_pos h, (updateDISPCNT_dispcnt _).1]

theorem cleanRegister_dispcnt_other (t : GBAVideoGLRenderer) (i v : Nat) (hi : i ≠ 0) :
    (_cleanRegister t (i <<< 1) v).dispcnt = t.dispcnt := by
  have h : i <<< 1 ≠ REG_DISPCNT := by
    rw [Nat.shiftLeft_eq]; unfold REG_DISPCNT; omega
  unfold _cleanRegister
  rw [if_neg h]
  simp only [setBg, setWin, GBAVideoGLRendererWriteBLDCNT, apply_ite GBAVideoGLRenderer.dispcnt,
    ite_self]

theorem cleanRegister_mosaic_self (t : GBAVideoGLRenderer) (v : Nat) :
    (_cleanRegister t (38 <<< 1) v).mosaic = v := by
  simp [_cleanRegister, REG_DISPCNT, REG_BG0CNT, REG_BG1CNT, REG_BG2CNT, REG_BG3CNT, REG_BLDCNT,
    REG_BLDALPHA, REG_BLDY, REG_WININ, REG_WINOUT, REG_MOSAIC]

theorem cleanRegister_mosaic_other (t : GBAVideoGLRenderer) (i v : Nat) (hi : i ≠ 38) :
    (_cleanRegister t (i <<< 1) v).mosaic = t.mosaic := by
  have h : i <<< 1 ≠ REG_MOSAIC := by
    rw [Nat.shiftLeft_eq]; unfold REG_MOSAIC; omega
  unfold _cleanRegister
  by_cases h0 : i <<< 1 = REG_DISPCNT
  · rw [if_pos h0, (updateDISPCNT_dispcnt _).2]
  rw [if_neg h0]
  simp only [setBg, setWin, GBAVideoGLRendererWriteBLDCNT, apply_ite GBAVideoGLRenderer.mosaic,
    ite_self, if_neg h]

/-- The loop over `l1 ++ i0 :: l2` acts on a projection that only slot `i0` writes. -/
theorem cleanLoop_split {α : Type} (F : GBAVideoGLRenderer → α) (G : Nat → α)
    (l1 l2 : List Nat) (i0 : Nat) (h1 : i0 ∉ l1) (h2 : i0 ∉ l2)
    (hother : ∀ t i v, i ≠ i0 → F (_cleanRegister t (i <<< 1) v) = F t)
    (hself : ∀ t v, F (_cleanRegister t (i0 <<< 1) v) = G v) (s : GBAVideoGLRenderer) :
    F (cleanLoop s (l1 ++ i0 :: l2)) =
      if s.regsDirty.testBit i0 then G (s.shadowRegs i0) else F s := by
  rw [cleanLoop_append, cleanLoop_cons,
    cleanLoop_preserves F l2 (fun t i v hi => hother t i v (fun e => h2 (e ▸ hi)))]
  have k := keepsCore_cleanLoop l1 s
  rw [k.regsDirty, k.shadowRegs]
  split_ifs
  · exact hself _ _
  · exact cleanLoop_preserves F l1 (fun t i v hi => hother t i v (fun e => h1 (e ▸ hi))) s

theorem cleanLoop_dispcnt (s : GBAVideoGLRenderer) :
    (cleanLoop s (List.range 0x30)).dispcnt =
      if s.regsDirty.testBit 0 then s.shadowRegs 0 else s.dispcnt := by
  have e : List.range 0x30 = [] ++ 0 :: List.range' 1 47 := by decide
  rw [e]
  exact cleanLoop_split GBAVideoGLRenderer.dispcnt id [] (List.range' 1 47) 0 (by decide)
    (by decide) cleanRegister_dispcnt_other cleanRegister_dispcnt_self s

theorem cleanLoop_mosaic (s : GBAVideoGLRenderer) :
    (cleanLoop s (List.range 0x30)).mosaic =
      if s.regsDirty.testBit 38 then s.shadowRegs 38 else s.mosaic := by
  have e : List.range 0x30 = List.range 38 ++ 38 :: List.range' 39 9 := by decide
  rw [e]
  exact cleanLoop_split GBAVideoGLRenderer.mosaic id (List.range 38) (List.range' 39 9) 38
    (by decide) (by decide) cleanRegister_mosaic_other cleanRegister_mosaic_self s

theorem entry_fields (s : GBAVideoGLRenderer) (y : Nat) :
    (openBatch (flushIfDirty (updateFirstAffine s y) y) y).regsDirty = s.regsDirty ∧
    (openBatch (flushIfDirty (updateFirstAffine s y) y) y).shadowRegs = s.shadowRegs ∧
    (openBatch (flushIfDirty (updateFirstAffine s y) y) y).dispcnt = s.dispcnt ∧
    (openBatch (flushIfDirty (updateFirstAffine s y) y) y).mosaic = s.mosaic ∧
    (openBatch (flushIfDirty (updateFirstAffine s y) y) y).bg = s.bg := by
  simp only [openBatch, flushIfDirty, updateFirstAffine, _drawScanlines,
    apply_ite GBAVideoGLRenderer.regsDirty, apply_ite GBAVideoGLRenderer.shadowRegs,
    apply_ite GBAVideoGLRenderer.dispcnt, apply_ite GBAVideoGLRenderer.mosaic,
    apply_ite GBAVideoGLRenderer.bg, ite_self, and_self]

theorem drawScanline_dispcnt_eq (s : GBAVideoGLRenderer) (y : Nat) :
    (GBAVideoGLRendererDrawScanline s y).dispcnt =
      if s.regsDirty.testBit 0 then s.shadowRegs 0 else s.dispcnt := by
  rw [drawScanline_dispcnt, cleanLoop_dispcnt]
  obtain ⟨h1, h2, h3, _, _⟩ := entry_fields s y
  rw [h1, h2, h3]

theorem drawScanline_mosaic_eq (s : GBAVideoGLRenderer) (y : Nat) :
    (GBAVideoGLRendererDrawScanline s y).mosaic =
      if s.regsDirty.testBit 38 then s.shadowRegs 38 else s.mosaic := by
  have e : (GBAVideoGLRendererDrawScanline s y).mosaic =
      (cleanLoop (openBatch (flushIfDirty (updateFirstAffine s y) y) y) (List.range 0x30)).mosaic := by
    simp only [GBAVideoGLRendererDrawScanline, advanceAffine, cleanOam, uploadVram,
      snapshotPalette, captureHistory, cleanRegisters, apply_ite GBAVideoGLRenderer.mosaic, ite_self]
  rw [e, cleanLoop_mosaic]
  obtain ⟨h1, h2, _, h4, _⟩ := entry_fields s y
  rw [h1, h2, h4]

/-! ## The invariant of runs from reset -/

theorem writeSwitch_dispcnt (s : GBAVideoGLRenderer) (a v : Nat) :
    (writeSwitch s a v).1.dispcnt = s.dispcnt ∧ (writeSwitch s a v).1.mosaic = s.mosaic := by
  simp only [writeSwitch, apply_ite Prod.fst, apply_ite GBAVideoGLRenderer.dispcnt,
    apply_ite GBAVideoGLRenderer.mosaic, setBg, setWin, ite_self, and_self]

theorem wvr_dispcnt (s : GBAVideoGLRenderer) (a v : Nat) :
    (GBAVideoGLRendererWriteVideoRegister s a v).1.dispcnt = s.dispcnt ∧
    (GBAVideoGLRendererWriteVideoRegister s a v).1.mosaic = s.mosaic := by
  rw [wvr_eq]
  exact writeSwitch_dispcnt s a v

theorem sideTable_even (a : Nat) (h : a ∈ sideTableRegs) : (a >>> 1) <<< 1 = a := by
  simp only [sideTableRegs, List.mem_cons, List.mem_singleton, List.not_mem_nil, or_false] at h
  rw [Nat.shiftRight_eq_div_pow, Nat.shiftLeft_eq]
  simp only [REG_BG0HOFS, REG_BG0VOFS, REG_BG1HOFS, REG_BG1VOFS, REG_BG2HOFS, REG_BG2VOFS,
      REG_BG3HOFS, REG_BG3VOFS, REG_BG2PA, REG_BG2PB, REG_BG2PC, REG_BG2PD, REG_BG2X_LO,
      REG_BG2X_HI, REG_BG2Y_LO, REG_BG2Y_HI, REG_BG3PA, REG_BG3PB, REG_BG3PC, REG_BG3PD,
      REG_BG3X_LO, REG_BG3X_HI, REG_BG3Y_LO, REG_BG3Y_HI, REG_WIN0H, REG_WIN1H, REG_WIN0V,
      REG_WIN1V] at h
  omega

/-- After a write, a dirty-candidate slot whose bit is clear had its bit clear before
and holds the shadow value it held before. -/
theorem wvr_clean_slot (s : GBAVideoGLRenderer) (a v i : Nat) (ha : a < 0x60)
    (hcand : dirtyCandidate (i <<< 1))
    (hclean : (GBAVideoGLRendererWriteVideoRegister s a v).1.regsDirty.testBit i = false) :
    s.regsDirty.testBit i = false ∧
    (GBAVideoGLRendererWriteVideoRegister s a v).1.shadowRegs i = s.shadowRegs i := by
  rw [wvr_regsDirty, writeSwitch_dirty s a v ha] at hclean
  rw [wvr_shadowRegs]
  by_cases hi : i = a >>> 1
  · by_cases hsame : s.shadowRegs (a >>> 1) = (writeSwitch s a v).2.1
    · have hc : ¬ (decide (dirtyCandidate a) = true ∧
          s.shadowRegs (a >>> 1) ≠ (writeSwitch s a v).2.1) := fun h => h.2 hsame
      rw [if_neg hc] at hclean
      refine ⟨hclean, ?_⟩
      rw [hi, ← hsame]
      simp [setAt]
    · by_cases hd : dirtyCandidate a
      · have hc : decide (dirtyCandidate a) = true ∧
            s.shadowRegs (a >>> 1) ≠ (writeSwitch s a v).2.1 := ⟨by simpa using hd, hsame⟩
        rw [if_pos hc, testBit_or_bit, hi] at hclean
        simp at hclean
      · exfalso
        have hm : a ∈ sideTableRegs := by
          unfold dirtyCandidate at hd
          exact not_not.mp hd
        have he := sideTable_even a hm
        rw [hi, he] at hcand
        exact hcand hm
  · have hne : ¬ (a >>> 1 = i) := fun e => hi e.symm
    constructor
    · split_ifs at hclean
      · rw [testBit_or_bit] at hclean
        simpa [hne] using hclean
      · exact hclean
    · simp [setAt, hi]

theorem wvr_bit_mono (s : GBAVideoGLRenderer) (a v i : Nat)
    (hclean : (GBAVideoGLRendererWriteVideoRegister s a v).1.regsDirty.testBit i = false) :
    s.regsDirty.testBit i = false := by
  rw [wvr_regsDirty] at hclean
  split_ifs at hclean
  · rw [Nat.testBit_or] at hclean
    simp at hclean
    exact hclean.1
  · exact hclean

theorem not_sideTable_zero : dirtyCandidate (0 <<< 1) := by decide

theorem traceInv_write (s : GBAVideoGLRenderer) (ap : Nat → Option Nat) (a v : Nat)
    (ha : a < 0x60) (h : TraceInv s ap) :
    TraceInv (GBAVideoGLRendererWriteVideoRegister s a v).1 ap := by
  refine ⟨?_, ?_, ?_, ?_, ?_⟩
  · intro i hi hcand hclean x hx
    obtain ⟨h1, h2⟩ := wvr_clean_slot s a v i ha hcand hclean
    rw [h2]
    exact h.clean i hi hcand h1 x hx
  · intro i h1 hi hclean
    exact h.applied i h1 hi (wvr_bit_mono s a v i hclean)
  · intro x hx
    rw [(wvr_dispcnt s a v).1]
    exact h.dispcnt x hx
  · intro x hx
    rw [(wvr_dispcnt s a v).2]
    exact h.mosaic x hx
  · intro hn
    rw [(wvr_dispcnt s a v).1]
    refine ⟨(h.fresh hn).1, ?_⟩
    intro hclean
    obtain ⟨h1, h2⟩ := wvr_clean_slot s a v 0 ha not_sideTable_zero hclean
    rw [h2]
    exact (h.fresh hn).2 h1

theorem traceInv_draw (s : GBAVideoGLRenderer) (ap : Nat → Option Nat) (y : Nat)
    (h : TraceInv s ap) :
    TraceInv (GBAVideoGLRendererDrawScanline s y) (appliedStep s ap (Op.draw y)) := by
  refine ⟨?_, ?_, ?_, ?_, ?_⟩
  · intro i hi hcand _ x hx
    rw [drawScanline_shadowRegs]
    simp only [appliedStep] at hx
    split_ifs at hx with hb
    · exact Option.some.inj hx
    · have hb2 : s.regsDirty.testBit i = false := by
        cases hq : s.regsDirty.testBit i
        · rfl
        · exact absurd ⟨hi, hq⟩ hb
      exact h.clean i hi hcand hb2 x hx
  · intro i h1 hi _
    simp only [appliedStep]
    split_ifs with hb
    · simp
    · have hb2 : s.regsDirty.testBit i = false := by
        cases hq : s.regsDirty.testBit i
        · rfl
        · exact absurd ⟨hi, hq⟩ hb
      exact h.applied i h1 hi hb2
  · intro x hx
    rw [drawScanline_dispcnt_eq]
    simp only [appliedStep] at hx
    cases hq : s.regsDirty.testBit 0
    · simp [hq] at hx
      simpa using h.dispcnt x hx
    · simp [hq] at hx
      simpa using hx
  · intro x hx
    rw [drawScanline_mosaic_eq]
    simp only [appliedStep] at hx
    cases hq : s.regsDirty.testBit 38
    · simp [hq] at hx
      simpa using h.mosaic x hx
    · simp [hq] at hx
      simpa using hx
  · intro hn
    simp only [appliedStep] at hn
    cases hq : s.regsDirty.testBit 0
    · simp [hq] at hn
      rw [drawScanline_dispcnt_eq, drawScanline_shadowRegs]
      simp only [hq]
      exact ⟨(h.fresh hn).1, fun _ => (h.fresh hn).2 hq⟩
    · simp [hq] at hn

theorem finishFrame_fields (s : GBAVideoGLRenderer) :
    (GBAVideoGLRendererFinishFrame s).shadowRegs = s.shadowRegs ∧
    (GBAVideoGLRendererFinishFrame s).regsDirty = s.regsDirty ∧
    (GBAVideoGLRendererFinishFrame s).dispcnt = s.dispcnt ∧
    (GBAVideoGLRendererFinishFrame s).mosaic = s.mosaic :=
  ⟨rfl, rfl, rfl, rfl⟩

theorem traceInv_finish (s : GBAVideoGLRenderer) (ap : Nat → Option Nat) (h : TraceInv s ap) :
    TraceInv (GBAVideoGLRendererFinishFrame s) ap :=
  ⟨h.clean, h.applied, h.dispcnt, h.mosaic, h.fresh⟩

theorem reset_bits (i : Nat) (h1 : 1 ≤ i) (hi : i < 0x30) :
    (0xFFFFFFFFFFFE : Nat).testBit i = true := by
  interval_cases i <;> decide

theorem traceInv_reset (s0 : GBAVideoGLRenderer) :
    TraceInv (GBAVideoGLRendererReset s0) (fun _ => none) := by
  refine ⟨?_, ?_, ?_, ?_, ?_⟩
  · intro i _ _ _ x hx
    simp at hx
  · intro i h1 hi hclean
    have := reset_bits i h1 hi
    simp only [GBAVideoGLRendererReset] at hclean
    rw [this] at hclean
    simp at hclean
  · intro x hx; simp at hx
  · intro x hx; simp at hx
  · intro _
    exact ⟨rfl, fun _ => rfl⟩

theorem traceInv_foldl (ops : List Op) (hwf : ∀ op ∈ ops, op.wellFormed)
    (s : GBAVideoGLRenderer) (ap : Nat → Option Nat) (h : TraceInv s ap) :
    TraceInv (ops.foldl (fun sa op => (step sa.1 op, appliedStep sa.1 sa.2 op)) (s, ap)).1
      (ops.foldl (fun sa op => (step sa.1 op, appliedStep sa.1 sa.2 op)) (s, ap)).2 := by
  induction ops generalizing s ap with
  | nil => exact h
  | cons op ops ih =>
    rw [List.foldl_cons]
    apply ih (fun o ho => hwf o (List.mem_cons_of_mem _ ho))
    have hop := hwf op (List.mem_cons_self _ _)
    cases op with
    | write a v => exact traceInv_write s ap a v hop.1 h
    | draw y => exact traceInv_draw s ap y h
    | finish => exact traceInv_finish s ap h

theorem runApplied_fst_foldl (ops : List Op) (s : GBAVideoGLRenderer) (ap : Nat → Option Nat) :
    (ops.foldl (fun sa op => (step sa.1 op, appliedStep sa.1 sa.2 op)) (s, ap)).1 =
      ops.foldl step s := by
  induction ops generalizing s ap with
  | nil => rfl
  | cons op ops ih => rw [List.foldl_cons, List.foldl_cons, ih]

theorem runApplied_fst (s0 : GBAVideoGLRenderer) (ops : List Op) :
    (runApplied s0 ops).1 = run s0 ops :=
  runApplied_fst_foldl ops _ _

theorem traceInv_run (s0 : GBAVideoGLRenderer) (ops : List Op)
    (hwf : ∀ op ∈ ops, op.wellFormed) :
    TraceInv (run s0 ops) (lastApplied s0 ops) := by
  have h := traceInv_foldl ops hwf _ _ (traceInv_reset s0)
  rw [runApplied_fst_foldl] at h
  exact h

/-! ## C5 -/

/-- C5 as stated fails: after reset, scanline 0, MOSAIC = 1 and MOSAIC = 0, bit `0x26`
of `regsDirty` is set although the shadow equals the value last passed to
`_cleanRegister` (which is also the content of the derived `mosaic` field). -/
theorem C5_counterexample :
    ¬ ((run zeroRenderer [Op.draw 0, Op.write REG_MOSAIC 1, Op.write REG_MOSAIC 0]).regsDirty.testBit
          (REG_MOSAIC >>> 1) = true ↔
        lastApplied zeroRenderer [Op.draw 0, Op.write REG_MOSAIC 1, Op.write REG_MOSAIC 0]
            (REG_MOSAIC >>> 1) ≠
          some ((run zeroRenderer [Op.draw 0, Op.write REG_MOSAIC 1,
            Op.write REG_MOSAIC 0]).shadowRegs (REG_MOSAIC >>> 1))) := by
  have h1 : (run zeroRenderer [Op.draw 0, Op.write REG_MOSAIC 1,
      Op.write REG_MOSAIC 0]).regsDirty.testBit (REG_MOSAIC >>> 1) = true := by decide
  have h2 : lastApplied zeroRenderer [Op.draw 0, Op.write REG_MOSAIC 1, Op.write REG_MOSAIC 0]
      (REG_MOSAIC >>> 1) =
      some ((run zeroRenderer [Op.draw 0, Op.write REG_MOSAIC 1,
        Op.write REG_MOSAIC 0]).shadowRegs (REG_MOSAIC >>> 1)) := by decide
  intro h
  exact (h.mp h1) h2

/-- C5 (amended): in every state reached from reset by well-formed calls, for every
dirty-candidate slot `i < 0x30` whose bit of `regsDirty` is clear: if the slot has been
applied since reset, the shadow equals the value last passed to `_cleanRegister`; for
`i >= 1` the slot has been applied. The record of applied values agrees with the derived
state: `dispcnt` and `mosaic` hold the values last applied to their slots. -/
theorem C5_clean_bit_shadow_is_applied (s0 : GBAVideoGLRenderer) (ops : List Op)
    (hwf : ∀ op ∈ ops, op.wellFormed) (i : Nat) (hi : i < 0x30)
    (hcand : dirtyCandidate (i <<< 1))
    (hclean : (run s0 ops).regsDirty.testBit i = false) :
    (∀ a, lastApplied s0 ops i = some a → (run s0 ops).shadowRegs i = a) ∧
    (1 ≤ i → lastApplied s0 ops i = some ((run s0 ops).shadowRegs i)) ∧
    (∀ a, lastApplied s0 ops 0 = some a → (run s0 ops).dispcnt = a) ∧
    (∀ a, lastApplied s0 ops (REG_MOSAIC >>> 1) = some a → (run s0 ops).mosaic = a) := by
  have h := traceInv_run s0 ops hwf
  refine ⟨h.clean i hi hcand hclean, ?_, h.dispcnt, h.mosaic⟩
  intro h1
  have hn := h.applied i h1 hi hclean
  cases hq : lastApplied s0 ops i with
  | none => exact absurd hq hn
  | some a => rw [h.clean i hi hcand hclean a hq]

/-- C5 (amended) after reset, scanline 0 and a write BLDY = 9: the MOSAIC slot is clean
and its shadow is the value applied at scanline 0. -/
theorem C5_clean_bit_shadow_is_applied_witness :
    (∀ a, lastApplied zeroRenderer [Op.draw 0, Op.write REG_BLDY 9] (REG_MOSAIC >>> 1) = some a →
      (run zeroRenderer [Op.draw 0, Op.write REG_BLDY 9]).shadowRegs (REG_MOSAIC >>> 1) = a) ∧
    (1 ≤ REG_MOSAIC >>> 1 →
      lastApplied zeroRenderer [Op.draw 0, Op.write REG_BLDY 9] (REG_MOSAIC >>> 1) =
        some ((run zeroRenderer [Op.draw 0, Op.write REG_BLDY 9]).shadowRegs (REG_MOSAIC >>> 1))) ∧
    (∀ a, lastApplied zeroRenderer [Op.draw 0, Op.write REG_BLDY 9] 0 = some a →
      (run zeroRenderer [Op.draw 0, Op.write REG_BLDY 9]).dispcnt = a) ∧
    (∀ a, lastApplied zeroRenderer [Op.draw 0, Op.write REG_BLDY 9] (REG_MOSAIC >>> 1) = some a →
      (run zeroRenderer [Op.draw 0, Op.write REG_BLDY 9]).mosaic = a) :=
  C5_clean_bit_shadow_is_applied zeroRenderer [Op.draw 0, Op.write REG_BLDY 9]
    (by decide) (REG_MOSAIC >>> 1) (by decide) (by decide) (by decide)

/-! ## C6 -/

/-- Away from the untouched reset state the latest DISPCNT write is the one in effect:
in every state reached from reset by well-formed calls, if DISPCNT has been applied
since reset or the masked value is non-zero, then after the write and a scanline call
`dispcnt` is the masked value. -/
theorem dispcnt_after_write_draw (s0 : GBAVideoGLRenderer) (ops : List Op)
    (hwf : ∀ op ∈ ops, op.wellFormed) (v y : Nat)
    (h : lastApplied s0 ops 0 ≠ none ∨ v &&& 0xFFF7 ≠ 0) :
    (GBAVideoGLRendererDrawScanline
      (GBAVideoGLRendererWriteVideoRegister (run s0 ops) REG_DISPCNT v).1 y).dispcnt =
      v &&& 0xFFF7 := by
  have inv := traceInv_run s0 ops hwf
  have hm : (writeSwitch (run s0 ops) REG_DISPCNT v).2.1 = v &&& 0xFFF7 := by
    simp [writeSwitch]
  have hsh : (GBAVideoGLRendererWriteVideoRegister (run s0 ops) REG_DISPCNT v).1.shadowRegs 0 =
      v &&& 0xFFF7 := by
    rw [wvr_shadowRegs, hm]
    simp [setAt, REG_DISPCNT]
  rw [drawScanline_dispcnt_eq, hsh]
  cases hb : (GBAVideoGLRendererWriteVideoRegister (run s0 ops) REG_DISPCNT v).1.regsDirty.testBit 0
  · obtain ⟨h1, h2⟩ := wvr_clean_slot (run s0 ops) REG_DISPCNT v 0 (by decide)
      not_sideTable_zero hb
    rw [hsh] at h2
    simp only [Bool.false_eq_true, if_false]
    rw [(wvr_dispcnt _ _ _).1]
    cases hq : lastApplied s0 ops 0 with
    | none =>
      have h0 := (inv.fresh hq).2 h1
      rcases h with h | h
      · exact absurd hq h
      · rw [h2, h0] at h
        exact absurd rfl h
    | some a =>
      rw [inv.dispcnt a hq, h2]
      exact (inv.clean 0 (by decide) not_sideTable_zero h1 a hq).symm
  · simp

/-- C6 fails on the code right after reset: the write DISPCNT = 0 finds the zeroed
shadow equal to the masked value, sets no dirty bit, and the following scanline call
leaves `dispcnt` at the reset value `0x0080` instead of `0 & 0xFFF7 = 0`. -/
theorem C6_write_zero_after_reset_not_applied :
    (step (step (run zeroRenderer []) (Op.write REG_DISPCNT 0)) (Op.draw 0)).dispcnt = 0x0080 ∧
    (0 &&& 0xFFF7 : Nat) ≠ 0x0080 := by
  constructor
  · decide
  · decide

theorem writeSwitch_cursor (s : GBAVideoGLRenderer) (a v : Nat) :
    (writeSwitch s a v).1.firstY = s.firstY ∧ (writeSwitch s a v).1.batches = s.batches := by
  simp only [writeSwitch, apply_ite Prod.fst, apply_ite GBAVideoGLRenderer.firstY,
    apply_ite GBAVideoGLRenderer.batches, setBg, setWin, ite_self, and_self]

theorem wvr_cursor (s : GBAVideoGLRenderer) (a v : Nat) :
    (GBAVideoGLRendererWriteVideoRegister s a v).1.firstY = s.firstY ∧
    (GBAVideoGLRendererWriteVideoRegister s a v).1.batches = s.batches := by
  rw [wvr_eq]
  exact writeSwitch_cursor s a v

theorem writeRegs_cons (s : GBAVideoGLRenderer) (w : Nat × Nat) (ws : List (Nat × Nat)) :
    writeRegs s (w :: ws) = writeRegs (GBAVideoGLRendererWriteVideoRegister s w.1 w.2).1 ws := rfl

theorem writeRegs_firstY (ws : List (Nat × Nat)) (s : GBAVideoGLRenderer) :
    (writeRegs s ws).firstY = s.firstY := by
  induction ws generalizing s with
  | nil => rfl
  | cons w ws ih => rw [writeRegs_cons, ih, (wvr_cursor s w.1 w.2).1]

/-- A DISPCNT write leaves everything but the shadow table and the dirty bitmap alone. -/
theorem wvr_dispcnt_state (s : GBAVideoGLRenderer) (v : Nat) :
    (GBAVideoGLRendererWriteVideoRegister s REG_DISPCNT v).1 =
      { s with
        shadowRegs := setAt s.shadowRegs 0 (v &&& 0xFFF7)
        regsDirty := if s.shadowRegs 0 ≠ v &&& 0xFFF7 then s.regsDirty ||| (1 <<< 0)
          else s.regsDirty } := by
  rw [wvr_eq]
  simp [writeSwitch, REG_DISPCNT]

theorem mask_ne_of_bit8 (v x : Nat) (h : v.testBit 8 ≠ x.testBit 8) : x ≠ v &&& 0xFFF7 := by
  intro e
  apply h
  rw [e, Nat.testBit_and]
  have : (0xFFF7 : Nat).testBit 8 = true := by decide
  rw [this, Bool.and_true]

theorem or_one_ne_zero (n : Nat) : n ||| (1 <<< 0) ≠ 0 := by
  intro e
  have h : (n ||| (1 <<< 0)).testBit 0 = true := by
    rw [testBit_or_bit]; simp
  rw [e] at h
  simp at h

theorem flushIfDirty_batches_of_dirty (t : GBAVideoGLRenderer) (y : Nat)
    (hd : t.regsDirty ≠ 0) (hfy : 0 ≤ t.firstY) :
    (flushIfDirty t y).batches = t.batches ++ [snapshot t ((y : Int) - 1)] := by
  unfold flushIfDirty
  rw [if_pos (Or.inr (Or.inr (Or.inr hd))), if_pos hfy]
  rfl

theorem updateFirstAffine_fields (s : GBAVideoGLRenderer) (y : Nat) :
    (updateFirstAffine s y).regsDirty = s.regsDirty ∧
    (updateFirstAffine s y).firstY = s.firstY ∧
    (updateFirstAffine s y).batches = s.batches := by
  simp only [updateFirstAffine, apply_ite GBAVideoGLRenderer.regsDirty,
    apply_ite GBAVideoGLRenderer.firstY, apply_ite GBAVideoGLRenderer.batches, ite_self, and_self]

/-- The snapshot taken at the head of a scanline call does not see the shadow table or
the dirty bitmap. -/
theorem snapshot_updateFirstAffine (s : GBAVideoGLRenderer) (f : Nat → Nat) (d : Nat) (y : Nat)
    (l : Int) :
    snapshot (updateFirstAffine { s with shadowRegs := f, regsDirty := d } y) l =
      { snapshot s l with firstAffine := (updateFirstAffine s y).firstAffine } := by
  unfold updateFirstAffine
  by_cases hm : GBARegisterDISPCNTGetMode s.dispcnt ≠ 0
  · by_cases hfa : s.firstAffine < 0
    · simp only [hm, hfa, if_true, ne_eq, not_false_eq_true]; rfl
    · simp only [hm, hfa, if_true, if_false, ne_eq, not_false_eq_true]; rfl
  · simp only [hm, if_false]; rfl

/-! ## C7 -/

/-- C7: for every `k` in `1..159`, once scanline `k-1` has been drawn (and any further
register writes have arrived), a DISPCNT write that changes the background-0 enable bit
makes `drawScanline(k)` flush exactly one batch, with last row `k-1`, whose recorded
renderer inputs (dispcnt, background latches and attributes, blend state, histories) are
those of the state in which the write never occurred; only then is the new DISPCNT value
applied. The `firstAffine` recorded is the one the unwritten run has after its own
scanline-`k` call. -/
theorem C7_flush_precedes_dispcnt_change (s0 : GBAVideoGLRenderer) (k : Nat)
    (ws : List (Nat × Nat)) (v : Nat) (hk1 : 1 ≤ k) (hk2 : k ≤ 159)
    (hbit : v.testBit 8 ≠ ((afterScanline s0 (k - 1) ws).shadowRegs 0).testBit 8) :
    (GBAVideoGLRendererDrawScanline
        (GBAVideoGLRendererWriteVideoRegister (afterScanline s0 (k - 1) ws) REG_DISPCNT v).1
        k).batches =
      (afterScanline s0 (k - 1) ws).batches ++
        [{ snapshot (afterScanline s0 (k - 1) ws) ((k : Int) - 1) with
            firstAffine :=
              (GBAVideoGLRendererDrawScanline (afterScanline s0 (k - 1) ws) k).firstAffine }] ∧
    (GBAVideoGLRendererDrawScanline
        (GBAVideoGLRendererWriteVideoRegister (afterScanline s0 (k - 1) ws) REG_DISPCNT v).1
        k).dispcnt = v &&& 0xFFF7 := by
  have _ := hk1
  have _ := hk2
  have hfy : 0 ≤ (afterScanline s0 (k - 1) ws).firstY := by
    unfold afterScanline
    rw [writeRegs_firstY]
    exact drawScanline_firstY_nonneg s0 (k - 1)
  have hne := mask_ne_of_bit8 v _ hbit
  generalize afterScanline s0 (k - 1) ws = s at hfy hne ⊢
  constructor
  · rw [drawScanline_batches, drawScanline_firstAffine, wvr_dispcnt_state, if_pos hne]
    obtain ⟨h1, h2, h3⟩ := updateFirstAffine_fields
      { s with shadowRegs := setAt s.shadowRegs 0 (v &&& 0xFFF7),
               regsDirty := s.regsDirty ||| (1 <<< 0) } k
    rw [flushIfDirty_batches_of_dirty _ k (by rw [h1]; exact or_one_ne_zero s.regsDirty)
      (by rw [h2]; exact hfy), h3, snapshot_updateFirstAffine]
  · rw [drawScanline_dispcnt_eq, wvr_dispcnt_state, if_pos hne]
    have hb : (s.regsDirty ||| (1 <<< 0)).testBit 0 = true := by
      rw [testBit_or_bit]; simp
    simp only [hb, if_true]
    simp [setAt]

/-- C7 after reset and scanline 0: DISPCNT = 0x0100 turns background 0 on before
scanline 1; row 0 is flushed with the inputs of the unwritten state, then `dispcnt`
becomes 0x0100. -/
theorem C7_flush_precedes_dispcnt_change_witness :
    (GBAVideoGLRendererDrawScanline
        (GBAVideoGLRendererWriteVideoRegister
          (afterScanline (GBAVideoGLRendererReset zeroRenderer) (1 - 1) []) REG_DISPCNT 0x0100).1
        1).batches =
      (afterScanline (GBAVideoGLRendererReset zeroRenderer) (1 - 1) []).batches ++
        [{ snapshot (afterScanline (GBAVideoGLRendererReset zeroRenderer) (1 - 1) [])
              (((1 : Nat) : Int) - 1) with
            firstAffine :=
              (GBAVideoGLRendererDrawScanline
                (afterScanline (GBAVideoGLRendererReset zeroRenderer) (1 - 1) []) 1).firstAffine }] ∧
    (GBAVideoGLRendererDrawScanline
        (GBAVideoGLRendererWriteVideoRegister
          (afterScanline (GBAVideoGLRendererReset zeroRenderer) (1 - 1) []) REG_DISPCNT 0x0100).1
        1).dispcnt = 0x0100 &&& 0xFFF7 :=
  C7_flush_precedes_dispcnt_change (GBAVideoGLRendererReset zeroRenderer) 1 [] 0x0100
    (by decide) (by decide) (by decide)

/-! ## Affine accumulation across a frame -/

theorem wvr_advanceOf (s : GBAVideoGLRenderer) (a v : Nat) (b : Fin 4) (hb : b = 2 ∨ b = 3)
    (ha : a < 0x60) (hn : a ∉ affineAdvanceRegs b) :
    advanceOf (GBAVideoGLRendererWriteVideoRegister s a v).1 b = advanceOf s b := by
  unfold advanceOf
  rw [wvr_bg]
  rcases hb with rfl | rfl <;> interval_cases a <;>
    first
    | (exfalso; revert hn; decide)
    | simp [writeSwitch, setBg, setWin,
      REG_DISPCNT, REG_BG0CNT, REG_BG1CNT, REG_BG2CNT, REG_BG3CNT,
      REG_BG0HOFS, REG_BG0VOFS, REG_BG1HOFS, REG_BG1VOFS, REG_BG2HOFS, REG_BG2VOFS, REG_BG3HOFS,
      REG_BG3VOFS, REG_BG2PA, REG_BG2PB, REG_BG2PC, REG_BG2PD, REG_BG2X_LO, REG_BG2X_HI,
      REG_BG2Y_LO, REG_BG2Y_HI, REG_BG3PA, REG_BG3PB, REG_BG3PC, REG_BG3PD, REG_BG3X_LO,
      REG_BG3X_HI, REG_BG3Y_LO, REG_BG3Y_HI, REG_WIN0H, REG_WIN1H, REG_WIN0V, REG_WIN1V,
      REG_WININ, REG_WINOUT, REG_MOSAIC, REG_BLDCNT, REG_BLDALPHA, REG_BLDY]

theorem post_fields (h : GBAVideoGLRenderer) (y : Nat) :
    (cleanOam (uploadVram (snapshotPalette h) y)).bg = h.bg ∧
    (cleanOam (uploadVram (snapshotPalette h) y)).dispcnt = h.dispcnt := by
  simp only [cleanOam, uploadVram, snapshotPalette, apply_ite GBAVideoGLRenderer.bg,
    apply_ite GBAVideoGLRenderer.dispcnt, ite_self, and_self]

theorem captureHistory_affine (c : GBAVideoGLRenderer) (y : Nat) (b : Fin 4)
    (hb : b = 2 ∨ b = 3) :
    ((captureHistory c y).bg b).affine = (c.bg b).affine ∧
    ((captureHistory c y).bg b).scanlineAffine (y * 4 + 2) = (c.bg b).affine.sx ∧
    ((captureHistory c y).bg b).scanlineAffine (y * 4 + 3) = (c.bg b).affine.sy ∧
    (captureHistory c y).dispcnt = c.dispcnt := by
  rcases hb with rfl | rfl <;> simp [captureHistory, setAt]

theorem advanceAffine_affine (u : GBAVideoGLRenderer) (b : Fin 4) (hb : b = 2 ∨ b = 3) :
    ((advanceAffine u).bg b).affine.dmx = (u.bg b).affine.dmx ∧
    ((advanceAffine u).bg b).affine.dmy = (u.bg b).affine.dmy ∧
    ((advanceAffine u).bg b).affine.sx =
      (if GBARegisterDISPCNTGetMode u.dispcnt ≠ 0
        then wrap32 ((u.bg b).affine.sx + (u.bg b).affine.dmx) else (u.bg b).affine.sx) ∧
    ((advanceAffine u).bg b).affine.sy =
      (if GBARegisterDISPCNTGetMode u.dispcnt ≠ 0
        then wrap32 ((u.bg b).affine.sy + (u.bg b).affine.dmy) else (u.bg b).affine.sy) ∧
    ((advanceAffine u).bg b).scanlineAffine = (u.bg b).scanlineAffine ∧
    (advanceAffine u).dispcnt = u.dispcnt := by
  unfold advanceAffine
  by_cases hm : GBARegisterDISPCNTGetMode u.dispcnt ≠ 0
  · rcases hb with rfl | rfl <;> simp [hm]
  · simp [hm]

/-- What one scanline call does to the affine record of background 2 or 3: the row
captures the accumulator as it stood on entry, then the accumulator advances by
`(dmx, dmy)` when the mode in effect is non-zero. -/
theorem drawScanline_affine (s : GBAVideoGLRenderer) (y : Nat) (b : Fin 4)
    (hb : b = 2 ∨ b = 3) :
    ((GBAVideoGLRendererDrawScanline s y).bg b).scanlineAffine (y * 4 + 2) = (s.bg b).affine.sx ∧
    ((GBAVideoGLRendererDrawScanline s y).bg b).scanlineAffine (y * 4 + 3) = (s.bg b).affine.sy ∧
    ((GBAVideoGLRendererDrawScanline s y).bg b).affine.dmx = (s.bg b).affine.dmx ∧
    ((GBAVideoGLRendererDrawScanline s y).bg b).affine.dmy = (s.bg b).affine.dmy ∧
    ((GBAVideoGLRendererDrawScanline s y).bg b).affine.sx =
      (if GBARegisterDISPCNTGetMode (GBAVideoGLRendererDrawScanline s y).dispcnt ≠ 0
        then wrap32 ((s.bg b).affine.sx + (s.bg b).affine.dmx) else (s.bg b).affine.sx) ∧
    ((GBAVideoGLRendererDrawScanline s y).bg b).affine.sy =
      (if GBARegisterDISPCNTGetMode (GBAVideoGLRendererDrawScanline s y).dispcnt ≠ 0
        then wrap32 ((s.bg b).affine.sy + (s.bg b).affine.dmy) else (s.bg b).affine.sy) := by
  have hE := (entry_fields s y).2.2.2.2
  have hK := keepsCore_cleanLoop (List.range 0x30)
    (openBatch (flushIfDirty (updateFirstAffine s y) y) y)
  have hC : ((cleanRegisters (openBatch (flushIfDirty (updateFirstAffine s y) y) y)).bg b).affine =
      (s.bg b).affine := by
    show ((cleanLoop _ _).bg b).affine = _
    rw [hK.affine b, hE]
  obtain ⟨c1, c2, c3, c4⟩ := captureHistory_affine
    (cleanRegisters (openBatch (flushIfDirty (updateFirstAffine s y) y) y)) y b hb
  obtain ⟨p1, p2⟩ := post_fields
    (captureHistory (cleanRegisters (openBatch (flushIfDirty (updateFirstAffine s y) y) y)) y) y
  obtain ⟨a1, a2, a3, a4, a5, a6⟩ := advanceAffine_affine
    (cleanOam (uploadVram (snapshotPalette
      (captureHistory (cleanRegisters (openBatch (flushIfDirty (updateFirstAffine s y) y) y)) y)) y))
    b hb
  have hd : (GBAVideoGLRendererDrawScanline s y).dispcnt =
      (cleanOam (uploadVram (snapshotPalette
      (captureHistory (cleanRegisters (openBatch (flushIfDirty (updateFirstAffine s y) y) y)) y))
        y)).dispcnt := a6
  rw [hd]
  simp only [GBAVideoGLRendererDrawScanline]
  rw [a1, a2, a3, a4, a5, p1, c1, c2, c3, hC]
  exact ⟨rfl, rfl, rfl, rfl, rfl, rfl⟩

theorem writeRegs_advanceOf (ws : List (Nat × Nat)) (s : GBAVideoGLRenderer) (b : Fin 4)
    (hb : b = 2 ∨ b = 3) (hws : ∀ w ∈ ws, w.1 < 0x60 ∧ w.1 ∉ affineAdvanceRegs b) :
    advanceOf (writeRegs s ws) b = advanceOf s b := by
  induction ws generalizing s with
  | nil => rfl
  | cons w ws ih =>
    have hw := hws w (List.mem_cons_self _ _)
    show advanceOf (writeRegs (GBAVideoGLRendererWriteVideoRegister s w.1 w.2).1 ws) b = _
    rw [ih _ (fun x hx => hws x (List.mem_cons_of_mem _ hx)),
      wvr_advanceOf s w.1 w.2 b hb hw.1 hw.2]

theorem wrap32_add_wrap32 (a d : Int) : wrap32 (wrap32 a + d) = wrap32 (a + d) := by
  unfold wrap32 toS32 toU32
  split_ifs <;> omega

theorem wrap32_of_int32 (a : Int) (h1 : -2147483648 ≤ a) (h2 : a < 2147483648) :
    wrap32 a = a := by
  unfold wrap32 toS32 toU32
  split_ifs <;> omega

theorem frame_affine (s : GBAVideoGLRenderer) (ws : Nat → List (Nat × Nat)) (b : Fin 4)
    (hb : b = 2 ∨ b = 3) (dX dY : Int) (n : Nat)
    (hrx : -2147483648 ≤ (s.bg b).affine.sx ∧ (s.bg b).affine.sx < 2147483648)
    (hry : -2147483648 ≤ (s.bg b).affine.sy ∧ (s.bg b).affine.sy < 2147483648)
    (hws : ∀ i, i ≤ n → ∀ w ∈ ws i, w.1 < 0x60 ∧ w.1 ∉ affineAdvanceRegs b)
    (hstep : ∀ i, i < n → stepIs s b dX dY (frameUpTo s ws i)) :
    ((frameUpTo s ws n).bg b).scanlineAffine (n * 4 + 2) = wrap32 ((s.bg b).affine.sx + n * dX) ∧
    ((frameUpTo s ws n).bg b).scanlineAffine (n * 4 + 3) = wrap32 ((s.bg b).affine.sy + n * dY) ∧
    ((frameUpTo s ws n).bg b).affine.dmx = (s.bg b).affine.dmx ∧
    ((frameUpTo s ws n).bg b).affine.dmy = (s.bg b).affine.dmy ∧
    (stepIs s b dX dY (frameUpTo s ws n) →
      ((frameUpTo s ws n).bg b).affine.sx = wrap32 ((s.bg b).affine.sx + (n + 1) * dX) ∧
      ((frameUpTo s ws n).bg b).affine.sy = wrap32 ((s.bg b).affine.sy + (n + 1) * dY)) := by
  induction n with
  | zero =>
    have hw := writeRegs_advanceOf (ws 0) s b hb (hws 0 (Nat.le_refl 0))
    simp only [advanceOf, Prod.mk.injEq] at hw
    obtain ⟨w1, w2, w3, w4⟩ := hw
    obtain ⟨d1, d2, d3, d4, d5, d6⟩ := drawScanline_affine (writeRegs s (ws 0)) 0 b hb
    rw [w1] at d1 d5
    rw [w2] at d2 d6
    rw [w3] at d3 d5
    rw [w4] at d4 d6
    have e0 : ((0 : Nat) : Int) * dX = 0 := by simp
    have e0' : ((0 : Nat) : Int) * dY = 0 := by simp
    refine ⟨?_, ?_, d3, d4, ?_⟩
    · show ((GBAVideoGLRendererDrawScanline (writeRegs s (ws 0)) 0).bg b).scanlineAffine
        (0 * 4 + 2) = _
      rw [d1, e0, add_zero, wrap32_of_int32 _ hrx.1 hrx.2]
    · show ((GBAVideoGLRendererDrawScanline (writeRegs s (ws 0)) 0).bg b).scanlineAffine
        (0 * 4 + 3) = _
      rw [d2, e0', add_zero, wrap32_of_int32 _ hry.1 hry.2]
    · intro hst
      show ((GBAVideoGLRendererDrawScanline (writeRegs s (ws 0)) 0).bg b).affine.sx = _ ∧
        ((GBAVideoGLRendererDrawScanline (writeRegs s (ws 0)) 0).bg b).affine.sy = _
      rw [d5, d6]
      have hst' : stepIs s b dX dY (GBAVideoGLRendererDrawScanline (writeRegs s (ws 0)) 0) := hst
      rcases hst' with ⟨hm, hx, hy⟩ | ⟨hm, hx, hy⟩
      · rw [if_pos hm, if_pos hm, hx, hy]
        simp
      · have hm' : ¬ (GBARegisterDISPCNTGetMode
            (GBAVideoGLRendererDrawScanline (writeRegs s (ws 0)) 0).dispcnt ≠ 0) := fun h => h hm
        rw [if_neg hm', if_neg hm', hx, hy]
        simp only [mul_zero, add_zero]
        exact ⟨(wrap32_of_int32 _ hrx.1 hrx.2).symm, (wrap32_of_int32 _ hry.1 hry.2).symm⟩
  | succ n ih =>
    obtain ⟨_, _, i3, i4, i5⟩ := ih (fun i hi => hws i (Nat.le_succ_of_le hi))
      (fun i hi => hstep i (Nat.lt_succ_of_lt hi))
    obtain ⟨i5x, i5y⟩ := i5 (hstep n (Nat.lt_succ_self n))
    have hw := writeRegs_advanceOf (ws (n + 1)) (frameUpTo s ws n) b hb
      (hws (n + 1) (Nat.le_refl _))
    simp only [advanceOf, Prod.mk.injEq] at hw
    obtain ⟨w1, w2, w3, w4⟩ := hw
    obtain ⟨d1, d2, d3, d4, d5, d6⟩ := drawScanline_affine
      (writeRegs (frameUpTo s ws n) (ws (n + 1))) (n + 1) b hb
    rw [w1, i5x] at d1 d5
    rw [w2, i5y] at d2 d6
    rw [w3, i3] at d3 d5
    rw [w4, i4] at d4 d6
    have ec : ((n + 1 : Nat) : Int) = (n : Int) + 1 := by push_cast; rfl
    refine ⟨?_, ?_, d3, d4, ?_⟩
    · show ((GBAVideoGLRendererDrawScanline (writeRegs (frameUpTo s ws n) (ws (n + 1)))
        (n + 1)).bg b).scanlineAffine ((n + 1) * 4 + 2) = _
      rw [d1, ec]
    · show ((GBAVideoGLRendererDrawScanline (writeRegs (frameUpTo s ws n) (ws (n + 1)))
        (n + 1)).bg b).scanlineAffine ((n + 1) * 4 + 3) = _
      rw [d2, ec]
    · intro hst
      show ((GBAVideoGLRendererDrawScanline (writeRegs (frameUpTo s ws n) (ws (n + 1)))
        (n + 1)).bg b).affine.sx = _ ∧
        ((GBAVideoGLRendererDrawScanline (writeRegs (frameUpTo s ws n) (ws (n + 1)))
        (n + 1)).bg b).affine.sy = _
      rw [d5, d6]
      have hst' : stepIs s b dX dY (GBAVideoGLRendererDrawScanline
        (writeRegs (frameUpTo s ws n) (ws (n + 1))) (n + 1)) := hst
      rcases hst' with ⟨hm, hx, hy⟩ | ⟨hm, hx, hy⟩
      · rw [if_pos hm, if_pos hm, wrap32_add_wrap32, wrap32_add_wrap32, ← hx, ← hy, ec]
        constructor
        · congr 1; ring
        · congr 1; ring
      · have hm' : ¬ (GBARegisterDISPCNTGetMode (GBAVideoGLRendererDrawScanline
            (writeRegs (frameUpTo s ws n) (ws (n + 1))) (n + 1)).dispcnt ≠ 0) := fun h => h hm
        rw [if_neg hm', if_neg hm', hx, hy]
        simp

/-! ## C10 -/

/-- C10: for background 2 or 3 and every row `n < 160`, starting a frame with
`sx = refx`, `sy = refy` (32-bit values) and with no write to `dmx`, `dmy` or the
reference registers of that background during the frame: if the mode in effect at
scanlines `0 .. n-1` is non-zero, the `sx`, `sy` captured in the affine history of row
`n` are `refx + n*dmx` and `refy + n*dmy` in 32-bit two's-complement arithmetic; if the
mode in effect at those scanlines is 0, they are `refx` and `refy`. -/
theorem C10_affine_reference_advance (s : GBAVideoGLRenderer) (ws : Nat → List (Nat × Nat))
    (b : Fin 4) (n : Nat) (hb : b = 2 ∨ b = 3) (hn : n < 160)
    (hsx : (s.bg b).affine.sx = (s.bg b).refx) (hsy : (s.bg b).affine.sy = (s.bg b).refy)
    (hrx : -2147483648 ≤ (s.bg b).refx ∧ (s.bg b).refx < 2147483648)
    (hry : -2147483648 ≤ (s.bg b).refy ∧ (s.bg b).refy < 2147483648)
    (hws : ∀ i, i ≤ n → ∀ w ∈ ws i, w.1 < 0x60 ∧ w.1 ∉ affineAdvanceRegs b) :
    ((∀ i, i < n → GBARegisterDISPCNTGetMode (frameUpTo s ws i).dispcnt ≠ 0) →
      ((frameUpTo s ws n).bg b).scanlineAffine (n * 4 + 2) =
        wrap32 ((s.bg b).refx + n * (s.bg b).affine.dmx) ∧
      ((frameUpTo s ws n).bg b).scanlineAffine (n * 4 + 3) =
        wrap32 ((s.bg b).refy + n * (s.bg b).affine.dmy)) ∧
    ((∀ i, i < n → GBARegisterDISPCNTGetMode (frameUpTo s ws i).dispcnt = 0) →
      ((frameUpTo s ws n).bg b).scanlineAffine (n * 4 + 2) = (s.bg b).refx ∧
      ((frameUpTo s ws n).bg b).scanlineAffine (n * 4 + 3) = (s.bg b).refy) := by
  have _ := hn
  rw [← hsx] at hrx
  rw [← hsy] at hry
  constructor
  · intro hmode
    obtain ⟨h1, h2, _⟩ := frame_affine s ws b hb (s.bg b).affine.dmx (s.bg b).affine.dmy n
      hrx hry hws (fun i hi => Or.inl ⟨hmode i hi, rfl, rfl⟩)
    rw [← hsx, ← hsy]
    exact ⟨h1, h2⟩
  · intro hmode
    obtain ⟨h1, h2, _⟩ := frame_affine s ws b hb 0 0 n
      hrx hry hws (fun i hi => Or.inr ⟨hmode i hi, rfl, rfl⟩)
    rw [mul_zero, add_zero, wrap32_of_int32 _ hrx.1 hrx.2] at h1
    rw [mul_zero, add_zero, wrap32_of_int32 _ hry.1 hry.2] at h2
    rw [← hsx, ← hsy]
    exact ⟨h1, h2⟩

/-- C10 in mode 1 with `dmx = 3`, `dmy = -2`, a zero reference point and a BG0HOFS write
before every scanline: row 2 captures `(6, -4)`. -/
theorem C10_affine_reference_advance_witness :
    ((frameUpTo affineDemo (fun i => [(REG_BG0HOFS, i)]) 2).bg 2).scanlineAffine (2 * 4 + 2) = 6 ∧
    ((frameUpTo affineDemo (fun i => [(REG_BG0HOFS, i)]) 2).bg 2).scanlineAffine (2 * 4 + 3) = -4 := by
  have h := (C10_affine_reference_advance affineDemo (fun i => [(REG_BG0HOFS, i)]) 2 2
    (Or.inl rfl) (by decide) (by decide) (by decide) (by decide) (by decide)
    (by
      intro i _ w hw
      rw [List.mem_singleton] at hw
      rw [hw]
      show REG_BG0HOFS < 0x60 ∧ REG_BG0HOFS ∉ affineAdvanceRegs 2
      exact ⟨by decide, by decide⟩)).1
    (by intro i hi; interval_cases i <;> decide)
  have e1 : wrap32 ((affineDemo.bg 2).refx + ((2 : Nat) : Int) * (affineDemo.bg 2).affine.dmx) = 6 := by
    decide
  have e2 : wrap32 ((affineDemo.bg 2).refy + ((2 : Nat) : Int) * (affineDemo.bg 2).affine.dmy) = -4 := by
    decide
  rw [e1, e2] at h
  exact h

/-! ## Bit masks of the shaders -/

theorem testBit_E0 (i : Nat) : (0xE0 : Nat).testBit i = decide (i = 5 ∨ i = 6 ∨ i = 7) := by
  by_cases h : i < 8
  · interval_cases i <;> decide
  · have h1 : (0xE0 : Nat).testBit i = false := by
      apply Nat.testBit_lt_two_pow
      calc (0xE0 : Nat) < 2 ^ 8 := by decide
        _ ≤ 2 ^ i := Nat.pow_le_pow_right (by decide) (by omega)
    rw [h1]
    symm
    rw [decide_eq_false_iff_not]
    omega

theorem testBit_F8 (i : Nat) : (0xF8 : Nat).testBit i = decide (3 ≤ i ∧ i < 8) := by
  by_cases h : i < 8
  · interval_cases i <;> decide
  · have h1 : (0xF8 : Nat).testBit i = false := by
      apply Nat.testBit_lt_two_pow
      calc (0xF8 : Nat) < 2 ^ 8 := by decide
        _ ≤ 2 ^ i := Nat.pow_le_pow_right (by decide) (by omega)
    rw [h1]
    symm
    rw [decide_eq_false_iff_not]
    omega

theorem testBit_1F (i : Nat) : (0x1F : Nat).testBit i = decide (i < 5) := by
  have := Nat.testBit_two_pow_sub_one 5 i
  simpa using this

theorem testBit_20 (i : Nat) : (0x20 : Nat).testBit i = decide (5 = i) := by
  have := @Nat.testBit_two_pow 5 i
  simpa using this

/-- A single-bit mask of a shifted word tests one bit of the word. -/
theorem shift_and_bit (d k j : Nat) : ((d >>> k) &&& 2 ^ j ≠ 0) ↔ d.testBit (k + j) = true := by
  rw [Nat.and_two_pow, Nat.testBit_shiftRight]
  cases d.testBit (k + j) <;> simp

/-- No window-enable bit: the shader's `dispcnt & 0xE0` is zero. -/
theorem no_window_bits (d : Nat) (h13 : d.testBit 13 = false) (h14 : d.testBit 14 = false)
    (h15 : d.testBit 15 = false) : (d >>> 8) &&& 0xE0 = 0 := by
  apply Nat.eq_of_testBit_eq
  intro i
  rw [Nat.testBit_and, Nat.testBit_shiftRight, testBit_E0, Nat.zero_testBit]
  by_cases h : i = 5 ∨ i = 6 ∨ i = 7
  · rcases h with rfl | rfl | rfl <;> simp [h13, h14, h15]
  · simp [h]

/-- Some window-enable bit: the shader's `dispcnt & 0xE0` is not zero. -/
theorem some_window_bit (d : Nat)
    (h : d.testBit 13 = true ∨ d.testBit 14 = true ∨ d.testBit 15 = true) :
    (d >>> 8) &&& 0xE0 ≠ 0 := by
  intro e
  have k : ∀ i, ((d >>> 8) &&& 0xE0).testBit i = false := by
    intro i; rw [e, Nat.zero_testBit]
  have k5 := k 5
  have k6 := k 6
  have k7 := k 7
  rw [Nat.testBit_and, Nat.testBit_shiftRight, testBit_E0] at k5 k6 k7
  simp at k5 k6 k7
  rcases h with h | h | h
  · rw [h] at k5; exact absurd k5 (by decide)
  · rw [h] at k6; exact absurd k6 (by decide)
  · rw [h] at k7; exact absurd k7 (by decide)

theorem wvr_scroll_h (s : GBAVideoGLRenderer) (n : Fin 4) (v : Nat) :
    ((GBAVideoGLRendererWriteVideoRegister s (scrollRegH n) v).1.bg n).x = v &&& 0x01FF ∧
    (GBAVideoGLRendererWriteVideoRegister s (scrollRegH n) v).1.shadowRegs (scrollRegH n >>> 1) =
      v &&& 0x01FF ∧
    (GBAVideoGLRendererWriteVideoRegister s (scrollRegH n) v).2 = v &&& 0x01FF ∧
    (GBAVideoGLRendererWriteVideoRegister s (scrollRegH n) v).1.regsDirty = s.regsDirty := by
  rw [wvr_bg, wvr_shadowRegs, wvr_snd, wvr_regsDirty]
  fin_cases n <;>
    simp [scrollRegH, writeSwitch, setBg, setAt, REG_DISPCNT, REG_BG0CNT, REG_BG1CNT,
      REG_BG0HOFS, REG_BG0VOFS, REG_BG1HOFS, REG_BG1VOFS, REG_BG2HOFS, REG_BG2VOFS,
      REG_BG3HOFS, REG_BG3VOFS]

theorem wvr_scroll_v (s : GBAVideoGLRenderer) (n : Fin 4) (v : Nat) :
    ((GBAVideoGLRendererWriteVideoRegister s (scrollRegV n) v).1.bg n).y = v &&& 0x01FF ∧
    (GBAVideoGLRendererWriteVideoRegister s (scrollRegV n) v).1.shadowRegs (scrollRegV n >>> 1) =
      v &&& 0x01FF ∧
    (GBAVideoGLRendererWriteVideoRegister s (scrollRegV n) v).2 = v &&& 0x01FF ∧
    (GBAVideoGLRendererWriteVideoRegister s (scrollRegV n) v).1.regsDirty = s.regsDirty := by
  rw [wvr_bg, wvr_shadowRegs, wvr_snd, wvr_regsDirty]
  fin_cases n <;>
    simp [scrollRegV, writeSwitch, setBg, setAt, REG_DISPCNT, REG_BG0CNT, REG_BG1CNT,
      REG_BG0HOFS, REG_BG0VOFS, REG_BG1HOFS, REG_BG1VOFS, REG_BG2HOFS, REG_BG2VOFS,
      REG_BG3HOFS, REG_BG3VOFS]

/-! ## C11 -/

/-- C11: for every background `n` and every value, writing BGnHOFS (resp. BGnVOFS) sets
`bg[n].x` (resp. `bg[n].y`) and the shadow register to `v & 0x1FF`, returns that value and
leaves `regsDirty` as it was; after BG0HOFS = 0x10, 0x10, 0x20 the shadow is 0x20,
`bg[0].x` is 0x20 and `regsDirty` is unchanged. -/
theorem C11_scroll_bypasses_dirty_bitmap (s : GBAVideoGLRenderer) (n : Fin 4) (v : Nat) :
    (((GBAVideoGLRendererWriteVideoRegister s (scrollRegH n) v).1.bg n).x = v &&& 0x01FF ∧
     (GBAVideoGLRendererWriteVideoRegister s (scrollRegH n) v).1.shadowRegs (scrollRegH n >>> 1) =
        v &&& 0x01FF ∧
     (GBAVideoGLRendererWriteVideoRegister s (scrollRegH n) v).1.regsDirty = s.regsDirty) ∧
    (((GBAVideoGLRendererWriteVideoRegister s (scrollRegV n) v).1.bg n).y = v &&& 0x01FF ∧
     (GBAVideoGLRendererWriteVideoRegister s (scrollRegV n) v).1.shadowRegs (scrollRegV n >>> 1) =
        v &&& 0x01FF ∧
     (GBAVideoGLRendererWriteVideoRegister s (scrollRegV n) v).1.regsDirty = s.regsDirty) ∧
    ((writeRegs s [(REG_BG0HOFS, 0x10), (REG_BG0HOFS, 0x10), (REG_BG0HOFS, 0x20)]).shadowRegs
        (REG_BG0HOFS >>> 1) = 0x20 ∧
     ((writeRegs s [(REG_BG0HOFS, 0x10), (REG_BG0HOFS, 0x10), (REG_BG0HOFS, 0x20)]).bg 0).x = 0x20 ∧
     (writeRegs s [(REG_BG0HOFS, 0x10), (REG_BG0HOFS, 0x10), (REG_BG0HOFS, 0x20)]).regsDirty =
        s.regsDirty) := by
  obtain ⟨h1, h2, _, h4⟩ := wvr_scroll_h s n v
  obtain ⟨v1, v2, _, v4⟩ := wvr_scroll_v s n v
  refine ⟨⟨h1, h2, h4⟩, ⟨v1, v2, v4⟩, ?_⟩
  have e : scrollRegH 0 = REG_BG0HOFS := rfl
  simp only [writeRegs, List.foldl]
  obtain ⟨a1, a2, _, a4⟩ := wvr_scroll_h
    (GBAVideoGLRendererWriteVideoRegister
      (GBAVideoGLRendererWriteVideoRegister s REG_BG0HOFS 0x10).1 REG_BG0HOFS 0x10).1 0 0x20
  obtain ⟨_, _, _, b4⟩ := wvr_scroll_h
    (GBAVideoGLRendererWriteVideoRegister s REG_BG0HOFS 0x10).1 0 0x10
  obtain ⟨_, _, _, c4⟩ := wvr_scroll_h s 0 0x10
  rw [e] at a1 a2 a4 b4 c4
  refine ⟨?_, ?_, ?_⟩
  · rw [a2]; decide
  · rw [a1]; decide
  · rw [a4, b4, c4]

/-! ## C12 -/

/-- C12: at `finishFrame`, when bit 7 of the effective `dispcnt` is set, `_finalizeLayers`
clears the output to solid white and every output pixel is `(1, 1, 1, 1)` whatever the
finalize shader would fetch; when the bit is clear it runs the composition pass and the
pixel is what the finalize shader computes. -/
theorem C12_forced_blank_is_white (s : GBAVideoGLRenderer) (inp : FinalizeInput) :
    _finalizeLayers (_drawScanlines s ((GBA_VIDEO_VERTICAL_PIXELS : Int) - 1)) =
      (if s.dispcnt.testBit 7 then FinalizePass.clear white else FinalizePass.compose) ∧
    finishFramePixel s inp = (if s.dispcnt.testBit 7 then white else finalizeMain inp) := by
  unfold finishFramePixel _finalizeLayers GBARegisterDISPCNTIsForcedBlank _drawScanlines white
  cases h : s.dispcnt.testBit 7 <;> simp [h]

/-! ## C15 -/

/-- C15 as stated fails: with top and bottom colour 1 and both coefficients 16 the
finalize pass computes the red component `1 * 16/16 + 1 * 16/16 = 2`, outside `[0, 1]`. -/
theorem C15_counterexample :
    (finalizeMain blendDemo).x = 2 ∧ ¬ ((finalizeMain blendDemo).x ≤ 1) := by
  have h : (finalizeMain blendDemo).x = 2 := by decide!
  rw [h]
  exact ⟨rfl, by norm_num⟩

/-- C15 (amended): for colour components in `[0, 1]` and coefficients in `0..16`, the
alpha blend computed by the finalize pass lies in `[0, (a + b) / 16]`, hence in
`[0, 2]`, and in `[0, 1]` whenever `a + b <= 16`. -/
theorem C15_alpha_blend_range (top bottom : ℚ) (a b : Nat)
    (ht0 : 0 ≤ top) (ht1 : top ≤ 1) (hb0 : 0 ≤ bottom) (hb1 : bottom ≤ 1)
    (ha : a ≤ 16) (hb : b ≤ 16) :
    0 ≤ blendAlpha top bottom a b ∧
    blendAlpha top bottom a b ≤ ((a : ℚ) + b) / 16 ∧
    blendAlpha top bottom a b ≤ 2 ∧
    (a + b ≤ 16 → blendAlpha top bottom a b ≤ 1) := by
  unfold blendAlpha
  have ha0 : (0 : ℚ) ≤ a := Nat.cast_nonneg a
  have hb0' : (0 : ℚ) ≤ b := Nat.cast_nonneg b
  have ha16 : (a : ℚ) ≤ 16 := by exact_mod_cast ha
  have hb16 : (b : ℚ) ≤ 16 := by exact_mod_cast hb
  have h1 : top * ((a : ℚ) / 16) ≤ (a : ℚ) / 16 := by
    have : top * ((a : ℚ) / 16) ≤ 1 * ((a : ℚ) / 16) :=
      mul_le_mul_of_nonneg_right ht1 (by positivity)
    simpa using this
  have h2 : bottom * (b : ℚ) / 16 ≤ (b : ℚ) / 16 := by
    have : bottom * (b : ℚ) ≤ 1 * (b : ℚ) := mul_le_mul_of_nonneg_right hb1 hb0'
    have := div_le_div_of_nonneg_right this (by norm_num : (0 : ℚ) ≤ 16)
    simpa using this
  have h3 : 0 ≤ top * ((a : ℚ) / 16) := by positivity
  have h4 : 0 ≤ bottom * (b : ℚ) / 16 := by positivity
  refine ⟨by linarith, by linarith, by linarith, ?_⟩
  intro hab
  have : (a : ℚ) + b ≤ 16 := by exact_mod_cast hab
  linarith

/-- C15 (amended) at half intensity with coefficients 8 and 8. -/
theorem C15_alpha_blend_range_witness :
    0 ≤ blendAlpha (1 / 2) (1 / 2) 8 8 ∧
    blendAlpha (1 / 2) (1 / 2) 8 8 ≤ (((8 : Nat) : ℚ) + (8 : Nat)) / 16 ∧
    blendAlpha (1 / 2) (1 / 2) 8 8 ≤ 2 ∧
    (8 + 8 ≤ 16 → blendAlpha (1 / 2) (1 / 2) 8 8 ≤ 1) :=
  C15_alpha_blend_range (1 / 2) (1 / 2) 8 8 (by norm_num) (by norm_num) (by norm_num)
    (by norm_num) (by decide) (by decide)

/-! ## C17 -/

/-- C17 as stated fails: with DISPCNT = 0x0100 (background 0 on, no window) the window
pass writes the mask 0x21, not 0x3F. -/
theorem C17_counterexample :
    (GBAVideoGLRendererDrawWindow { zeroRenderer with dispcnt := 0x0100 } { x := 0, y := 0 }).x = 0x21 ∧
    (GBAVideoGLRendererDrawWindow { zeroRenderer with dispcnt := 0x0100 } { x := 0, y := 0 }).x ≠ 0x3F := by
  have h : (GBAVideoGLRendererDrawWindow { zeroRenderer with dispcnt := 0x0100 }
      { x := 0, y := 0 }).x = 0x21 := by
    simp [GBAVideoGLRendererDrawWindow, windowMain]
  rw [h]
  exact ⟨rfl, by decide⟩

/-- C17 (amended): for every DISPCNT value with bits 13..15 clear, the window pass writes
for every pixel the mask `((DISPCNT >> 8) & 0x1F) | 0x20`: the blend bit is set and each
of the five layer bits (BG0..BG3, OBJ) equals the layer's enable bit 8..12 of DISPCNT. -/
theorem C17_no_window_mask (s : GBAVideoGLRenderer) (texCoord : Vec2)
    (h13 : s.dispcnt.testBit 13 = false) (h14 : s.dispcnt.testBit 14 = false)
    (h15 : s.dispcnt.testBit 15 = false) :
    (GBAVideoGLRendererDrawWindow s texCoord).x = ((s.dispcnt >>> 8) &&& 0x1F) ||| 0x20 ∧
    (GBAVideoGLRendererDrawWindow s texCoord).x.testBit 5 = true ∧
    (∀ i, i < 5 →
      (GBAVideoGLRendererDrawWindow s texCoord).x.testBit i = s.dispcnt.testBit (8 + i)) := by
  have h0 := no_window_bits s.dispcnt h13 h14 h15
  have e : (GBAVideoGLRendererDrawWindow s texCoord).x = ((s.dispcnt >>> 8) &&& 0x1F) ||| 0x20 := by
    simp only [GBAVideoGLRendererDrawWindow, windowMain, h0, if_true]
  rw [e]
  refine ⟨rfl, ?_, ?_⟩
  · rw [Nat.testBit_or, testBit_20]; simp
  · intro i hi
    rw [Nat.testBit_or, Nat.testBit_and, Nat.testBit_shiftRight, testBit_1F, testBit_20]
    have : ¬ (5 = i) := by omega
    simp [hi, this]

/-- C17 (amended) at DISPCNT = 0x1F00, all five layers on: the mask is 0x3F. -/
theorem C17_no_window_mask_witness :
    (GBAVideoGLRendererDrawWindow { zeroRenderer with dispcnt := 0x1F00 } { x := 0, y := 0 }).x =
      ((0x1F00 >>> 8) &&& 0x1F) ||| 0x20 ∧
    (GBAVideoGLRendererDrawWindow { zeroRenderer with dispcnt := 0x1F00 } { x := 0, y := 0 }).x.testBit 5
      = true ∧
    (∀ i, i < 5 →
      (GBAVideoGLRendererDrawWindow { zeroRenderer with dispcnt := 0x1F00 }
        { x := 0, y := 0 }).x.testBit i = (0x1F00 : Nat).testBit (8 + i)) :=
  C17_no_window_mask { zeroRenderer with dispcnt := 0x1F00 } { x := 0, y := 0 }
    (by decide) (by decide) (by decide)

/-! ## C19 -/

theorem writeSwitch_out_of_table (s : GBAVideoGLRenderer) (a v : Nat) (ha : 0x60 ≤ a) :
    writeSwitch s a v = (s, v, true) := by
  simp only [writeSwitch, REG_DISPCNT, REG_BG0CNT, REG_BG1CNT, REG_BG2CNT, REG_BG3CNT,
      REG_BG0HOFS, REG_BG0VOFS, REG_BG1HOFS, REG_BG1VOFS, REG_BG2HOFS, REG_BG2VOFS, REG_BG3HOFS,
      REG_BG3VOFS, REG_BG2PA, REG_BG2PB, REG_BG2PC, REG_BG2PD, REG_BG2X_LO, REG_BG2X_HI,
      REG_BG2Y_LO, REG_BG2Y_HI, REG_BG3PA, REG_BG3PB, REG_BG3PC, REG_BG3PD, REG_BG3X_LO,
      REG_BG3X_HI, REG_BG3Y_LO, REG_BG3Y_HI, REG_WIN0H, REG_WIN1H, REG_WIN0V, REG_WIN1V,
      REG_WININ, REG_WINOUT, REG_MOSAIC, REG_BLDCNT, REG_BLDALPHA, REG_BLDY]
  repeat rw [if_neg (by omega)]

theorem lt_cases (a b : ℚ) : (a < b ∧ ¬ b ≤ a) ∨ (¬ a < b ∧ b ≤ a) := by
  rcases lt_or_le a b with h | h
  · exact Or.inl ⟨h, not_le.mpr h⟩
  · exact Or.inr ⟨not_lt.mpr h, h⟩

/-- `crop` stores the flags exactly for a fragment inside the window. -/
theorem crop_eq (texCoord : Vec2) (p : Vec4) (flags : Nat) (wf : IVec3) :
    crop texCoord p flags wf = if insideWindow texCoord p then { wf with x := flags } else wf := by
  unfold crop insideWindow axisTest
  rcases lt_cases texCoord.x p.x with ⟨h1, h1'⟩ | ⟨h1, h1'⟩ <;>
  rcases lt_cases texCoord.x p.y with ⟨h2, h2'⟩ | ⟨h2, h2'⟩ <;>
  rcases lt_cases texCoord.y p.z with ⟨h3, h3'⟩ | ⟨h3, h3'⟩ <;>
  rcases lt_cases texCoord.y p.w with ⟨h4, h4'⟩ | ⟨h4, h4'⟩ <;>
  rcases lt_cases p.y p.x with ⟨h5, h5'⟩ | ⟨h5, h5'⟩ <;>
  rcases lt_cases p.w p.z with ⟨h6, h6'⟩ | ⟨h6, h6'⟩ <;>
  simp only [h1, h1', h2, h2', h3, h3', h4, h4', h5, h5', h6, h6', gt_iff_lt, ge_iff_le,
    decide_True, decide_False, Bool.not_true, Bool.not_false, Bool.or_true, Bool.or_false,
    Bool.true_or, Bool.false_or, Bool.and_true, Bool.and_false, Bool.true_and, Bool.false_and,
    if_true, if_false, and_true, true_and, and_false, false_and, or_true, true_or, or_false,
    false_or, and_self, or_self, Bool.false_eq_true, Bool.or_self, Bool.and_self]

/-! ## C16 -/

theorem rgb8_red (p : Nat) : ((M_RGB5_TO_RGB8 p) >>> 16) &&& 0xF8 = (p &&& 0x1F) <<< 3 := by
  apply Nat.eq_of_testBit_eq
  intro i
  unfold M_RGB5_TO_RGB8
  simp only [Nat.testBit_and, Nat.testBit_or, Nat.testBit_shiftRight, Nat.testBit_shiftLeft,
    testBit_F8, testBit_1F]
  by_cases h : i < 8
  · interval_cases i <;> simp
  · have : ¬ (3 ≤ i ∧ i < 8) := by omega
    have h2 : ¬ (i - 3 < 5) := by omega
    simp [this, h2]

theorem rgb8_green (p : Nat) :
    ((M_RGB5_TO_RGB8 p) >>> 8) &&& 0xF8 = ((p >>> 5) &&& 0x1F) <<< 3 := by
  apply Nat.eq_of_testBit_eq
  intro i
  unfold M_RGB5_TO_RGB8
  simp only [Nat.testBit_and, Nat.testBit_or, Nat.testBit_shiftRight, Nat.testBit_shiftLeft,
    testBit_F8, testBit_1F]
  by_cases h : i < 8
  · interval_cases i <;> simp
  · have : ¬ (3 ≤ i ∧ i < 8) := by omega
    have h2 : ¬ (i - 3 < 5) := by omega
    simp [this, h2]

theorem rgb8_blue (p : Nat) : (M_RGB5_TO_RGB8 p) &&& 0xF8 = ((p >>> 10) &&& 0x1F) <<< 3 := by
  apply Nat.eq_of_testBit_eq
  intro i
  unfold M_RGB5_TO_RGB8
  simp only [Nat.testBit_and, Nat.testBit_or, Nat.testBit_shiftRight, Nat.testBit_shiftLeft,
    testBit_F8, testBit_1F]
  by_cases h : i < 8
  · interval_cases i <;> simp
  · have : ¬ (3 ≤ i ∧ i < 8) := by omega
    have h2 : ¬ (i - 3 < 5) := by omega
    simp [this, h2]

theorem shl3_div (c : Nat) : (((c <<< 3 : Nat) : ℚ)) / 248 = (c : ℚ) / 31 := by
  rw [Nat.shiftLeft_eq]
  push_cast
  field_simp
  ring

/-- The backdrop clear colour, channel by channel. -/
theorem backdropColor_eq (s : GBAVideoGLRenderer) :
    backdropColor s =
      { x := ((s.shadowPalette 0 &&& 0x1F : Nat) : ℚ) / 31
        y := (((s.shadowPalette 0 >>> 5) &&& 0x1F : Nat) : ℚ) / 31
        z := (((s.shadowPalette 0 >>> 10) &&& 0x1F : Nat) : ℚ) / 31
        w := 1 } := by
  unfold backdropColor
  simp only [rgb8_red, rgb8_green, rgb8_blue, shl3_div]

/-! ## Composition without a contributing layer -/

theorem composite_transparent (pixel : Vec4) (flags : IVec4) (c : Composite) (h : pixel.w = 0) :
    composite pixel flags c = c := by
  unfold composite
  rw [if_pos h]

theorem compositeUpTo_skip (inp : FinalizeInput) (k : Nat) (h : ¬ contributes inp k) :
    compositeUpTo inp (k + 1) = compositeUpTo inp k := by
  show (if (layerSample inp k).1 then
      composite (layerSample inp k).2.1 (layerSample inp k).2.2 (compositeUpTo inp k)
    else compositeUpTo inp k) = _
  by_cases he : (layerSample inp k).1 = true
  · rw [if_pos he]
    apply composite_transparent
    by_contra hw
    exact h ⟨he, hw⟩
  · rw [if_neg he]

theorem compositeUpTo_none (inp : FinalizeInput) (n : Nat)
    (h : ∀ k, k < n → ¬ contributes inp k) : compositeUpTo inp n = compositeUpTo inp 0 := by
  induction n with
  | zero => rfl
  | succ n ih =>
    rw [compositeUpTo_skip inp n (h n (Nat.lt_succ_self n))]
    exact ih (fun k hk => h k (Nat.lt_succ_of_lt hk))

/-- With no layer contributing and no blend effect selected for the backdrop, the
finalize shader outputs the backdrop texel. -/
theorem finalizeMain_backdrop (inp : FinalizeInput) (t1 t2 eff : Nat)
    (hnone : ∀ k, k < 5 → ¬ contributes inp k)
    (hy : inp.backdropFlags.y = t1 ||| (t2 * 2) ||| (eff * 4)) (hw : inp.backdropFlags.w = 0)
    (ht1 : t1 ≤ 1) (ht2 : t2 ≤ 1) (heff : eff ≤ 3) (hno : t1 = 0 ∨ eff = 0) :
    finalizeMain inp = inp.backdrop := by
  unfold finalizeMain
  rw [compositeUpTo_none inp 5 hnone]
  simp only [compositeUpTo]
  by_cases hwin : inp.window.x &&& 32 = 0
  · simp only [if_pos hwin, hy, hw]
    rcases hno with h | h
    · subst h
      interval_cases t2 <;> interval_cases eff <;>
        rw [if_neg (by decide), if_neg (by decide), if_neg (by decide)]
    · subst h
      interval_cases t1 <;> interval_cases t2 <;>
        rw [if_neg (by decide), if_neg (by decide), if_neg (by decide)]
  · simp only [if_neg hwin, hy, hw]
    rcases hno with h | h
    · subst h
      interval_cases t2 <;> interval_cases eff <;>
        rw [if_neg (by decide), if_neg (by decide), if_neg (by decide)]
    · subst h
      interval_cases t1 <;> interval_cases t2 <;>
        rw [if_neg (by decide), if_neg (by decide), if_neg (by decide)]

/-! ## C13 -/

/-- C13 as stated fails: with palette entry 0 = 0x7FFF, forced blank clear and no layer
contributing, every output pixel is `(1, 1, 1, 1)`, full scale (255 of 255), not
`(248, 248, 248, 255)` of 255; and when BLDCNT brightens the backdrop the pixel is not
the backdrop colour at all (a black backdrop comes out white at BLDY = 16). -/
theorem C13_counterexample :
    finishFramePixel whiteBackdropDemo (backdropOnly whiteBackdropDemo (windowAtOrigin whiteBackdropDemo))
      = { x := 1, y := 1, z := 1, w := 1 } ∧
    finishFramePixel whiteBackdropDemo (backdropOnly whiteBackdropDemo (windowAtOrigin whiteBackdropDemo))
      ≠ { x := 248 / 255, y := 248 / 255, z := 248 / 255, w := 1 } ∧
    backdropColor brightenDemo = { x := 0, y := 0, z := 0, w := 1 } ∧
    finishFramePixel brightenDemo (backdropOnly brightenDemo (windowAtOrigin brightenDemo))
      = { x := 1, y := 1, z := 1, w := 1 } := by
  refine ⟨by decide!, by decide!, by decide!, by decide!⟩

/-- C13 (amended): with forced blank clear, no layer contributing a pixel and no blend
effect selected for the backdrop (BLDCNT first-target bit of the backdrop clear, or
effect 0), every output pixel equals the backdrop clear colour, whose components are
`c / 31` of full scale for the 5-bit channels `c` of palette entry 0 (the channel is
expanded to `c << 3` and divided by 248); palette entry 0 = 0x7FFF yields
`(1, 1, 1, 1)`. -/
theorem C13_backdrop_only (s : GBAVideoGLRenderer) (inp : FinalizeInput)
    (hblank : s.dispcnt.testBit 7 = false)
    (hbd : inp.backdrop = backdropColor s) (hbf : inp.backdropFlags = backdropFlags s)
    (hnone : ∀ k, k < 5 → ¬ contributes inp k)
    (ht1 : s.target1Bd ≤ 1) (ht2 : s.target2Bd ≤ 1) (heff : s.blendEffect ≤ 3)
    (hno : s.target1Bd = 0 ∨ s.blendEffect = 0) :
    finishFramePixel s inp =
      { x := ((s.shadowPalette 0 &&& 0x1F : Nat) : ℚ) / 31
        y := (((s.shadowPalette 0 >>> 5) &&& 0x1F : Nat) : ℚ) / 31
        z := (((s.shadowPalette 0 >>> 10) &&& 0x1F : Nat) : ℚ) / 31
        w := 1 } ∧
    finishFramePixel s inp =
      { x := (((s.shadowPalette 0 &&& 0x1F) <<< 3 : Nat) : ℚ) / 248
        y := ((((s.shadowPalette 0 >>> 5) &&& 0x1F) <<< 3 : Nat) : ℚ) / 248
        z := ((((s.shadowPalette 0 >>> 10) &&& 0x1F) <<< 3 : Nat) : ℚ) / 248
        w := 1 } ∧
    (s.shadowPalette 0 = 0x7FFF → finishFramePixel s inp = { x := 1, y := 1, z := 1, w := 1 }) := by
  have hf : finishFramePixel s inp = finalizeMain inp := by
    unfold finishFramePixel _finalizeLayers GBARegisterDISPCNTIsForcedBlank _drawScanlines
    simp [hblank]
  have hm : finalizeMain inp = backdropColor s := by
    rw [← hbd]
    apply finalizeMain_backdrop inp s.target1Bd s.target2Bd s.blendEffect hnone _ _ ht1 ht2 heff hno
    · rw [hbf]; rfl
    · rw [hbf]; rfl
  rw [hf, hm]
  refine ⟨backdropColor_eq s, ?_, ?_⟩
  · rw [backdropColor_eq]
    simp only [shl3_div]
  · intro hp
    rw [backdropColor_eq, hp]
    have e1 : (32767 &&& 31 : Nat) = 31 := by decide
    have e2 : ((32767 >>> 5) &&& 31 : Nat) = 31 := by decide
    have e3 : ((32767 >>> 10) &&& 31 : Nat) = 31 := by decide
    rw [e1, e2, e3]
    norm_num

/-- C13 (amended) at palette entry 0 = 0x7FFF with every register zero. -/
theorem C13_backdrop_only_witness :
    finishFramePixel whiteBackdropDemo (backdropOnly whiteBackdropDemo (windowAtOrigin whiteBackdropDemo)) =
      { x := ((whiteBackdropDemo.shadowPalette 0 &&& 0x1F : Nat) : ℚ) / 31
        y := (((whiteBackdropDemo.shadowPalette 0 >>> 5) &&& 0x1F : Nat) : ℚ) / 31
        z := (((whiteBackdropDemo.shadowPalette 0 >>> 10) &&& 0x1F : Nat) : ℚ) / 31
        w := 1 } ∧
    finishFramePixel whiteBackdropDemo (backdropOnly whiteBackdropDemo (windowAtOrigin whiteBackdropDemo)) =
      { x := (((whiteBackdropDemo.shadowPalette 0 &&& 0x1F) <<< 3 : Nat) : ℚ) / 248
        y := ((((whiteBackdropDemo.shadowPalette 0 >>> 5) &&& 0x1F) <<< 3 : Nat) : ℚ) / 248
        z := ((((whiteBackdropDemo.shadowPalette 0 >>> 10) &&& 0x1F) <<< 3 : Nat) : ℚ) / 248
        w := 1 } ∧
    (whiteBackdropDemo.shadowPalette 0 = 0x7FFF →
      finishFramePixel whiteBackdropDemo (backdropOnly whiteBackdropDemo (windowAtOrigin whiteBackdropDemo)) =
        { x := 1, y := 1, z := 1, w := 1 }) :=
  C13_backdrop_only whiteBackdropDemo (backdropOnly whiteBackdropDemo (windowAtOrigin whiteBackdropDemo))
    (by decide) rfl rfl
    (by
      intro k hk
      interval_cases k <;> simp [contributes, layerSample, backdropOnly])
    (by decide) (by decide) (by decide) (Or.inl (by decide))

/-! ## The composition order -/

/-- The three shapes of the compositor state after the first `n` samples. -/
theorem compositeUpTo_shape (inp : FinalizeInput) (N : Nat)
    (hprio : ∀ k, k < N → contributes inp k → samplePriority inp k < inp.backdropFlags.x)
    (n : Nat) (hn : n ≤ N) :
    ((∀ k, k < n → ¬ contributes inp k) ∧ compositeUpTo inp n = compositeUpTo inp 0) ∨
    (∃ t, isTopAmong inp n t ∧ (∀ k, k < n → contributes inp k → k = t) ∧
      (compositeUpTo inp n).topPixel = (layerSample inp t).2.1 ∧
      (compositeUpTo inp n).topFlags = (layerSample inp t).2.2 ∧
      (compositeUpTo inp n).bottomPixel = inp.backdrop ∧
      (compositeUpTo inp n).bottomFlags = inp.backdropFlags) ∨
    (∃ t b, isTopAmong inp n t ∧ isSecondAmong inp n t b ∧
      (compositeUpTo inp n).topPixel = (layerSample inp t).2.1 ∧
      (compositeUpTo inp n).topFlags = (layerSample inp t).2.2 ∧
      (compositeUpTo inp n).bottomPixel = (layerSample inp b).2.1 ∧
      (compositeUpTo inp n).bottomFlags = (layerSample inp b).2.2) := by
  induction n with
  | zero => exact Or.inl ⟨fun k hk => absurd hk (Nat.not_lt_zero k), rfl⟩
  | succ n ih =>
    have ih := ih (Nat.le_of_succ_le hn)
    by_cases hc : contributes inp n
    · -- sample n takes part
      have hstep : compositeUpTo inp (n + 1) =
          composite (layerSample inp n).2.1 (layerSample inp n).2.2 (compositeUpTo inp n) := by
        show (if (layerSample inp n).1 then _ else _) = _
        rw [if_pos hc.1]
      have hw : ¬ (layerSample inp n).2.1.w = 0 := hc.2
      have hp := hprio n (Nat.lt_of_succ_le hn) hc
      have self_beats : beats inp n n := Or.inr ⟨rfl, le_refl n⟩
      rcases ih with ⟨hnone, hinit⟩ | ⟨t, htop, honly, e1, e2, e3, e4⟩ |
          ⟨t, b, htop, hsec, e1, e2, e3, e4⟩
      · -- nothing before: the sample becomes top, the backdrop bottom
        right; left
        refine ⟨n, ⟨Nat.lt_succ_self n, hc, ?_⟩, ?_, ?_⟩
        · intro j hj hcj
          rcases Nat.lt_succ_iff_lt_or_eq.mp hj with h | h
          · exact absurd hcj (hnone j h)
          · rw [h]; exact self_beats
        · intro k hk hck
          rcases Nat.lt_succ_iff_lt_or_eq.mp hk with h | h
          · exact absurd hck (hnone k h)
          · exact h
        · rw [hstep, hinit]
          unfold composite
          have : ¬ ((layerSample inp n).2.2.x ≥ (compositeUpTo inp 0).topFlags.x) := by
            show ¬ ((layerSample inp n).2.2.x ≥ inp.backdropFlags.x)
            unfold samplePriority at hp
            omega
          rw [if_neg hw, if_neg this]
          exact ⟨rfl, rfl, rfl, rfl⟩
      · -- one before
        right; right
        by_cases hge : (layerSample inp n).2.2.x ≥ (layerSample inp t).2.2.x
        · -- the new sample becomes bottom
          refine ⟨t, n, ⟨Nat.lt_succ_of_lt htop.1, htop.2.1, ?_⟩,
            ⟨Nat.lt_succ_self n, ?_, hc, ?_⟩, ?_⟩
          · intro j hj hcj
            rcases Nat.lt_succ_iff_lt_or_eq.mp hj with h | h
            · exact htop.2.2 j h hcj
            · rw [h]
              unfold beats samplePriority
              have := htop.1
              omega
          · have := htop.1; omega
          · intro j hj hjt hcj
            rcases Nat.lt_succ_iff_lt_or_eq.mp hj with h | h
            · exact absurd (honly j h hcj) hjt
            · rw [h]; exact self_beats
          · rw [hstep]
            unfold composite
            have hb : ¬ ((layerSample inp n).2.2.x ≥ (compositeUpTo inp n).bottomFlags.x) := by
              rw [e4]
              unfold samplePriority at hp
              omega
            rw [if_neg hw, e2, if_pos hge, if_neg hb]
            exact ⟨e1, rfl, rfl, rfl⟩
        · -- the new sample becomes top, the old top bottom
          refine ⟨n, t, ⟨Nat.lt_succ_self n, hc, ?_⟩,
            ⟨Nat.lt_succ_of_lt htop.1, ?_, htop.2.1, ?_⟩, ?_⟩
          · intro j hj hcj
            rcases Nat.lt_succ_iff_lt_or_eq.mp hj with h | h
            · have := honly j h hcj
              rw [this]
              unfold beats samplePriority
              omega
            · rw [h]; exact self_beats
          · have := htop.1; omega
          · intro j hj hjn hcj
            rcases Nat.lt_succ_iff_lt_or_eq.mp hj with h | h
            · exact htop.2.2 j h hcj
            · exact absurd h hjn
          · rw [hstep]
            unfold composite
            rw [if_neg hw, e2, if_neg hge]
            exact ⟨rfl, rfl, e1, rfl⟩
      · -- two before
        right; right
        have hbt : (layerSample inp t).2.2.x ≤ (layerSample inp b).2.2.x := by
          have := htop.2.2 b hsec.1 hsec.2.2.1
          unfold beats samplePriority at this
          omega
        by_cases hge : (layerSample inp n).2.2.x ≥ (layerSample inp t).2.2.x
        · by_cases hgb : (layerSample inp n).2.2.x ≥ (layerSample inp b).2.2.x
          · -- nothing changes
            refine ⟨t, b, ⟨Nat.lt_succ_of_lt htop.1, htop.2.1, ?_⟩,
              ⟨Nat.lt_succ_of_lt hsec.1, hsec.2.1, hsec.2.2.1, ?_⟩, ?_⟩
            · intro j hj hcj
              rcases Nat.lt_succ_iff_lt_or_eq.mp hj with h | h
              · exact htop.2.2 j h hcj
              · rw [h]
                unfold beats samplePriority
                have := htop.1
                omega
            · intro j hj hjt hcj
              rcases Nat.lt_succ_iff_lt_or_eq.mp hj with h | h
              · exact hsec.2.2.2 j h hjt hcj
              · rw [h]
                unfold beats samplePriority
                have := hsec.1
                omega
            · rw [hstep]
              unfold composite
              rw [if_neg hw, e2, if_pos hge, e4, if_pos hgb]
              exact ⟨e1, e2, e3, e4⟩
          · -- the new sample becomes bottom
            refine ⟨t, n, ⟨Nat.lt_succ_of_lt htop.1, htop.2.1, ?_⟩,
              ⟨Nat.lt_succ_self n, ?_, hc, ?_⟩, ?_⟩
            · intro j hj hcj
              rcases Nat.lt_succ_iff_lt_or_eq.mp hj with h | h
              · exact htop.2.2 j h hcj
              · rw [h]
                unfold beats samplePriority
                have := htop.1
                omega
            · have := htop.1; omega
            · intro j hj hjt hcj
              rcases Nat.lt_succ_iff_lt_or_eq.mp hj with h | h
              · have := hsec.2.2.2 j h hjt hcj
                unfold beats samplePriority at this ⊢
                omega
              · rw [h]; exact self_beats
            · rw [hstep]
              unfold composite
              rw [if_neg hw, e2, if_pos hge, e4, if_neg hgb]
              exact ⟨e1, rfl, rfl, rfl⟩
        · -- the new sample becomes top, the old top bottom
          refine ⟨n, t, ⟨Nat.lt_succ_self n, hc, ?_⟩,
            ⟨Nat.lt_succ_of_lt htop.1, ?_, htop.2.1, ?_⟩, ?_⟩
          · intro j hj hcj
            rcases Nat.lt_succ_iff_lt_or_eq.mp hj with h | h
            · have := htop.2.2 j h hcj
              unfold beats samplePriority at this ⊢
              omega
            · rw [h]; exact self_beats
          · have := htop.1; omega
          · intro j hj hjn hcj
            rcases Nat.lt_succ_iff_lt_or_eq.mp hj with h | h
            · exact htop.2.2 j h hcj
            · exact absurd h hjn
          · rw [hstep]
            unfold composite
            rw [if_neg hw, e2, if_neg hge]
            exact ⟨rfl, rfl, e1, rfl⟩
    · -- sample n does not take part
      have hstep := compositeUpTo_skip inp n hc
      rcases ih with ⟨hnone, hinit⟩ | ⟨t, htop, honly, e⟩ | ⟨t, b, htop, hsec, e⟩
      · left
        refine ⟨?_, by rw [hstep, hinit]⟩
        intro k hk
        rcases Nat.lt_succ_iff_lt_or_eq.mp hk with h | h
        · exact hnone k h
        · rw [h]; exact hc
      · right; left
        refine ⟨t, ⟨Nat.lt_succ_of_lt htop.1, htop.2.1, ?_⟩, ?_, by rw [hstep]; exact e⟩
        · intro j hj hcj
          rcases Nat.lt_succ_iff_lt_or_eq.mp hj with h | h
          · exact htop.2.2 j h hcj
          · rw [h] at hcj; exact absurd hcj hc
        · intro k hk hck
          rcases Nat.lt_succ_iff_lt_or_eq.mp hk with h | h
          · exact honly k h hck
          · rw [h] at hck; exact absurd hck hc
      · right; right
        refine ⟨t, b, ⟨Nat.lt_succ_of_lt htop.1, htop.2.1, ?_⟩,
          ⟨Nat.lt_succ_of_lt hsec.1, hsec.2.1, hsec.2.2.1, ?_⟩, by rw [hstep]; exact e⟩
        · intro j hj hcj
          rcases Nat.lt_succ_iff_lt_or_eq.mp hj with h | h
          · exact htop.2.2 j h hcj
          · rw [h] at hcj; exact absurd hcj hc
        · intro j hj hjt hcj
          rcases Nat.lt_succ_iff_lt_or_eq.mp hj with h | h
          · exact hsec.2.2.2 j h hjt hcj
          · rw [h] at hcj; exact absurd hcj hc

theorem isTopAmong_unique (inp : FinalizeInput) (n t u : Nat)
    (ht : isTopAmong inp n t) (hu : isTopAmong inp n u) : t = u := by
  have h1 := ht.2.2 u hu.1 hu.2.1
  have h2 := hu.2.2 t ht.1 ht.2.1
  unfold beats at h1 h2
  omega

theorem isSecondAmong_unique (inp : FinalizeInput) (n t b c : Nat)
    (hb : isSecondAmong inp n t b) (hc : isSecondAmong inp n t c) : b = c := by
  have h1 := hb.2.2.2 c hc.1 hc.2.1 hc.2.2.1
  have h2 := hc.2.2.2 b hb.1 hb.2.1 hb.2.2.1
  unfold beats at h1 h2
  omega

/-! ## C14 -/

/-- C14: for every pixel whose backdrop has priority 32 and whose contributing samples
(window-enabled, not transparent) have priorities in 0..3, after composition in the order
OBJ, BG0, BG1, BG2, BG3 from top = bottom = backdrop: top is the contributing sample that
wins against all others (smaller priority value, ties to the earlier one), bottom is the
one that wins against all others but top; such samples exist when one resp. two samples
contribute; the backdrop is top exactly when no sample contributes and bottom exactly
when at most one does. -/
theorem C14_composite_top_two (inp : FinalizeInput) (hbd : inp.backdropFlags.x = 32)
    (hprio : ∀ k, k < 5 → contributes inp k → samplePriority inp k ≤ 3) :
    (∀ t, isTopAmong inp 5 t →
      (compositeUpTo inp 5).topPixel = (layerSample inp t).2.1 ∧
      (compositeUpTo inp 5).topFlags = (layerSample inp t).2.2) ∧
    (∀ t b, isTopAmong inp 5 t → isSecondAmong inp 5 t b →
      (compositeUpTo inp 5).bottomPixel = (layerSample inp b).2.1 ∧
      (compositeUpTo inp 5).bottomFlags = (layerSample inp b).2.2) ∧
    ((∃ k, k < 5 ∧ contributes inp k) → ∃ t, isTopAmong inp 5 t) ∧
    ((∃ j k, j < 5 ∧ k < 5 ∧ j ≠ k ∧ contributes inp j ∧ contributes inp k) →
      ∃ t b, isTopAmong inp 5 t ∧ isSecondAmong inp 5 t b) ∧
    ((∀ k, k < 5 → ¬ contributes inp k) →
      (compositeUpTo inp 5).topPixel = inp.backdrop ∧
      (compositeUpTo inp 5).topFlags = inp.backdropFlags) ∧
    ((∀ j k, j < 5 → k < 5 → contributes inp j → contributes inp k → j = k) →
      (compositeUpTo inp 5).bottomPixel = inp.backdrop ∧
      (compositeUpTo inp 5).bottomFlags = inp.backdropFlags) ∧
    ((compositeUpTo inp 5).topFlags.x = 32 → ∀ k, k < 5 → ¬ contributes inp k) ∧
    ((compositeUpTo inp 5).bottomFlags.x = 32 →
      ∀ j k, j < 5 → k < 5 → contributes inp j → contributes inp k → j = k) := by
  have hp : ∀ k, k < 5 → contributes inp k → samplePriority inp k < inp.backdropFlags.x := by
    intro k hk hc
    have := hprio k hk hc
    omega
  rcases compositeUpTo_shape inp 5 hp 5 (le_refl 5) with
    ⟨hnone, hinit⟩ | ⟨t0, htop, honly, e1, e2, e3, e4⟩ | ⟨t0, b0, htop, hsec, e1, e2, e3, e4⟩
  · -- no sample contributes
    have hi : compositeUpTo inp 0 =
        { topPixel := inp.backdrop, topFlags := inp.backdropFlags,
          bottomPixel := inp.backdrop, bottomFlags := inp.backdropFlags } := rfl
    rw [hinit, hi]
    refine ⟨?_, ?_, ?_, ?_, ?_, ?_, ?_, ?_⟩
    · intro t ht; exact absurd ht.2.1 (hnone t ht.1)
    · intro t b ht; exact absurd ht.2.1 (hnone t ht.1)
    · rintro ⟨k, hk, hc⟩; exact absurd hc (hnone k hk)
    · rintro ⟨j, k, hj, _, _, hc, _⟩; exact absurd hc (hnone j hj)
    · intro _; exact ⟨rfl, rfl⟩
    · intro _; exact ⟨rfl, rfl⟩
    · intro _; exact hnone
    · intro _ j k hj _ hc; exact absurd hc (hnone j hj)
  · -- exactly one sample contributes
    have hpt := hprio t0 htop.1 htop.2.1
    unfold samplePriority at hpt
    refine ⟨?_, ?_, ?_, ?_, ?_, ?_, ?_, ?_⟩
    · intro t ht
      rw [isTopAmong_unique inp 5 t t0 ht htop]
      exact ⟨e1, e2⟩
    · intro t b ht hb
      have h1 := honly b hb.1 hb.2.2.1
      have h2 := honly t ht.1 ht.2.1
      exact absurd (h1.trans h2.symm) hb.2.1
    · intro _; exact ⟨t0, htop⟩
    · rintro ⟨j, k, hj, hk, hjk, hcj, hck⟩
      exact absurd ((honly j hj hcj).trans (honly k hk hck).symm) hjk
    · intro hnone; exact absurd htop.2.1 (hnone t0 htop.1)
    · intro _; exact ⟨e3, e4⟩
    · intro h
      rw [e2] at h
      omega
    · intro _ j k hj hk hcj hck
      exact (honly j hj hcj).trans (honly k hk hck).symm
  · -- at least two samples contribute
    have hpt := hprio t0 htop.1 htop.2.1
    have hpb := hprio b0 hsec.1 hsec.2.2.1
    unfold samplePriority at hpt hpb
    refine ⟨?_, ?_, ?_, ?_, ?_, ?_, ?_, ?_⟩
    · intro t ht
      rw [isTopAmong_unique inp 5 t t0 ht htop]
      exact ⟨e1, e2⟩
    · intro t b ht hb
      have ht0 := isTopAmong_unique inp 5 t t0 ht htop
      rw [ht0] at hb
      rw [isSecondAmong_unique inp 5 t0 b b0 hb hsec]
      exact ⟨e3, e4⟩
    · intro _; exact ⟨t0, htop⟩
    · intro _; exact ⟨t0, b0, htop, hsec⟩
    · intro hnone; exact absurd htop.2.1 (hnone t0 htop.1)
    · intro hone
      exact absurd (hone b0 t0 hsec.1 htop.1 hsec.2.2.1 htop.2.1) hsec.2.1
    · intro h
      rw [e2] at h
      omega
    · intro h
      rw [e4] at h
      omega

/-- C14 at a pixel with object priority 2, backgrounds 0 and 1 of priority 1 and a
transparent background 2: background 0 is top and background 1 bottom. -/
theorem C14_composite_top_two_witness :
    compositeDemo.backdropFlags.x = 32 ∧
    (∀ k, k < 5 → contributes compositeDemo k → samplePriority compositeDemo k ≤ 3) ∧
    isTopAmong compositeDemo 5 1 ∧ isSecondAmong compositeDemo 5 1 2 ∧
    (compositeUpTo compositeDemo 5).topPixel = { x := 0, y := 1, z := 0, w := 1 } ∧
    (compositeUpTo compositeDemo 5).bottomPixel = { x := 0, y := 0, z := 1, w := 1 } := by
  have hbd : compositeDemo.backdropFlags.x = 32 := rfl
  have hcon : ∀ k, k < 5 → (contributes compositeDemo k ↔ k < 3) := by
    intro k hk
    interval_cases k <;> simp [contributes, layerSample, compositeDemo]
  have hprio : ∀ k, k < 5 → contributes compositeDemo k → samplePriority compositeDemo k ≤ 3 := by
    intro k hk _
    interval_cases k <;> simp [samplePriority, layerSample, compositeDemo]
  have hbeat : ∀ j, j < 5 → contributes compositeDemo j → beats compositeDemo 1 j ∧
      (j ≠ 1 → beats compositeDemo 2 j) := by
    intro j hj hc
    have := (hcon j hj).mp hc
    interval_cases j <;> simp [beats, samplePriority, layerSample, compositeDemo]
  have htop : isTopAmong compositeDemo 5 1 :=
    ⟨by decide, (hcon 1 (by decide)).mpr (by decide), fun j hj hc => (hbeat j hj hc).1⟩
  have hsec : isSecondAmong compositeDemo 5 1 2 :=
    ⟨by decide, by decide, (hcon 2 (by decide)).mpr (by decide),
      fun j hj hj1 hc => (hbeat j hj hc).2 hj1⟩
  obtain ⟨h1, h2, -⟩ := C14_composite_top_two compositeDemo hbd hprio
  exact ⟨hbd, hprio, htop, hsec, (h1 1 htop).1.trans (by simp [layerSample, compositeDemo]),
    (h2 1 2 htop hsec).1.trans (by simp [layerSample, compositeDemo])⟩

/-! ## The enable latches -/

theorem writeSwitch_enabled (s : GBAVideoGLRenderer) (a v : Nat) (j : Fin 4) :
    ((writeSwitch s a v).1.bg j).enabled = (s.bg j).enabled := by
  fin_cases j <;>
    simp only [writeSwitch, apply_ite Prod.fst, apply_ite GBAVideoGLRenderer.bg, setBg, setWin,
      GBAVideoGLRendererWriteBGX_LO, GBAVideoGLRendererWriteBGX_HI,
      GBAVideoGLRendererWriteBGY_LO, GBAVideoGLRendererWriteBGY_HI, ite_apply,
      apply_ite GBAVideoGLBackground.enabled, ite_self] <;>
    simp

theorem wvr_enabled (s : GBAVideoGLRenderer) (a v : Nat) (j : Fin 4) :
    ((GBAVideoGLRendererWriteVideoRegister s a v).1.bg j).enabled = (s.bg j).enabled := by
  rw [wvr_bg]
  exact writeSwitch_enabled s a v j

theorem enableBg_enabled_other (s : GBAVideoGLRenderer) (i j : Fin 4) (act : Bool) (h : j ≠ i) :
    (_enableBg s i act).bg j = s.bg j := by
  simp only [_enableBg, setBg, apply_ite GBAVideoGLRenderer.bg, ite_apply, if_neg h, ite_self]

theorem enableBg_enabled_self (s : GBAVideoGLRenderer) (i : Fin 4) (act : Bool)
    (h : (s.bg i).enabled = 0 ∨ (s.bg i).enabled = 4) :
    ((_enableBg s i act).bg i).enabled = if act then 4 else 0 := by
  cases act
  · simp [_enableBg, setBg]
  · rcases h with h | h <;> simp [_enableBg, setBg, h]

/-- `GBAVideoGLRendererUpdateDISPCNT` brings every latch in range in line with its bit. -/
theorem updateDISPCNT_enabled (s : GBAVideoGLRenderer) (h : latchInRange s) :
    latchSynced (GBAVideoGLRendererUpdateDISPCNT s) := by
  intro i
  rw [(updateDISPCNT_dispcnt s).1]
  unfold GBAVideoGLRendererUpdateDISPCNT latchOf
  simp only [(enableBg_dispcnt _ _ _).1]
  fin_cases i
  · show ((_enableBg (_enableBg (_enableBg (_enableBg s 0 _) 1 _) 2 _) 3 _).bg 0).enabled = _
    rw [enableBg_enabled_other _ 3 0 _ (by decide), enableBg_enabled_other _ 2 0 _ (by decide),
      enableBg_enabled_other _ 1 0 _ (by decide), enableBg_enabled_self _ 0 _ (h 0)]
    rfl
  · show ((_enableBg (_enableBg (_enableBg (_enableBg s 0 _) 1 _) 2 _) 3 _).bg 1).enabled = _
    rw [enableBg_enabled_other _ 3 1 _ (by decide), enableBg_enabled_other _ 2 1 _ (by decide),
      enableBg_enabled_self _ 1 _ (by rw [enableBg_enabled_other _ 0 1 _ (by decide)]; exact h 1)]
    rfl
  · show ((_enableBg (_enableBg (_enableBg (_enableBg s 0 _) 1 _) 2 _) 3 _).bg 2).enabled = _
    rw [enableBg_enabled_other _ 3 2 _ (by decide),
      enableBg_enabled_self _ 2 _ (by
        rw [enableBg_enabled_other _ 1 2 _ (by decide), enableBg_enabled_other _ 0 2 _ (by decide)]
        exact h 2)]
    rfl
  · show ((_enableBg (_enableBg (_enableBg (_enableBg s 0 _) 1 _) 2 _) 3 _).bg 3).enabled = _
    rw [enableBg_enabled_self _ 3 _ (by
        rw [enableBg_enabled_other _ 2 3 _ (by decide), enableBg_enabled_other _ 1 3 _ (by decide),
          enableBg_enabled_other _ 0 3 _ (by decide)]
        exact h 3)]
    rfl

theorem latchSynced_inRange (s : GBAVideoGLRenderer) (h : latchSynced s) : latchInRange s := by
  intro i
  rw [h i]
  unfold latchOf
  split_ifs
  · exact Or.inr rfl
  · exact Or.inl rfl

theorem cleanRegister_enabled_other (t : GBAVideoGLRenderer) (i v : Nat) (hi : i ≠ 0) (j : Fin 4) :
    ((_cleanRegister t (i <<< 1) v).bg j).enabled = (t.bg j).enabled := by
  have h : i <<< 1 ≠ REG_DISPCNT := by
    rw [Nat.shiftLeft_eq]; unfold REG_DISPCNT; omega
  unfold _cleanRegister
  rw [if_neg h]
  fin_cases j <;>
    simp only [setBg, setWin, GBAVideoGLRendererWriteBLDCNT, GBAVideoGLRendererWriteBGCNT,
      apply_ite GBAVideoGLRenderer.bg, ite_apply, apply_ite GBAVideoGLBackground.enabled,
      ite_self] <;>
    simp

theorem cleanRegister_synced_self (t : GBAVideoGLRenderer) (v : Nat) (h : latchInRange t) :
    latchSynced (_cleanRegister t (0 <<< 1) v) := by
  have e : (0 <<< 1 : Nat) = REG_DISPCNT := by decide
  unfold _cleanRegister
  rw [if_pos e]
  exact updateDISPCNT_enabled _ h

/-- The latches and `dispcnt` after the clean loop of a scanline call. -/
theorem cleanLoop_latch (s : GBAVideoGLRenderer) (h : latchInRange s) :
    (s.regsDirty.testBit 0 = true → latchSynced (cleanLoop s (List.range 0x30))) ∧
    (s.regsDirty.testBit 0 = false →
      (cleanLoop s (List.range 0x30)).dispcnt = s.dispcnt ∧
      ∀ j, ((cleanLoop s (List.range 0x30)).bg j).enabled = (s.bg j).enabled) := by
  have e : List.range 0x30 = 0 :: List.range' 1 47 := by decide
  have hrest : ∀ (t : GBAVideoGLRenderer) (j : Fin 4),
      ((cleanLoop t (List.range' 1 47)).bg j).enabled = (t.bg j).enabled := by
    intro t j
    apply cleanLoop_preserves (fun u => (u.bg j).enabled)
    intro u i v hi
    apply cleanRegister_enabled_other
    intro h0
    rw [h0] at hi
    revert hi
    decide
  have hrestd : ∀ (t : GBAVideoGLRenderer),
      (cleanLoop t (List.range' 1 47)).dispcnt = t.dispcnt := by
    intro t
    apply cleanLoop_preserves GBAVideoGLRenderer.dispcnt
    intro u i v hi
    apply cleanRegister_dispcnt_other
    intro h0
    rw [h0] at hi
    revert hi
    decide
  rw [e, cleanLoop_cons]
  constructor
  · intro hd
    rw [if_pos hd]
    intro j
    rw [hrest, hrestd]
    exact cleanRegister_synced_self s _ h j
  · intro hd
    have : ¬ (s.regsDirty.testBit 0 = true) := by rw [hd]; decide
    rw [if_neg this]
    exact ⟨hrestd s, fun j => hrest s j⟩

theorem captureHistory_enabled (c : GBAVideoGLRenderer) (y : Nat) (j : Fin 4) :
    ((captureHistory c y).bg j).enabled = (c.bg j).enabled ∧
    (captureHistory c y).dispcnt = c.dispcnt := by
  fin_cases j <;> simp [captureHistory]

theorem advanceAffine_enabled (u : GBAVideoGLRenderer) (j : Fin 4) :
    ((advanceAffine u).bg j).enabled = (u.bg j).enabled ∧ (advanceAffine u).dispcnt = u.dispcnt := by
  unfold advanceAffine
  by_cases hm : GBARegisterDISPCNTGetMode u.dispcnt ≠ 0
  · fin_cases j <;> simp [hm]
  · simp [hm]

/-- The latches and `dispcnt` after a scanline call, in terms of the clean loop. -/
theorem drawScanline_latch_eq (s : GBAVideoGLRenderer) (y : Nat) (j : Fin 4) :
    ((GBAVideoGLRendererDrawScanline s y).bg j).enabled =
      ((cleanLoop (openBatch (flushIfDirty (updateFirstAffine s y) y) y) (List.range 0x30)).bg j).enabled ∧
    (GBAVideoGLRendererDrawScanline s y).dispcnt =
      (cleanLoop (openBatch (flushIfDirty (updateFirstAffine s y) y) y) (List.range 0x30)).dispcnt := by
  unfold GBAVideoGLRendererDrawScanline
  simp only []
  obtain ⟨a1, a2⟩ := advanceAffine_enabled (cleanOam (uploadVram (snapshotPalette (captureHistory
    (cleanRegisters (openBatch (flushIfDirty (updateFirstAffine s y) y) y)) y)) y)) j
  obtain ⟨p1, p2⟩ := post_fields (captureHistory
    (cleanRegisters (openBatch (flushIfDirty (updateFirstAffine s y) y) y)) y) y
  obtain ⟨c1, c2⟩ := captureHistory_enabled
    (cleanRegisters (openBatch (flushIfDirty (updateFirstAffine s y) y) y)) y j
  rw [a1, a2, p1, p2, c1, c2]
  exact ⟨rfl, rfl⟩

/-- A scanline call keeps the latches in range; it brings them in line with `dispcnt`
when DISPCNT is dirty and leaves latches and `dispcnt` alone otherwise. -/
theorem drawScanline_latch (s : GBAVideoGLRenderer) (y : Nat) (h : latchInRange s) :
    (s.regsDirty.testBit 0 = true → latchSynced (GBAVideoGLRendererDrawScanline s y)) ∧
    (s.regsDirty.testBit 0 = false →
      (GBAVideoGLRendererDrawScanline s y).dispcnt = s.dispcnt ∧
      ∀ j, ((GBAVideoGLRendererDrawScanline s y).bg j).enabled = (s.bg j).enabled) := by
  obtain ⟨h1, _, h3, _, h5⟩ := entry_fields s y
  have hr : latchInRange (openBatch (flushIfDirty (updateFirstAffine s y) y) y) := by
    intro j; rw [h5]; exact h j
  obtain ⟨k1, k2⟩ := cleanLoop_latch _ hr
  rw [h1] at k1 k2
  constructor
  · intro hd j
    rw [(drawScanline_latch_eq s y j).1, (drawScanline_latch_eq s y j).2]
    exact k1 hd j
  · intro hd
    obtain ⟨m1, m2⟩ := k2 hd
    refine ⟨?_, fun j => ?_⟩
    · rw [(drawScanline_latch_eq s y 0).2, m1, h3]
    · rw [(drawScanline_latch_eq s y j).1, m2 j, h5]

theorem finishFrame_enabled (s : GBAVideoGLRenderer) (j : Fin 4) :
    ((GBAVideoGLRendererFinishFrame s).bg j).enabled = (s.bg j).enabled ∧
    (GBAVideoGLRendererFinishFrame s).dispcnt = s.dispcnt := by
  fin_cases j <;> simp [GBAVideoGLRendererFinishFrame, _drawScanlines]

/-- One call other than `reset` keeps the latches in range and keeps them in line with
`dispcnt` when they were; when `dispcnt` changes they are in line afterwards. -/
theorem step_latch (s : GBAVideoGLRenderer) (o : Op) (h : latchInRange s) :
    latchInRange (step s o) ∧ (latchSynced s → latchSynced (step s o)) ∧
    ((s.dispcnt ≠ 0x0080 → latchSynced s) → (step s o).dispcnt ≠ 0x0080 → latchSynced (step s o)) := by
  cases o with
  | write a v =>
    have hd : (step s (Op.write a v)).dispcnt = s.dispcnt := (wvr_dispcnt s a v).1
    have he : ∀ j, ((step s (Op.write a v)).bg j).enabled = (s.bg j).enabled :=
      fun j => wvr_enabled s a v j
    refine ⟨fun j => by rw [he]; exact h j, fun hs j => by rw [he, hd]; exact hs j, ?_⟩
    intro hs hne j
    rw [hd] at hne
    rw [he, hd]
    exact hs hne j
  | draw y =>
    obtain ⟨k1, k2⟩ := drawScanline_latch s y h
    cases hb : s.regsDirty.testBit 0
    · obtain ⟨m1, m2⟩ := k2 hb
      have hd : (step s (Op.draw y)).dispcnt = s.dispcnt := m1
      have he : ∀ j, ((step s (Op.draw y)).bg j).enabled = (s.bg j).enabled := m2
      refine ⟨fun j => by rw [he]; exact h j, fun hs j => by rw [he, hd]; exact hs j, ?_⟩
      intro hs hne j
      rw [hd] at hne
      rw [he, hd]
      exact hs hne j
    · have hs : latchSynced (step s (Op.draw y)) := k1 hb
      exact ⟨latchSynced_inRange _ hs, fun _ => hs, fun _ _ => hs⟩
  | finish =>
    have hd : (step s Op.finish).dispcnt = s.dispcnt := (finishFrame_enabled s 0).2
    have he : ∀ j, ((step s Op.finish).bg j).enabled = (s.bg j).enabled :=
      fun j => (finishFrame_enabled s j).1
    refine ⟨fun j => by rw [he]; exact h j, fun hs j => by rw [he, hd]; exact hs j, ?_⟩
    intro hs hne j
    rw [hd] at hne
    rw [he, hd]
    exact hs hne j

theorem init_latch (s0 : GBAVideoGLRenderer) : latchSynced (GBAVideoGLRendererInit s0) := by
  intro j
  simp [GBAVideoGLRendererInit, GBAVideoGLRendererReset, latchOf]
  have : (128 : Nat).testBit (8 + j.val) = false := by
    fin_cases j <;> decide
  simp [this]

/-- The latch invariant of runs from `init`. -/
theorem runCalls_latch (s0 : GBAVideoGLRenderer) (calls : List Call) :
    latchInRange (runCalls s0 calls) ∧
    ((runCalls s0 calls).dispcnt ≠ 0x0080 → latchSynced (runCalls s0 calls)) ∧
    ((∀ c, c ∈ calls → c ≠ Call.reset) → latchSynced (runCalls s0 calls)) := by
  induction calls using List.reverseRecOn with
  | nil =>
    have h := init_latch s0
    exact ⟨latchSynced_inRange _ h, fun _ => h, fun _ => h⟩
  | append_singleton l c ih =>
    obtain ⟨i1, i2, i3⟩ := ih
    have e : runCalls s0 (l ++ [c]) = callStep (runCalls s0 l) c := by
      unfold runCalls
      rw [List.foldl_append]
      rfl
    rw [e]
    cases c with
    | reset =>
      refine ⟨fun j => i1 j, fun hne => absurd rfl hne, fun hno => ?_⟩
      exact absurd rfl (hno Call.reset (by simp))
    | op o =>
      obtain ⟨s1, s2, s3⟩ := step_latch (runCalls s0 l) o i1
      refine ⟨s1, s3 i2, fun hno => s2 (i3 ?_)⟩
      intro c hc
      exact hno c (by simp [hc])

/-! ## C18 -/

/-- C18 as stated fails: after `init`, DISPCNT = 0x0100, a scanline and `reset`, the latch
of background 0 is still 4 although bit 8 of the effective `dispcnt` (0x0080) is clear. -/
theorem C18_counterexample :
    ((runCalls zeroRenderer
      [Call.op (Op.write REG_DISPCNT 0x0100), Call.op (Op.draw 0), Call.reset]).bg 0).enabled = 4 ∧
    (runCalls zeroRenderer
      [Call.op (Op.write REG_DISPCNT 0x0100), Call.op (Op.draw 0), Call.reset]).dispcnt = 0x0080 ∧
    (runCalls zeroRenderer
      [Call.op (Op.write REG_DISPCNT 0x0100), Call.op (Op.draw 0), Call.reset]).dispcnt.testBit 8
        = false := by
  refine ⟨by decide, by decide, by decide⟩

/-- C18 (amended): in every state reachable from `init` through any sequence of `reset`,
`writeVideoRegister`, `drawScanline` and `finishFrame` calls every enable latch is 0 or
4; whenever the effective `dispcnt` differs from the reset value 0x0080, or no `reset`
was called since `init`, the latch of background `i` is 4 if bit `8 + i` of `dispcnt` is
set and 0 otherwise, and the layer-enabled test holds exactly when that bit is set and
`disableBG[i]` is false. (`reset` sets `dispcnt` to 0x0080 and leaves the latches as
they were.) -/
theorem C18_enable_latch (s0 : GBAVideoGLRenderer) (calls : List Call) :
    (∀ i : Fin 4, ((runCalls s0 calls).bg i).enabled = 0 ∨ ((runCalls s0 calls).bg i).enabled = 4) ∧
    (((runCalls s0 calls).dispcnt ≠ 0x0080 ∨ ∀ c, c ∈ calls → c ≠ Call.reset) →
      ∀ i : Fin 4,
        ((runCalls s0 calls).bg i).enabled =
          (if (runCalls s0 calls).dispcnt.testBit (8 + i.val) then 4 else 0) ∧
        (TEST_LAYER_ENABLED (runCalls s0 calls) i = true ↔
          ((runCalls s0 calls).dispcnt.testBit (8 + i.val) = true ∧
            (runCalls s0 calls).disableBG i = false))) := by
  obtain ⟨r1, r2, r3⟩ := runCalls_latch s0 calls
  refine ⟨r1, ?_⟩
  intro h i
  have hs : latchSynced (runCalls s0 calls) := by
    rcases h with h | h
    · exact r2 h
    · exact r3 h
  have he := hs i
  unfold latchOf at he
  refine ⟨he, ?_⟩
  unfold TEST_LAYER_ENABLED
  rw [he]
  cases hb : (runCalls s0 calls).dispcnt.testBit (8 + i.val) <;>
    cases hd : (runCalls s0 calls).disableBG i <;> simp

/-- C18 (amended) after `init`, DISPCNT = 0x0100 and a scanline: `dispcnt` is 0x0100 and
the latch of background 0 follows bit 8. -/
theorem C18_enable_latch_witness :
    (runCalls zeroRenderer [Call.op (Op.write REG_DISPCNT 0x0100), Call.op (Op.draw 0)]).dispcnt
      ≠ 0x0080 ∧
    ((runCalls zeroRenderer [Call.op (Op.write REG_DISPCNT 0x0100), Call.op (Op.draw 0)]).bg 0).enabled
      = (if (runCalls zeroRenderer
          [Call.op (Op.write REG_DISPCNT 0x0100), Call.op (Op.draw 0)]).dispcnt.testBit
            (8 + (0 : Fin 4).val) then 4 else 0) ∧
    ((runCalls zeroRenderer [Call.op (Op.write REG_DISPCNT 0x0100), Call.op (Op.draw 0)]).bg 0).enabled
      = 4 :=
  ⟨by decide,
    ((C18_enable_latch zeroRenderer
      [Call.op (Op.write REG_DISPCNT 0x0100), Call.op (Op.draw 0)]).2 (Or.inl (by decide)) 0).1,
    by decide⟩

/-! ## C25 -/

/-- C25: for every batch `firstY .. y` with `0 <= firstY <= y`, with the object plane
enabled, and every cleaned sprite with `endY = y + height`, `height > 0`, the flush
issues an object draw for the sprite if and only if some row of the batch is a row of the
sprite (`sy <= r < endY`, or `r < endY - 256` for the wrapped part); the skip condition
is false in exactly that case. -/
theorem C25_sprite_drawn_iff_rows_meet (renderer : GBAVideoGLRenderer)
    (sprites : List GBAVideoRendererSprite) (y : Int) (sprite : GBAVideoRendererSprite)
    (height : Int)
    (hobj : GBARegisterDISPCNTIsObjEnable renderer.dispcnt = true)
    (hdis : renderer.disableOBJ = false)
    (hf : 0 ≤ renderer.firstY) (hfy : renderer.firstY ≤ y) (hmem : sprite ∈ sprites)
    (hh : 0 < height) (hend : sprite.endY = sprite.y + height) :
    (sprite ∈ objDraws renderer sprites y ↔
      ∃ r, renderer.firstY ≤ r ∧ r ≤ y ∧ spriteOnRow sprite r) ∧
    (spriteSkipped renderer.firstY y sprite = false ↔
      ∃ r, renderer.firstY ≤ r ∧ r ≤ y ∧ spriteOnRow sprite r) := by
  have key : spriteSkipped renderer.firstY y sprite = false ↔
      ∃ r, renderer.firstY ≤ r ∧ r ≤ y ∧ spriteOnRow sprite r := by
    unfold spriteSkipped spriteOnRow
    simp only [Bool.or_eq_false_iff, Bool.and_eq_false_iff, decide_eq_false_iff_not,
      Bool.or_eq_true, decide_eq_true_eq, not_or, not_lt, ge_iff_le, not_le]
    constructor
    · rintro ⟨h1, h2⟩
      by_cases hw : renderer.firstY < sprite.endY - 256
      · exact ⟨renderer.firstY, le_refl _, hfy, Or.inr hw⟩
      · have hy : sprite.y ≤ y := by
          rcases h1 with h | ⟨_, h⟩
          · exact h
          · exact absurd h hw
        refine ⟨max renderer.firstY sprite.y, le_max_left _ _, max_le hfy hy, Or.inl ?_⟩
        refine ⟨le_max_right _ _, max_lt h2 ?_⟩
        omega
    · rintro ⟨r, hr1, hr2, h | h⟩
      · exact ⟨Or.inl (by omega), by omega⟩
      · exact ⟨Or.inr ⟨by omega, by omega⟩, by omega⟩
  refine ⟨?_, key⟩
  rw [← key]
  unfold objDraws
  simp [hobj, hdis, hmem]

/-- C25 for the batch of rows 10..20 and a sprite of height 16 starting at row 250: it
wraps to rows 0..9 and is skipped; a sprite of height 32 starting at row 250 reaches
row 25 and is drawn. -/
theorem C25_sprite_drawn_iff_rows_meet_witness :
    ({ obj := 1, y := 250, endY := 282 } ∈
        objDraws { zeroRenderer with dispcnt := 0x1000, firstY := 10 }
          [{ obj := 0, y := 250, endY := 266 }, { obj := 1, y := 250, endY := 282 }] 20 ↔
      ∃ r, (10 : Int) ≤ r ∧ r ≤ 20 ∧
        spriteOnRow { obj := 1, y := 250, endY := 282 } r) ∧
    objDraws { zeroRenderer with dispcnt := 0x1000, firstY := 10 }
      [{ obj := 0, y := 250, endY := 266 }, { obj := 1, y := 250, endY := 282 }] 20 =
      [{ obj := 1, y := 250, endY := 282 }] :=
  ⟨(C25_sprite_drawn_iff_rows_meet { zeroRenderer with dispcnt := 0x1000, firstY := 10 }
      [{ obj := 0, y := 250, endY := 266 }, { obj := 1, y := 250, endY := 282 }] 20
      { obj := 1, y := 250, endY := 282 } 32 (by decide) (by decide) (by decide) (by decide)
      (by decide) (by decide) (by decide)).1,
    by decide⟩

/-! ## C26 -/

theorem and_255 (x : Nat) : x &&& 255 = x % 256 := Nat.and_pow_two_sub_one_eq_mod x 8

theorem and_511 (x : Nat) : x &&& 511 = x % 512 := Nat.and_pow_two_sub_one_eq_mod x 9

theorem and_256 (x : Nat) : x &&& 256 = (x / 256 % 2) * 256 := by
  have h := Nat.and_two_pow x 8
  rw [Nat.toNat_testBit] at h
  exact h

/-- C26: for every size code `s` in 0..3 and every scrolled coordinate `(x, y)`, the
tile-map address of the mode 0 shader is
`screenBase + 0x400 * block + 32 * ((y mod 256) >> 3) + ((x mod 256) >> 3)`, where the map
is `W x H` with `W = 512` if `s & 1` else 256 and `H = 512` if `s & 2` else 256, `x` and
`y` are first reduced modulo `W` and `H`, and `block = (x div 256) + (y div 256) * (W div 256)`. -/
theorem C26_mode0_map_address (screenBase s x y : Nat) (hs : s < 4) :
    Mode0.mapAddress screenBase s { x := x, y := y } =
      screenBase + 0x400 * screenBlock s x y + 32 * (((y % mapHeight s) % 256) >>> 3) +
        (((x % mapWidth s) % 256) >>> 3) ∧
    mapWidth s = (if s &&& 1 ≠ 0 then 512 else 256) ∧
    mapHeight s = (if s &&& 2 ≠ 0 then 512 else 256) ∧
    screenBlock s x y = (x % mapWidth s) / 256 + ((y % mapHeight s) / 256) * (mapWidth s / 256) := by
  refine ⟨?_, rfl, rfl, rfl⟩
  unfold Mode0.mapAddress screenBlock mapWidth mapHeight
  interval_cases s <;>
    simp only [show (0 &&& 1 : Nat) = 0 from rfl, show (0 &&& 2 : Nat) = 0 from rfl,
      show (1 &&& 1 : Nat) = 1 from rfl, show (1 &&& 2 : Nat) = 0 from rfl,
      show (2 &&& 1 : Nat) = 0 from rfl, show (2 &&& 2 : Nat) = 2 from rfl,
      show (3 &&& 1 : Nat) = 1 from rfl, show (3 &&& 2 : Nat) = 2 from rfl,
      if_true, if_false, ne_eq, not_true_eq_false, not_false_eq_true,
      and_255, and_511, and_256, Nat.shiftRight_eq_div_pow,
      show (0 : Nat) = 1 ↔ False from by decide, show (0 : Nat) = 2 ↔ False from by decide,
      show (1 : Nat) = 0 ↔ False from by decide, show (2 : Nat) = 0 ↔ False from by decide] <;>
    omega

/-- C26 for size code 3 at the scrolled coordinate (300, 260): block 3, address
`screenBase + 0xC00 + 5`. -/
theorem C26_mode0_map_address_witness :
    Mode0.mapAddress 0x800 3 { x := 300, y := 260 } =
      0x800 + 0x400 * screenBlock 3 300 260 + 32 * (((260 % mapHeight 3) % 256) >>> 3) +
        (((300 % mapWidth 3) % 256) >>> 3) ∧
    Mode0.mapAddress 0x800 3 { x := 300, y := 260 } = 0x800 + 0xC00 + 5 :=
  ⟨(C26_mode0_map_address 0x800 3 300 260 (by decide)).1, by decide⟩

/-! ## C27 -/

/-- C27 fails in the code: `_prepareBackground` passes the vertical mosaic size as
`mosaic.x` and the horizontal one as `mosaic.y`, so for a background with its mosaic
flag set the mode 0 draw snaps the coordinate to
`(x - x mod (V + 1), y - y mod (H + 1))`; with MOSAIC = 0x0003 (`H = 3`, `V = 0`) the
pixel (5, 5) is sampled at (5, 4), not at (4, 5). With the flag clear the coordinate is
unchanged. -/
theorem C27_mosaic_axes_swapped (renderer : GBAVideoGLRenderer)
    (background : GBAVideoGLBackground) (texCoord : Vec2) :
    GBAVideoGLRendererDrawBackgroundMode0 renderer background texCoord =
      (if background.mosaic ≠ 0 then
        { x := (truncToInt texCoord.x).toNat -
            (truncToInt texCoord.x).toNat % (GBAMosaicControlGetBgV renderer.mosaic + 1)
          y := (truncToInt texCoord.y).toNat -
            (truncToInt texCoord.y).toNat % (GBAMosaicControlGetBgH renderer.mosaic + 1) }
      else { x := (truncToInt texCoord.x).toNat, y := (truncToInt texCoord.y).toNat }) ∧
    GBAMosaicControlGetBgH mosaicDemo.mosaic = 3 ∧ GBAMosaicControlGetBgV mosaicDemo.mosaic = 0 ∧
    GBAVideoGLRendererDrawBackgroundMode0 mosaicDemo mosaicBackground { x := 5, y := 5 } =
      { x := 5, y := 4 } ∧
    GBAVideoGLRendererDrawBackgroundMode0 mosaicDemo mosaicBackground { x := 5, y := 5 } ≠
      { x := 5 - 5 % (GBAMosaicControlGetBgH mosaicDemo.mosaic + 1)
        y := 5 - 5 % (GBAMosaicControlGetBgV mosaicDemo.mosaic + 1) } := by
  refine ⟨?_, by decide, by decide, by decide!, by decide!⟩
  unfold GBAVideoGLRendererDrawBackgroundMode0 _prepareBackground Mode0.mosaicCoord
  by_cases hm : background.mosaic ≠ 0
  · simp only [if_pos hm]
    by_cases hv : GBAMosaicControlGetBgV renderer.mosaic + 1 > 1 <;>
    by_cases hh : GBAMosaicControlGetBgH renderer.mosaic + 1 > 1
    · simp only [if_pos hv, if_pos hh]
    · have : GBAMosaicControlGetBgH renderer.mosaic + 1 = 1 := by omega
      simp only [this, Nat.mod_one, Nat.sub_zero]
      simp
      intro h0
      omega
    · have : GBAMosaicControlGetBgV renderer.mosaic + 1 = 1 := by omega
      simp only [this, Nat.mod_one, Nat.sub_zero]
      simp
      intro h0
      omega
    · have h1 : GBAMosaicControlGetBgH renderer.mosaic + 1 = 1 := by omega
      have h2 : GBAMosaicControlGetBgV renderer.mosaic + 1 = 1 := by omega
      simp only [h1, h2, Nat.mod_one, Nat.sub_zero]
      simp
  · simp only [if_neg hm]
    simp

/-! ## C29 -/

theorem truncToInt_int (n : Int) : truncToInt (n : ℚ) = n := by
  unfold truncToInt
  split_ifs <;> simp

theorem fract_int (n : Int) : fract (n : ℚ) = 0 := by
  unfold fract
  simp

/-- C29 as stated fails: for a reference point that advances by 64 per row
(rows 0..3 hold 0, 64, 128, 192), the shader at the integer position of row 3 yields
144, not the value 192 captured for row 3. -/
theorem C29_counterexample :
    (Mode2.mixed rampDemo 0 { x := 0, y := 0 } { x := 0, y := 3 }).2.x = 144 ∧
    (rampDemo 3).z = 192 ∧
    (Mode2.mixed rampDemo 0 { x := 0, y := 0 } { x := 0, y := 3 }).2.x ≠ (rampDemo 3).z := by
  refine ⟨by decide!, by decide!, by decide!⟩

/-- C29 (amended): for every row `n >= range.x + 3` (`range.x = firstAffine`) without
vertical mosaic, at the integer vertical position `n` the Bezier parameter is 3/4 and the
interpolated matrix column and reference point are the weighted mean
`(a0 + 9 a1 + 27 a2 + 27 a3) / 64` of the values captured for rows `n - 3 .. n`; this is
the value captured for row `n` when the four captures are equal. -/
theorem C29_bezier_at_integer_row (transform : Int → Vec4) (rangeX n : Int) (mosaic : IVec2)
    (texCoord : Vec2) (hm : mosaic.y ≤ 1) (hy : texCoord.y = (n : ℚ)) (hr : rangeX + 3 ≤ n) :
    (Mode2.mixed transform rangeX mosaic texCoord).1 =
      { x := ((transform (n - 3)).x + 9 * (transform (n - 2)).x + 27 * (transform (n - 1)).x +
          27 * (transform n).x) / 64
        y := ((transform (n - 3)).y + 9 * (transform (n - 2)).y + 27 * (transform (n - 1)).y +
          27 * (transform n).y) / 64 } ∧
    (Mode2.mixed transform rangeX mosaic texCoord).2 =
      { x := ((transform (n - 3)).z + 9 * (transform (n - 2)).z + 27 * (transform (n - 1)).z +
          27 * (transform n).z) / 64
        y := ((transform (n - 3)).w + 9 * (transform (n - 2)).w + 27 * (transform (n - 1)).w +
          27 * (transform n).w) / 64 } ∧
    (transform (n - 3) = transform n → transform (n - 2) = transform n →
      transform (n - 1) = transform n →
      (Mode2.mixed transform rangeX mosaic texCoord).1 =
        { x := (transform n).x, y := (transform n).y } ∧
      (Mode2.mixed transform rangeX mosaic texCoord).2 =
        { x := (transform n).z, y := (transform n).w }) := by
  have hmy : ¬ (mosaic.y > 1) := by omega
  have hstart : max rangeX (n - 3) = n - 3 := max_eq_right (by omega)
  have e0 : n - 3 + ((0 : Fin 4).val : Int) = n - 3 := by simp
  have e1 : n - 3 + ((1 : Fin 4).val : Int) = n - 2 := by
    show n - 3 + ((1 : Nat) : Int) = n - 2
    omega
  have e2 : n - 3 + ((2 : Fin 4).val : Int) = n - 1 := by
    show n - 3 + ((2 : Nat) : Int) = n - 1
    omega
  have e3 : n - 3 + ((3 : Fin 4).val : Int) = n := by
    show n - 3 + ((3 : Nat) : Int) = n
    omega
  have main : (Mode2.mixed transform rangeX mosaic texCoord).1 =
      { x := ((transform (n - 3)).x + 9 * (transform (n - 2)).x + 27 * (transform (n - 1)).x +
          27 * (transform n).x) / 64
        y := ((transform (n - 3)).y + 9 * (transform (n - 2)).y + 27 * (transform (n - 1)).y +
          27 * (transform n).y) / 64 } ∧
    (Mode2.mixed transform rangeX mosaic texCoord).2 =
      { x := ((transform (n - 3)).z + 9 * (transform (n - 2)).z + 27 * (transform (n - 1)).z +
          27 * (transform n).z) / 64
        y := ((transform (n - 3)).w + 9 * (transform (n - 2)).w + 27 * (transform (n - 1)).w +
          27 * (transform n).w) / 64 } := by
    unfold Mode2.mixed
    by_cases hn : n - rangeX < 4
    · have h3 : n - rangeX = 3 := by omega
      have h3q : (n : ℚ) - (rangeX : ℚ) = 3 := by
        have : ((n - rangeX : Int) : ℚ) = 3 := by rw [h3]; norm_num
        push_cast at this
        exact this
      simp only [if_neg hmy, apply_ite Vec2.y, ite_self, hy, truncToInt_int, if_pos hn, h3q,
        Mode2.loadAffine, hstart, Mode2.interpolate, e0, e1, e2, e3]
      constructor
      · congr 1 <;> ring
      · congr 1 <;> ring
    · simp only [if_neg hmy, apply_ite Vec2.y, ite_self, hy, truncToInt_int, fract_int, if_neg hn,
        Mode2.loadAffine, hstart, Mode2.interpolate, e0, e1, e2, e3]
      constructor
      · congr 1 <;> ring
      · congr 1 <;> ring
  refine ⟨main.1, main.2, ?_⟩
  intro h0 h1 h2
  rw [main.1, main.2, h0, h1, h2]
  constructor
  · congr 1 <;> ring
  · congr 1 <;> ring

/-- C29 (amended) on the ramp at row 3: the interpolated reference point is
`(0 + 9 * 64 + 27 * 128 + 27 * 192) / 64 = 144`. -/
theorem C29_bezier_at_integer_row_witness :
    (Mode2.mixed rampDemo 0 { x := 0, y := 0 } { x := 0, y := 3 }).2 =
      { x := ((rampDemo (3 - 3)).z + 9 * (rampDemo (3 - 2)).z + 27 * (rampDemo (3 - 1)).z +
          27 * (rampDemo 3).z) / 64
        y := ((rampDemo (3 - 3)).w + 9 * (rampDemo (3 - 2)).w + 27 * (rampDemo (3 - 1)).w +
          27 * (rampDemo 3).w) / 64 } :=
  (C29_bezier_at_integer_row rampDemo 0 3 { x := 0, y := 0 } { x := 0, y := 3 }
    (by decide) (by norm_num) (by decide)).2.1

/-! ## The VRAM upload loop -/

theorem vramUploadScan_succ (d n : Nat) :
    vramUploadScan d (n + 1) = vramUploadStep d (vramUploadScan d n) n := by
  unfold vramUploadScan
  rw [List.range_succ, List.foldl_append]
  rfl

/-- Two maximal runs that share their end share their start. -/
theorem isDirtyRun_start (d f m g k : Nat) (h1 : isDirtyRun d f m) (h2 : isDirtyRun d g k)
    (he : f + m = g + k) : f = g := by
  obtain ⟨m0, md, ms, _⟩ := h1
  obtain ⟨k0, kd, ks, _⟩ := h2
  by_contra hne
  rcases Nat.lt_or_gt_of_ne hne with h | h
  · -- f < g: page g - 1 lies in the run from f
    have hb := md (g - 1) (by omega) (by omega)
    rcases ks with h0 | h0
    · omega
    · rw [hb] at h0; exact absurd h0 (by decide)
  · have hb := kd (f - 1) (by omega) (by omega)
    rcases ms with h0 | h0
    · omega
    · rw [hb] at h0; exact absurd h0 (by decide)

theorem scanInv_zero (d : Nat) : ScanInv d 0 (none, []) := by
  refine ⟨fun _ => Or.inl rfl, fun f h => (by cases h), ?_, List.Pairwise.nil⟩
  intro f m
  constructor
  · intro h; cases h
  · rintro ⟨_, h⟩; omega

theorem scanInv_step (d n : Nat) (acc : Option Nat × List (Nat × Nat)) (h : ScanInv d n acc) :
    ScanInv d (n + 1) (vramUploadStep d acc n) := by
  obtain ⟨hidle, hrun, hruns, hsorted⟩ := h
  unfold vramUploadStep
  cases hb : d.testBit n
  · -- page n is clean
    simp only [Bool.not_false, if_true]
    cases hc : acc.1 with
    | none =>
      simp only []
      refine ⟨fun _ => Or.inr (by simpa using hb), fun f hf => (by rw [hc] at hf; cases hf), ?_, hsorted⟩
      intro f m
      rw [hruns f m]
      constructor
      · rintro ⟨h1, h2⟩; exact ⟨h1, by omega⟩
      · rintro ⟨h1, h2⟩
        refine ⟨h1, ?_⟩
        by_contra hlt
        have he : f + m = n := by omega
        obtain ⟨m0, md, _, _⟩ := h1
        have hd := md (n - 1) (by omega) (by omega)
        rcases hidle hc with h0 | h0
        · omega
        · rw [hd] at h0; exact absurd h0 (by decide)
    | some first =>
      simp only []
      obtain ⟨hfn, hfd, hfs⟩ := hrun first hc
      have hnew : isDirtyRun d first (n - first) := by
        refine ⟨by omega, fun p hp1 hp2 => hfd p hp1 (by omega), hfs, ?_⟩
        have : first + (n - first) = n := by omega
        rw [this]; exact hb
      refine ⟨fun _ => Or.inr (by simpa using hb), fun f hf => (by cases hf), ?_, ?_⟩
      · intro f m
        rw [List.mem_append, hruns f m]
        constructor
        · rintro (⟨h1, h2⟩ | h1)
          · exact ⟨h1, by omega⟩
          · simp only [List.mem_singleton, Prod.mk.injEq] at h1
            obtain ⟨rfl, rfl⟩ := h1
            exact ⟨hnew, by omega⟩
        · rintro ⟨h1, h2⟩
          by_cases hlt : f + m < n
          · exact Or.inl ⟨h1, hlt⟩
          · right
            have he : f + m = first + (n - first) := by omega
            have hf := isDirtyRun_start d f m first (n - first) h1 hnew he
            simp only [List.mem_singleton, Prod.mk.injEq]
            exact ⟨hf, by omega⟩
      · rw [List.pairwise_append]
        refine ⟨hsorted, List.pairwise_singleton _ _, ?_⟩
        intro a ha b hb'
        simp only [List.mem_singleton] at hb'
        rw [hb']
        show a.1 + a.2 < first
        have hr := (hruns a.1 a.2).mp ha
        obtain ⟨⟨_, _, _, hclean⟩, hlt⟩ := hr
        by_contra hge
        have hd := hfd (a.1 + a.2) (by omega) hlt
        rw [hd] at hclean
        exact absurd hclean (by decide)
  · -- page n is dirty
    simp only [Bool.not_true, Bool.false_eq_true, if_false]
    have hruns' : ∀ f m, (f, m) ∈ acc.2 ↔ isDirtyRun d f m ∧ f + m < n + 1 := by
      intro f m
      rw [hruns f m]
      constructor
      · rintro ⟨h1, h2⟩; exact ⟨h1, by omega⟩
      · rintro ⟨h1, h2⟩
        refine ⟨h1, ?_⟩
        by_contra hlt
        have he : f + m = n := by omega
        obtain ⟨_, _, _, hclean⟩ := h1
        rw [he, hb] at hclean
        exact absurd hclean (by decide)
    cases hc : acc.1 with
    | none =>
      simp only []
      refine ⟨fun h => (by cases h), ?_, hruns', hsorted⟩
      intro f hf
      simp only [Option.some.injEq] at hf
      subst hf
      refine ⟨by omega, ?_, ?_⟩
      · intro p hp1 hp2
        have : p = n := by omega
        rw [this]; exact hb
      · rcases hidle hc with h0 | h0
        · exact Or.inl h0
        · exact Or.inr h0
    | some first =>
      simp only []
      refine ⟨fun h => (by rw [hc] at h; cases h), ?_, hruns', hsorted⟩
      intro f hf
      rw [hc] at hf
      simp only [Option.some.injEq] at hf
      subst hf
      obtain ⟨hfn, hfd, hfs⟩ := hrun first hc
      refine ⟨by omega, ?_, hfs⟩
      intro p hp1 hp2
      by_cases hpn : p < n
      · exact hfd p hp1 hpn
      · have : p = n := by omega
        rw [this]; exact hb

theorem scanInv_scan (d n : Nat) : ScanInv d n (vramUploadScan d n) := by
  induction n with
  | zero => exact scanInv_zero d
  | succ n ih =>
    rw [vramUploadScan_succ]
    exact scanInv_step d n _ ih

theorem testBit_of_lt_2_24 (d p : Nat) (hd : d < 2 ^ 24) (hp : 24 ≤ p) : d.testBit p = false := by
  apply Nat.testBit_lt_two_pow
  calc d < 2 ^ 24 := hd
    _ ≤ 2 ^ p := Nat.pow_le_pow_right (by decide) hp

/-- The uploads of a bitmap with bits 0..23 only are its maximal runs of dirty pages, in
increasing order. -/
theorem vramUploads_runs (d : Nat) (hd : d < 2 ^ 24) :
    (∀ f m, (f, m) ∈ vramUploads d ↔ isDirtyRun d f m) ∧
    (vramUploads d).Pairwise (fun a b => a.1 + a.2 < b.1) := by
  have h := scanInv_scan d 25
  have e : vramUploads d = (vramUploadScan d 25).2 := rfl
  rw [e]
  refine ⟨?_, h.sorted⟩
  intro f m
  rw [h.runs f m]
  constructor
  · exact fun h => h.1
  · intro hr
    refine ⟨hr, ?_⟩
    obtain ⟨m0, md, _, _⟩ := hr
    by_contra hge
    have hbit := md (f + m - 1) (by omega) (by omega)
    rw [testBit_of_lt_2_24 d _ hd (by omega)] at hbit
    exact absurd hbit (by decide)

/-- Every dirty page lies in a maximal run. -/
theorem dirty_page_in_run (d p : Nat) (hd : d < 2 ^ 24) (hp : d.testBit p = true) :
    ∃ f m, isDirtyRun d f m ∧ f ≤ p ∧ p < f + m := by
  have hup : ∃ e, p < e ∧ d.testBit e = false ∧ ∀ q, p ≤ q → q < e → d.testBit q = true := by
    have hex : ∃ e, p < e ∧ d.testBit e = false := by
      refine ⟨max 24 (p + 1), by omega, testBit_of_lt_2_24 d _ hd (by omega)⟩
    classical
    refine ⟨Nat.find hex, (Nat.find_spec hex).1, (Nat.find_spec hex).2, ?_⟩
    intro q hq1 hq2
    by_cases hqp : q = p
    · rw [hqp]; exact hp
    · have := Nat.find_min hex hq2
      simp only [not_and] at this
      have h2 := this (by omega)
      cases hq : d.testBit q
      · exact absurd hq h2
      · rfl
  have hdown : ∃ f, f ≤ p ∧ (f = 0 ∨ d.testBit (f - 1) = false) ∧
      ∀ q, f ≤ q → q ≤ p → d.testBit q = true := by
    clear hup
    induction p with
    | zero => exact ⟨0, le_refl 0, Or.inl rfl, fun q _ hq => by
        have : q = 0 := by omega
        rw [this]; exact hp⟩
    | succ p ih =>
      cases hb : d.testBit p
      · exact ⟨p + 1, le_refl _, Or.inr (by simpa using hb), fun q h1 h2 => by
          have : q = p + 1 := by omega
          rw [this]; exact hp⟩
      · obtain ⟨f, hf1, hf2, hf3⟩ := ih hb
        refine ⟨f, by omega, hf2, fun q h1 h2 => ?_⟩
        by_cases hq : q ≤ p
        · exact hf3 q h1 hq
        · have : q = p + 1 := by omega
          rw [this]; exact hp
  obtain ⟨e, he1, he2, he3⟩ := hup
  obtain ⟨f, hf1, hf2, hf3⟩ := hdown
  refine ⟨f, e - f, ⟨by omega, ?_, hf2, ?_⟩, hf1, by omega⟩
  · intro q hq1 hq2
    by_cases hqp : q ≤ p
    · exact hf3 q hq1 hqp
    · exact he3 q (by omega) (by omega)
  · have : f + (e - f) = e := by omega
    rw [this]; exact he2

/-- Two maximal runs with a common page are the same run. -/
theorem isDirtyRun_unique (d f m g k p : Nat) (h1 : isDirtyRun d f m) (h2 : isDirtyRun d g k)
    (hp1 : f ≤ p) (hp2 : p < f + m) (hq1 : g ≤ p) (hq2 : p < g + k) : f = g ∧ m = k := by
  have hend : f + m = g + k := by
    obtain ⟨_, md, _, mc⟩ := h1
    obtain ⟨_, kd, _, kc⟩ := h2
    by_contra hne
    rcases Nat.lt_or_gt_of_ne hne with h | h
    · have := kd (f + m) (by omega) h
      rw [this] at mc; exact absurd mc (by decide)
    · have := md (g + k) (by omega) h
      rw [this] at kc; exact absurd kc (by decide)
  have hs := isDirtyRun_start d f m g k h1 h2 hend
  exact ⟨hs, by omega⟩

theorem beforeUpload_fields (s : GBAVideoGLRenderer) (y : Nat) :
    (beforeUpload s y).vramDirty = s.vramDirty ∧ (beforeUpload s y).uploads = s.uploads := by
  have hK := keepsCore_cleanLoop (List.range 0x30)
    (openBatch (flushIfDirty (updateFirstAffine s y) y) y)
  have hE : (openBatch (flushIfDirty (updateFirstAffine s y) y) y).vramDirty = s.vramDirty ∧
      (openBatch (flushIfDirty (updateFirstAffine s y) y) y).uploads = s.uploads := by
    simp only [openBatch, flushIfDirty, updateFirstAffine, _drawScanlines,
      apply_ite GBAVideoGLRenderer.vramDirty, apply_ite GBAVideoGLRenderer.uploads, ite_self,
      and_self]
  have hC : (cleanRegisters (openBatch (flushIfDirty (updateFirstAffine s y) y) y)).vramDirty =
        s.vramDirty ∧
      (cleanRegisters (openBatch (flushIfDirty (updateFirstAffine s y) y) y)).uploads =
        s.uploads := by
    constructor
    · show (cleanLoop _ _).vramDirty = _
      rw [hK.vramDirty, hE.1]
    · show (cleanLoop _ _).uploads = _
      rw [hK.uploads, hE.2]
  unfold beforeUpload
  simp only [snapshotPalette, captureHistory, apply_ite GBAVideoGLRenderer.vramDirty,
    apply_ite GBAVideoGLRenderer.uploads, ite_self, hC, and_self]

/-- The scanline call after the point of the VRAM upload. -/
theorem drawScanline_upload (s : GBAVideoGLRenderer) (y : Nat) :
    (GBAVideoGLRendererDrawScanline s y).uploads = (uploadVram (beforeUpload s y) y).uploads ∧
    (GBAVideoGLRendererDrawScanline s y).vramDirty = (uploadVram (beforeUpload s y) y).vramDirty := by
  unfold GBAVideoGLRendererDrawScanline beforeUpload
  simp only [advanceAffine, cleanOam, apply_ite GBAVideoGLRenderer.uploads,
    apply_ite GBAVideoGLRenderer.vramDirty, ite_self, and_self]

theorem writeVRAM_bound (s : GBAVideoGLRenderer) (address : Nat) (hs : s.vramDirty < 2 ^ 24)
    (ha : address < 0x18000) : (GBAVideoGLRendererWriteVRAM s address).vramDirty < 2 ^ 24 := by
  unfold GBAVideoGLRendererWriteVRAM
  apply Nat.or_lt_two_pow hs
  rw [Nat.shiftLeft_eq, Nat.one_mul, Nat.shiftRight_eq_div_pow]
  apply Nat.pow_lt_pow_right (by decide)
  omega

/-! ## C28 -/

/-- C28: for every `vramDirty` with bits 0..23 only (what `reset` and `writeVRAM` with
addresses below 0x18000 produce), a scanline call that performs the VRAM upload issues
exactly the uploads `(first, count)` of the maximal runs of consecutive dirty pages, each
once and in increasing order, with `yoffset = 8 * first`, rows up to `8 * (last + 1) - 1`
and source index `2048 * first`; every dirty page lies in exactly one upload, every
uploaded page is dirty, and `vramDirty` is 0 afterwards. -/
theorem C28_vram_upload_runs (s : GBAVideoGLRenderer) (y : Nat) (hd : s.vramDirty < 2 ^ 24)
    (hup : _needsVramUpload (beforeUpload s y) y = true) :
    (GBAVideoGLRendererDrawScanline s y).uploads = s.uploads ++ vramUploads s.vramDirty ∧
    (GBAVideoGLRendererDrawScanline s y).vramDirty = 0 ∧
    (∀ first count, (first, count) ∈ vramUploads s.vramDirty ↔
      isDirtyRun s.vramDirty first count) ∧
    (vramUploads s.vramDirty).Pairwise (fun a b => a.1 + a.2 < b.1) ∧
    (∀ p, s.vramDirty.testBit p = true →
      ∃ u, u ∈ vramUploads s.vramDirty ∧ u.1 ≤ p ∧ p < u.1 + u.2 ∧
        ∀ v, v ∈ vramUploads s.vramDirty → v.1 ≤ p → p < v.1 + v.2 → v = u) ∧
    (∀ u, u ∈ vramUploads s.vramDirty → ∀ p, u.1 ≤ p → p < u.1 + u.2 →
      s.vramDirty.testBit p = true) ∧
    (∀ u, u ∈ vramUploads s.vramDirty →
      (texSubImageArgs u).1 = 8 * u.1 ∧
      (texSubImageArgs u).1 + (texSubImageArgs u).2.1 = 8 * ((u.1 + u.2 - 1) + 1) ∧
      (texSubImageArgs u).2.2 = 2048 * u.1) ∧
    (∀ address, address < 0x18000 →
      (GBAVideoGLRendererWriteVRAM s address).vramDirty < 2 ^ 24) := by
  obtain ⟨hruns, hsorted⟩ := vramUploads_runs s.vramDirty hd
  obtain ⟨b1, b2⟩ := beforeUpload_fields s y
  obtain ⟨d1, d2⟩ := drawScanline_upload s y
  refine ⟨?_, ?_, hruns, hsorted, ?_, ?_, ?_, fun a ha => writeVRAM_bound s a hd ha⟩
  · rw [d1]
    unfold uploadVram
    rw [if_pos hup]
    show (beforeUpload s y).uploads ++ vramUploads (beforeUpload s y).vramDirty = _
    rw [b1, b2]
  · rw [d2]
    unfold uploadVram
    rw [if_pos hup]
  · intro p hp
    obtain ⟨f, m, hr, h1, h2⟩ := dirty_page_in_run s.vramDirty p hd hp
    refine ⟨(f, m), (hruns f m).mpr hr, h1, h2, ?_⟩
    rintro ⟨g, k⟩ hv hv1 hv2
    have hr2 := (hruns g k).mp hv
    obtain ⟨e1, e2⟩ := isDirtyRun_unique s.vramDirty g k f m p hr2 hr hv1 hv2 h1 h2
    rw [e1, e2]
  · rintro ⟨f, m⟩ hu p h1 h2
    exact ((hruns f m).mp hu).2.1 p h1 h2
  · rintro ⟨f, m⟩ hu
    have hm := ((hruns f m).mp hu).1
    refine ⟨rfl, ?_, rfl⟩
    show 8 * f + 8 * m = 8 * ((f + m - 1) + 1)
    omega

/-- C28 for scanline 0 with pages 0, 1, 4 and 5 dirty: the uploads are `(0, 2)` and
`(4, 2)`, and `vramDirty` is 0 afterwards. -/
theorem C28_vram_upload_runs_witness :
    uploadDemo.vramDirty < 2 ^ 24 ∧ _needsVramUpload (beforeUpload uploadDemo 0) 0 = true ∧
    (GBAVideoGLRendererDrawScanline uploadDemo 0).uploads =
      uploadDemo.uploads ++ vramUploads uploadDemo.vramDirty ∧
    (GBAVideoGLRendererDrawScanline uploadDemo 0).vramDirty = 0 ∧
    vramUploads uploadDemo.vramDirty = [(0, 2), (4, 2)] :=
  ⟨by decide, by decide,
    (C28_vram_upload_runs uploadDemo 0 (by decide) (by decide)).1,
    (C28_vram_upload_runs uploadDemo 0 (by decide) (by decide)).2.1,
    by decide⟩

/-! ## Batches of a frame -/

theorem poke_cursor (s : GBAVideoGLRenderer) (p : Poke) :
    (poke s p).firstY = s.firstY ∧ (poke s p).batches = s.batches := by
  cases p with
  | reg a v => exact wvr_cursor s a v
  | vram a => exact ⟨rfl, rfl⟩
  | oam o => exact ⟨rfl, rfl⟩
  | palette a v => exact ⟨rfl, rfl⟩

theorem pokes_cursor (l : List Poke) (s : GBAVideoGLRenderer) :
    (pokes s l).firstY = s.firstY ∧ (pokes s l).batches = s.batches := by
  induction l generalizing s with
  | nil => exact ⟨rfl, rfl⟩
  | cons p l ih =>
    have h := ih (poke s p)
    obtain ⟨p1, p2⟩ := poke_cursor s p
    exact ⟨h.1.trans p1, h.2.trans p2⟩

theorem tiles_snoc (bs : List Batch) (lo f : Int) (b : Batch) (h : tiles bs lo (f - 1))
    (hb : b.firstY = f) (hl : f ≤ b.lastY) : tiles (bs ++ [b]) lo b.lastY := by
  induction bs generalizing lo with
  | nil =>
    have h0 : lo = f - 1 + 1 := h
    refine ⟨by rw [hb]; omega, by omega, le_refl _, rfl⟩
  | cons a rest ih =>
    obtain ⟨h1, h2, h3, h4⟩ := h
    exact ⟨h1, h2, by omega, ih _ h4⟩

theorem tiles_bounds (bs : List Batch) (lo hi : Int) (h : tiles bs lo hi) :
    (∀ b, b ∈ bs → lo ≤ b.firstY ∧ b.firstY ≤ b.lastY ∧ b.lastY ≤ hi) ∧ lo ≤ hi + 1 := by
  induction bs generalizing lo with
  | nil =>
    have h0 : lo = hi + 1 := h
    exact ⟨fun b hb => (by cases hb), by omega⟩
  | cons a rest ih =>
    obtain ⟨h1, h2, h3, h4⟩ := h
    obtain ⟨i1, i2⟩ := ih _ h4
    refine ⟨?_, by omega⟩
    intro b hb
    rcases List.mem_cons.mp hb with rfl | hb
    · exact ⟨by omega, by omega, h3⟩
    · obtain ⟨j1, j2, j3⟩ := i1 b hb
      exact ⟨by omega, j2, j3⟩

theorem tiles_sorted (bs : List Batch) (lo hi : Int) (h : tiles bs lo hi) :
    bs.Pairwise (fun a b => a.lastY < b.firstY) := by
  induction bs generalizing lo with
  | nil => exact List.Pairwise.nil
  | cons a rest ih =>
    obtain ⟨h1, h2, h3, h4⟩ := h
    refine List.Pairwise.cons ?_ (ih _ h4)
    intro b hb
    have := ((tiles_bounds rest _ hi h4).1 b hb).1
    omega

theorem tiles_cover (bs : List Batch) (lo hi : Int) (h : tiles bs lo hi) (r : Int) :
    (lo ≤ r → r ≤ hi → (bs.filter (fun b => b.covers r)).length = 1) ∧
    (r < lo → (bs.filter (fun b => b.covers r)).length = 0) := by
  induction bs generalizing lo with
  | nil =>
    have h0 : lo = hi + 1 := h
    exact ⟨fun h1 h2 => by omega, fun _ => rfl⟩
  | cons a rest ih =>
    obtain ⟨h1, h2, h3, h4⟩ := h
    obtain ⟨i1, i2⟩ := ih _ h4
    constructor
    · intro hr1 hr2
      by_cases hc : r ≤ a.lastY
      · have hcov : a.covers r = true := by
          unfold Batch.covers
          simp only [Bool.and_eq_true, decide_eq_true_eq]
          exact ⟨by omega, hc⟩
        have e : (a :: rest).filter (fun b => b.covers r) =
            a :: rest.filter (fun b => b.covers r) := by
          simp [List.filter_cons, hcov]
        rw [e, List.length_cons, i2 (by omega)]
      · have hcov : ¬ (a.covers r = true) := by
          unfold Batch.covers
          simp only [Bool.and_eq_true, decide_eq_true_eq, not_and]
          intro _; exact hc
        have e : (a :: rest).filter (fun b => b.covers r) =
            rest.filter (fun b => b.covers r) := by
          simp [List.filter_cons, hcov]
        rw [e]
        exact i1 (by omega) hr2
    · intro hr
      have hcov : ¬ (a.covers r = true) := by
        unfold Batch.covers
        simp only [Bool.and_eq_true, decide_eq_true_eq, not_and]
        intro h5; omega
      have e : (a :: rest).filter (fun b => b.covers r) =
          rest.filter (fun b => b.covers r) := by
        simp [List.filter_cons, hcov]
      rw [e]
      exact i2 (by omega)

/-- What a scanline call does to the batch cursor and the batch log. -/
theorem drawScanline_cursor (t : GBAVideoGLRenderer) (y : Nat) (h0 : 0 ≤ t.firstY) :
    (GBAVideoGLRendererDrawScanline t y).firstY = t.firstY ∧
      (GBAVideoGLRendererDrawScanline t y).batches = t.batches ∨
    (GBAVideoGLRendererDrawScanline t y).firstY = (y : Int) ∧
      ∃ b : Batch, b.firstY = t.firstY ∧ b.lastY = (y : Int) - 1 ∧
        (GBAVideoGLRendererDrawScanline t y).batches = t.batches ++ [b] := by
  rw [drawScanline_firstY, drawScanline_batches]
  have hu : (updateFirstAffine t y).firstY = t.firstY ∧
      (updateFirstAffine t y).batches = t.batches := by
    simp only [updateFirstAffine, apply_ite GBAVideoGLRenderer.firstY,
      apply_ite GBAVideoGLRenderer.batches, ite_self, and_self]
  generalize updateFirstAffine t y = u at hu
  obtain ⟨u1, u2⟩ := hu
  unfold openBatch flushIfDirty
  by_cases hd : u.paletteDirty = true ∨ _needsVramUpload u y = true ∨ u.oamDirty = true ∨
      u.regsDirty ≠ 0
  · have hf : u.firstY ≥ 0 := by rw [u1]; exact h0
    right
    simp only [if_pos hd, if_pos hf, _drawScanlines]
    refine ⟨by simp, snapshot u ((y : Int) - 1), ?_, rfl, by rw [u2]⟩
    show u.firstY = t.firstY
    exact u1
  · left
    have hf : ¬ (u.firstY < 0) := by rw [u1]; omega
    simp only [if_neg hd, if_neg hf]
    exact ⟨u1, u2⟩

theorem drawScanline_first (s : GBAVideoGLRenderer) (hs : s.firstY = -1) :
    (GBAVideoGLRendererDrawScanline s 0).firstY = 0 ∧
    (GBAVideoGLRendererDrawScanline s 0).batches = s.batches := by
  rw [drawScanline_firstY, drawScanline_batches]
  have hu : (updateFirstAffine s 0).firstY = -1 ∧
      (updateFirstAffine s 0).batches = s.batches := by
    simp only [updateFirstAffine, apply_ite GBAVideoGLRenderer.firstY,
      apply_ite GBAVideoGLRenderer.batches, ite_self, hs, and_self]
  generalize updateFirstAffine s 0 = u at hu
  obtain ⟨u1, u2⟩ := hu
  have hf : ¬ (u.firstY ≥ 0) := by rw [u1]; decide
  have hflush : flushIfDirty u 0 = u := by
    unfold flushIfDirty
    simp only [if_neg hf, ite_self]
  rw [hflush]
  unfold openBatch
  have hlt : u.firstY < 0 := by rw [u1]; decide
  rw [if_pos hlt]
  exact ⟨rfl, u2⟩

theorem frameRows_zero (s : GBAVideoGLRenderer) (ev : Nat → List Poke) :
    frameRows s ev 0 = GBAVideoGLRendererDrawScanline (pokes s (ev 0)) 0 := rfl

theorem frameRows_succ (s : GBAVideoGLRenderer) (ev : Nat → List Poke) (n : Nat) :
    frameRows s ev (n + 1) =
      GBAVideoGLRendererDrawScanline (pokes (frameRows s ev n) (ev (n + 1))) (n + 1) := rfl

/-- The batches flushed up to scanline `n` tile the rows before the batch in flight. -/
theorem frameRows_inv (s : GBAVideoGLRenderer) (ev : Nat → List Poke) (hs : s.firstY = -1)
    (n : Nat) :
    0 ≤ (frameRows s ev n).firstY ∧ (frameRows s ev n).firstY ≤ (n : Int) ∧
    ∃ bs, (frameRows s ev n).batches = s.batches ++ bs ∧
      tiles bs 0 ((frameRows s ev n).firstY - 1) := by
  induction n with
  | zero =>
    obtain ⟨p1, p2⟩ := pokes_cursor (ev 0) s
    obtain ⟨d1, d2⟩ := drawScanline_first (pokes s (ev 0)) (p1.trans hs)
    rw [frameRows_zero, d1, d2, p2]
    refine ⟨le_refl _, by simp, [], by simp, ?_⟩
    show (0 : Int) = 0 - 1 + 1
    decide
  | succ n ih =>
    obtain ⟨i1, i2, bs, i3, i4⟩ := ih
    obtain ⟨p1, p2⟩ := pokes_cursor (ev (n + 1)) (frameRows s ev n)
    have h0 : 0 ≤ (pokes (frameRows s ev n) (ev (n + 1))).firstY := by rw [p1]; exact i1
    rw [frameRows_succ]
    rcases drawScanline_cursor (pokes (frameRows s ev n) (ev (n + 1))) (n + 1) h0 with
      ⟨d1, d2⟩ | ⟨d1, b, b1, b2, d2⟩
    · rw [d1, d2, p1, p2]
      refine ⟨i1, by push_cast; omega, bs, i3, i4⟩
    · rw [d1, d2, p2]
      refine ⟨by push_cast; omega, le_refl _, bs ++ [b], by rw [i3, List.append_assoc], ?_⟩
      rw [p1] at b1
      have hl : (frameRows s ev n).firstY ≤ b.lastY := by
        rw [b2]; push_cast; omega
      have ht := tiles_snoc bs 0 (frameRows s ev n).firstY b i4 b1 hl
      rw [b2] at ht
      exact ht

/-! ## C30 -/

/-- C30: for every frame that starts with `firstY = -1` and consists of the scanline calls
0..159 and `finishFrame`, with arbitrary register, VRAM, OAM and palette writes
interleaved, the batches flushed during the frame tile the rows 0..159: each is
non-empty, they come in increasing row order without overlap, and every row lies in
exactly one batch; after each `drawScanline(y)`, `0 <= firstY <= y`, and after
`finishFrame`, `firstY = -1`. -/
theorem C30_batches_tile_frame (s : GBAVideoGLRenderer) (ev : Nat → List Poke)
    (hs : s.firstY = -1) :
    (∃ bs, (fullFrame s ev).batches = s.batches ++ bs ∧ tiles bs 0 159 ∧
      (∀ b, b ∈ bs → 0 ≤ b.firstY ∧ b.firstY ≤ b.lastY ∧ b.lastY ≤ 159) ∧
      bs.Pairwise (fun a b => a.lastY < b.firstY) ∧
      (∀ r : Int, 0 ≤ r → r ≤ 159 → (bs.filter (fun b => b.covers r)).length = 1)) ∧
    (∀ y, y ≤ 159 → 0 ≤ (frameRows s ev y).firstY ∧ (frameRows s ev y).firstY ≤ (y : Int)) ∧
    (fullFrame s ev).firstY = -1 := by
  refine ⟨?_, fun y _ => ⟨(frameRows_inv s ev hs y).1, (frameRows_inv s ev hs y).2.1⟩, rfl⟩
  obtain ⟨i1, i2, bs, i3, i4⟩ := frameRows_inv s ev hs 159
  obtain ⟨p1, p2⟩ := pokes_cursor (ev 160) (frameRows s ev 159)
  have hb : (fullFrame s ev).batches =
      s.batches ++ (bs ++ [snapshot (pokes (frameRows s ev 159) (ev 160))
        ((GBA_VIDEO_VERTICAL_PIXELS : Int) - 1)]) := by
    show (pokes (frameRows s ev 159) (ev 160)).batches ++ [_] = _
    rw [p2, i3, List.append_assoc]
  have hlast : (snapshot (pokes (frameRows s ev 159) (ev 160))
      ((GBA_VIDEO_VERTICAL_PIXELS : Int) - 1)).lastY = 159 := by
    show (GBA_VIDEO_VERTICAL_PIXELS : Int) - 1 = 159
    decide
  have ht := tiles_snoc bs 0 (frameRows s ev 159).firstY
    (snapshot (pokes (frameRows s ev 159) (ev 160)) ((GBA_VIDEO_VERTICAL_PIXELS : Int) - 1)) i4
    p1 (by rw [hlast]; push_cast at i2; omega)
  rw [hlast] at ht
  refine ⟨_, hb, ht, ?_, tiles_sorted _ _ _ ht, ?_⟩
  · intro b hmem
    exact (tiles_bounds _ _ _ ht).1 b hmem
  · intro r h1 h2
    exact (tiles_cover _ _ _ ht r).1 h1 h2

/-- C30 for a frame after `reset` with a palette write before scanline 80. -/
theorem C30_batches_tile_frame_witness :
    (GBAVideoGLRendererReset zeroRenderer).firstY = -1 ∧
    (∃ bs, (fullFrame (GBAVideoGLRendererReset zeroRenderer)
        (fun i => if i = 80 then [Poke.palette 0 0x7FFF] else [])).batches =
        (GBAVideoGLRendererReset zeroRenderer).batches ++ bs ∧ tiles bs 0 159 ∧
      (∀ b, b ∈ bs → 0 ≤ b.firstY ∧ b.firstY ≤ b.lastY ∧ b.lastY ≤ 159) ∧
      bs.Pairwise (fun a b => a.lastY < b.firstY) ∧
      (∀ r : Int, 0 ≤ r → r ≤ 159 → (bs.filter (fun b => b.covers r)).length = 1)) :=
  ⟨rfl, (C30_batches_tile_frame (GBAVideoGLRendererReset zeroRenderer)
    (fun i => if i = 80 then [Poke.palette 0 0x7FFF] else []) rfl).1⟩

end GBAVideoGL

namespace StackTrace

/-! ## Push and pop -/

theorem depth_push (st : mStackTrace) (pc dest sp : Nat) (regs : List Nat) :
    mStackTraceGetDepth (mStackTracePush st pc dest sp regs) = mStackTraceGetDepth st + 1 := by
  simp [mStackTraceGetDepth, mStackTracePush, mStackFramesSize, mStackFramesAppend]

theorem pop_push (st : mStackTrace) (pc dest sp : Nat) (regs : List Nat) :
    mStackTracePop (mStackTracePush st pc dest sp regs) = st := by
  have h : mStackTraceGetDepth (mStackTracePush st pc dest sp regs) > 0 := by
    rw [depth_push]; omega
  unfold mStackTracePop
  simp only [h, if_true]
  simp [mStackTracePush, mStackFramesResize, mStackFramesAppend]

theorem pushAll_append (st : mStackTrace) (l : List PushArgs) (c : PushArgs) :
    pushAll st (l ++ [c]) = mStackTracePush (pushAll st l) c.pc c.destAddress c.sp c.regs := by
  unfold pushAll
  rw [List.foldl_append]
  rfl

theorem depth_pushAll (st : mStackTrace) (l : List PushArgs) :
    mStackTraceGetDepth (pushAll st l) = mStackTraceGetDepth st + l.length := by
  induction l using List.reverseRecOn with
  | nil => rfl
  | append_singleton l c ih =>
    rw [pushAll_append, depth_push, ih, List.length_append]
    simp
    omega

theorem popN_pushAll (st : mStackTrace) (l : List PushArgs) :
    popN (pushAll st l) l.length = st := by
  induction l using List.reverseRecOn with
  | nil => rfl
  | append_singleton l c ih =>
    rw [pushAll_append, List.length_append]
    show popN _ (l.length + 1) = st
    show popN (mStackTracePop _) l.length = st
    rw [pop_push]
    exact ih

/-! ## C20 -/

/-- C20: for every stack trace and every sequence of `k` `mStackTracePush` calls, `k`
calls of `mStackTracePop` afterwards give back the stack as it was, with its depth and
every frame; in between the depth is `k` more; from an empty stack the depth returns to
0; popping an empty stack leaves it empty. -/
theorem C20_push_pop_restores (st : mStackTrace) (calls : List PushArgs) (registersSize : Nat) :
    popN (pushAll st calls) calls.length = st ∧
    mStackTraceGetDepth (popN (pushAll st calls) calls.length) = mStackTraceGetDepth st ∧
    (∀ frame, mStackTraceGetFrame (popN (pushAll st calls) calls.length) frame =
      mStackTraceGetFrame st frame) ∧
    mStackTraceGetDepth (pushAll st calls) = mStackTraceGetDepth st + calls.length ∧
    mStackTraceGetDepth (popN (pushAll (mStackTraceInit registersSize) calls) calls.length) = 0 ∧
    mStackTracePop (mStackTraceInit registersSize) = mStackTraceInit registersSize ∧
    mStackTraceGetDepth (mStackTracePop (mStackTraceInit registersSize)) = 0 := by
  have h := popN_pushAll st calls
  refine ⟨h, by rw [h], fun frame => by rw [h], depth_pushAll st calls, ?_, rfl, rfl⟩
  rw [popN_pushAll]
  rfl

/-! ## Frame lookup -/

theorem getFrame_eq (st : mStackTrace) (i : Nat) :
    mStackTraceGetFrame st i =
      if i ≥ st.stack.length then none else st.stack.get? (st.stack.length - i - 1) := rfl

theorem stack_pushAll (st : mStackTrace) (calls : List PushArgs) :
    (pushAll st calls).stack = st.stack ++ calls.map (frameOf st.registersSize) ∧
    (pushAll st calls).registersSize = st.registersSize := by
  induction calls using List.reverseRecOn with
  | nil => simp [pushAll]
  | append_singleton l c ih =>
    rw [pushAll_append]
    obtain ⟨h1, h2⟩ := ih
    constructor
    · simp [mStackTracePush, mStackFramesAppend, h1, h2, frameOf]
    · simp [mStackTracePush, h2]

/-! ## C21 -/

/-- C21: for every stack trace of depth `d` and every index `i`, `mStackTraceGetFrame`
is null exactly when `i >= d` (so frame `d` is null); for `i < d` it is element
`d - i - 1` of the frames in push order, the `(d - i)`-th counting from the oldest as 1;
frame 0 after a push is the frame of that push, with `callAddress`, `entryAddress`,
`frameBaseAddress` the `pc`, `destAddress`, `sp` passed and the three flags false; after
a sequence of pushes frame `i` is the frame of the `i`-th push from the end, and the
frames that were there before follow. -/
theorem C21_get_frame (st : mStackTrace) (i : Nat) :
    (mStackTraceGetFrame st i = none ↔ i ≥ mStackTraceGetDepth st) ∧
    mStackTraceGetFrame st (mStackTraceGetDepth st) = none ∧
    (i < mStackTraceGetDepth st →
      mStackTraceGetFrame st i = st.stack.get? (mStackTraceGetDepth st - i - 1) ∧
      ∃ frame, mStackTraceGetFrame st i = some frame) ∧
    (∀ pc destAddress sp regs,
      mStackTraceGetFrame (mStackTracePush st pc destAddress sp regs) 0 =
        some { callAddress := pc, entryAddress := destAddress, frameBaseAddress := sp,
               regs := regs.take st.registersSize, finished := false,
               breakWhenFinished := false, interrupt := false }) ∧
    (∀ calls : List PushArgs,
      (i < calls.length →
        mStackTraceGetFrame (pushAll st calls) i =
          (calls.get? (calls.length - i - 1)).map (frameOf st.registersSize)) ∧
      (calls.length ≤ i →
        mStackTraceGetFrame (pushAll st calls) i = mStackTraceGetFrame st (i - calls.length))) := by
  have hd : mStackTraceGetDepth st = st.stack.length := rfl
  refine ⟨?_, ?_, ?_, ?_, ?_⟩
  · rw [getFrame_eq, hd]
    by_cases h : i ≥ st.stack.length
    · simp [h]
    · simp only [if_neg h]
      constructor
      · intro hn
        rw [List.get?_eq_none] at hn
        omega
      · intro h2; exact absurd h2 h
  · rw [getFrame_eq, hd]; simp
  · intro hi
    rw [hd] at hi
    have hn : ¬ (i ≥ st.stack.length) := by omega
    rw [getFrame_eq, if_neg hn, hd]
    refine ⟨rfl, ?_⟩
    have hlt : st.stack.length - i - 1 < st.stack.length := by omega
    exact ⟨st.stack.get ⟨_, hlt⟩, List.get?_eq_get hlt⟩
  · intro pc dest sp regs
    rw [getFrame_eq]
    simp [mStackTracePush, mStackFramesAppend]
  · intro calls
    obtain ⟨h1, _⟩ := stack_pushAll st calls
    constructor
    · intro hi
      rw [getFrame_eq, h1]
      have hn : ¬ (i ≥ (st.stack ++ calls.map (frameOf st.registersSize)).length) := by
        simp; omega
      rw [if_neg hn]
      simp only [List.length_append, List.length_map]
      simp only [List.get?_eq_getElem?]
      rw [List.getElem?_append_right (by omega), List.getElem?_map]
      congr 2
      omega
    · intro hi
      rw [getFrame_eq, getFrame_eq, h1]
      simp only [List.length_append, List.length_map]
      by_cases h : i - calls.length ≥ st.stack.length
      · have : i ≥ st.stack.length + calls.length := by omega
        simp [h, this]
      · have : ¬ (i ≥ st.stack.length + calls.length) := by omega
        rw [if_neg h, if_neg this]
        simp only [List.get?_eq_getElem?]
        rw [List.getElem?_append_left (by omega)]
        congr 1
        omega

/-- C21 on the two-frame scenario: frame 0 is frame B, frame 1 is frame A, frame 2 is
null. -/
theorem C21_get_frame_witness :
    1 < mStackTraceGetDepth twoFrames ∧
    (mStackTraceGetFrame twoFrames 1 = twoFrames.stack.get? (mStackTraceGetDepth twoFrames - 1 - 1) ∧
      ∃ frame, mStackTraceGetFrame twoFrames 1 = some frame) ∧
    (mStackTraceGetFrame twoFrames 0).map (fun f => f.callAddress) = some 0x08000300 ∧
    (mStackTraceGetFrame twoFrames 1).map (fun f => f.callAddress) = some 0x08000100 ∧
    mStackTraceGetFrame twoFrames 2 = none :=
  ⟨by decide, (C21_get_frame twoFrames 1).2.2.1 (by decide), by decide, by decide, by decide⟩

/-! ## Formatting -/

/-- `mStackTraceFormatFrame` is the sequence of its `snprintf` calls, each but the last
followed by `CHECK_LENGTH()`. -/
theorem formatFrame_eq_emitAll (stack : mStackTrace)
    (formatRegisters : Option (mStackFrame → List Char)) (frame length : Nat) :
    mStackTraceFormatFrame stack formatRegisters frame length =
      emitAll length (frameSegments stack formatRegisters frame) ([], 0) := by
  unfold mStackTraceFormatFrame frameSegments
  cases hp : mStackTraceGetFrame stack ((frame + 1) % 4294967296) <;>
  cases hs : mStackTraceGetFrame stack frame <;>
  cases formatRegisters <;>
  simp only [formatBody, formatAt, emitAll, List.append_nil, List.nil_append,
    List.singleton_append, List.cons_append]

theorem emit_fits (length : Nat) (st : List Char × Nat) (text : List Char)
    (h : st.2 + text.length < length) : emit length st text = (st.1 ++ text, st.2 + text.length) := by
  have hl : text.length ≤ length - st.2 - 1 := by omega
  unfold emit
  rw [List.take_of_length_le hl]

theorem emit_out (length : Nat) (st : List Char × Nat) (text rest : List Char)
    (h1 : st.1.length = st.2) (h2 : st.2 ≤ length - 1) :
    (emit length st text).1 = (st.1 ++ text).take (length - 1) ∧
    (length ≤ st.2 + text.length →
      (emit length st text).1 = (st.1 ++ (text ++ rest)).take (length - 1)) := by
  unfold emit
  have hl : st.1.length ≤ length - 1 := by omega
  have hs : length - 1 - st.1.length = length - st.2 - 1 := by omega
  have e : st.1 ++ List.take (length - st.2 - 1) text = (st.1 ++ text).take (length - 1) := by
    rw [List.take_append_eq_append_take, List.take_of_length_le hl, hs]
  refine ⟨e, ?_⟩
  intro h
  have hlen : length - 1 ≤ (st.1 ++ text).length := by
    rw [List.length_append, h1]
    omega
  show st.1 ++ List.take (length - st.2 - 1) text = _
  rw [e, ← List.append_assoc]
  exact (List.take_append_of_le_length hlen).symm

/-- What a sequence of `snprintf` calls with `CHECK_LENGTH()` leaves: the text cut to
`length - 1` characters, and the length of the text when it fits, a value from `length`
on otherwise. -/
theorem emitAll_spec (length : Nat) (segs : List (List Char)) (st : List Char × Nat)
    (hne : segs ≠ []) (h1 : st.1.length = st.2) (h2 : st.2 ≤ length - 1) :
    (emitAll length segs st).1 = (st.1 ++ segs.flatten).take (length - 1) ∧
    ((st.1 ++ segs.flatten).length < length →
      emitAll length segs st = (st.1 ++ segs.flatten, (st.1 ++ segs.flatten).length)) ∧
    (length ≤ (st.1 ++ segs.flatten).length →
      length ≤ (emitAll length segs st).2 ∧
      (emitAll length segs st).2 ≤ (st.1 ++ segs.flatten).length) := by
  induction segs generalizing st with
  | nil => exact absurd rfl hne
  | cons text tail ih =>
    cases tail with
    | nil =>
      simp only [emitAll, List.flatten_cons, List.flatten_nil, List.append_nil]
      refine ⟨(emit_out length st text [] h1 h2).1, ?_, ?_⟩
      · intro hl
        rw [List.length_append, h1] at hl
        rw [emit_fits length st text hl, List.length_append, h1]
      · intro hl
        rw [List.length_append, h1] at hl ⊢
        exact ⟨hl, le_refl _⟩
    | cons next rest =>
      have hfl : (text :: next :: rest).flatten = text ++ (next :: rest).flatten := rfl
      rw [hfl]
      by_cases hc : (emit length st text).2 ≥ length
      · have he : emitAll length (text :: next :: rest) st = emit length st text := by
          simp only [emitAll, if_pos hc]
        rw [he]
        have hw : (emit length st text).2 = st.2 + text.length := rfl
        rw [hw] at hc
        refine ⟨(emit_out length st text _ h1 h2).2 hc, ?_, ?_⟩
        · intro hl
          simp only [List.length_append] at hl
          omega
        · intro _
          rw [hw]
          simp only [List.length_append]
          omega
      · have he : emitAll length (text :: next :: rest) st =
            emitAll length (next :: rest) (emit length st text) := by
          simp only [emitAll, if_neg hc]
        have hw : (emit length st text).2 = st.2 + text.length := rfl
        rw [hw] at hc
        have hfit := emit_fits length st text (by omega)
        rw [he, hfit]
        have := ih (st.1 ++ text, st.2 + text.length) (by simp)
          (by simp only [List.length_append]; omega) (by show st.2 + text.length ≤ length - 1; omega)
        simp only [List.append_assoc] at this
        exact this

theorem formatFrame_spec (stack : mStackTrace)
    (formatRegisters : Option (mStackFrame → List Char)) (frame length : Nat) :
    (mStackTraceFormatFrame stack formatRegisters frame length).1 =
      (frameText stack formatRegisters frame).take (length - 1) ∧
    ((frameText stack formatRegisters frame).length < length →
      mStackTraceFormatFrame stack formatRegisters frame length =
        (frameText stack formatRegisters frame, (frameText stack formatRegisters frame).length)) ∧
    (length ≤ (frameText stack formatRegisters frame).length →
      length ≤ (mStackTraceFormatFrame stack formatRegisters frame length).2 ∧
      (mStackTraceFormatFrame stack formatRegisters frame length).2 ≤
        (frameText stack formatRegisters frame).length) := by
  have hne : frameSegments stack formatRegisters frame ≠ [] := by
    unfold frameSegments
    simp
  have h := emitAll_spec length (frameSegments stack formatRegisters frame) ([], 0) hne rfl
    (Nat.zero_le _)
  rw [formatFrame_eq_emitAll]
  simpa [frameText] using h

theorem toS32_small (n : Nat) (h : n < 2147483648) : GBAVideoGL.toS32 n = (n : Int) := by
  unfold GBAVideoGL.toS32
  split_ifs <;> omega

/-! ## C22 -/

/-- C22 as stated fails: in the scenario the text for frame 0 shows the entry address of
frame A, the frame below, and the offset +256:
`#0  08000200 (r0)\n    at 08000300 [08000200+256]\n`. -/
theorem C22_counterexample :
    (mStackTraceFormatFrame twoFrames (some demoRegisters) 0 128).1 =
      "#0  08000200 (r0)\n    at 08000300 [08000200+256]\n".toList ∧
    (mStackTraceFormatFrame twoFrames (some demoRegisters) 0 128).1 ≠
      "#0  08000400 (r0)\n    at 08000300 [08000400+-256]\n".toList := by
  constructor
  · decide
  · decide

/-- C22 (amended): with a register-format callback and a large enough buffer, the text
for an existing frame `N` below `2^31` is
`#N  <prevEntry> (<registers>)\n    at <callAddr> [<prevEntry>+<offset>]\n` when frame
`N + 1` exists, where `callAddr` is the call address of frame `N`, `prevEntry` the entry
address of frame `N + 1` and `offset` the 32-bit difference `callAddr - prevEntry` read
as a signed number; for the oldest frame it is `#N  (<registers>)\n    at <callAddr>\n`.
`*length` is set to the length of the text. -/
theorem C22_format_frame (stack : mStackTrace) (formatRegisters : mStackFrame → List Char)
    (N length : Nat) (stackFrame : mStackFrame) (hN : N < 2147483648)
    (hframe : mStackTraceGetFrame stack N = some stackFrame)
    (hlen : (frameText stack (some formatRegisters) N).length < length) :
    (∀ prev, mStackTraceGetFrame stack (N + 1) = some prev →
      mStackTraceFormatFrame stack (some formatRegisters) N length =
        ('#' :: fmtDec N ++ "  ".toList ++ fmtHex8 prev.entryAddress ++ " (".toList ++
          formatRegisters stackFrame ++ ")\n    at ".toList ++ fmtHex8 stackFrame.callAddress ++
          " [".toList ++ fmtHex8 prev.entryAddress ++ "+".toList ++
          fmtDec (GBAVideoGL.toS32 (GBAVideoGL.toU32
            ((stackFrame.callAddress : Int) - (prev.entryAddress : Int)))) ++ "]\n".toList,
         (frameText stack (some formatRegisters) N).length)) ∧
    (mStackTraceGetFrame stack (N + 1) = none →
      mStackTraceFormatFrame stack (some formatRegisters) N length =
        ('#' :: fmtDec N ++ "  (".toList ++ formatRegisters stackFrame ++ ")\n    at ".toList ++
          fmtHex8 stackFrame.callAddress ++ "\n".toList,
         (frameText stack (some formatRegisters) N).length)) := by
  have hs := (formatFrame_spec stack (some formatRegisters) N length).2.1 hlen
  have hw : (N + 1) % 4294967296 = N + 1 := Nat.mod_eq_of_lt (by omega)
  have hd := toS32_small N hN
  constructor
  · intro prev hprev
    rw [hs]
    congr 1
    simp [frameText, frameSegments, hw, hprev, hframe, hd]
  · intro hprev
    rw [hs]
    congr 1
    simp [frameText, frameSegments, hw, hprev, hframe, hd]

/-- C22 (amended) on the scenario with frame B over frame A, a callback writing `r0`
and a buffer of 128 bytes. -/
theorem C22_format_frame_witness :
    mStackTraceFormatFrame twoFrames (some demoRegisters) 0 128 =
      ("#0  08000200 (r0)\n    at 08000300 [08000200+256]\n".toList, 49) := by
  have h := (C22_format_frame twoFrames demoRegisters 0 128
    { callAddress := 0x08000300, entryAddress := 0x08000400, frameBaseAddress := 0x03007EF0,
      regs := [], finished := false, breakWhenFinished := false, interrupt := false }
    (by decide) (by decide) (by decide)).1
    { callAddress := 0x08000100, entryAddress := 0x08000200, frameBaseAddress := 0x03007F00,
      regs := [], finished := false, breakWhenFinished := false, interrupt := false }
    (by decide)
  rw [h]
  decide

/-! ## C23 -/

/-- For a frame index `N` with `d <= N < 2^31` and a buffer longer than the text,
`mStackTraceFormatFrame` writes exactly `#N  no stack frame available)\n` and sets
`*length` to the length of that text. -/
theorem formatFrame_no_frame (stack : mStackTrace)
    (formatRegisters : Option (mStackFrame → List Char))
    (N length : Nat) (hd : mStackTraceGetDepth stack ≤ N) (hN : N < 2147483648)
    (hlen : ('#' :: fmtDec N ++ "  no stack frame available)\n".toList).length < length) :
    mStackTraceFormatFrame stack formatRegisters N length =
      ('#' :: fmtDec N ++ "  no stack frame available)\n".toList,
       ('#' :: fmtDec N ++ "  no stack frame available)\n".toList).length) := by
  have hw : (N + 1) % 4294967296 = N + 1 := Nat.mod_eq_of_lt (by omega)
  have h0 : mStackTraceGetFrame stack N = none := by
    unfold mStackTraceGetFrame
    simp only [if_pos hd, ge_iff_le]
  have h1 : mStackTraceGetFrame stack (N + 1) = none := by
    unfold mStackTraceGetFrame
    have : mStackTraceGetDepth stack ≤ N + 1 := by omega
    simp only [if_pos this, ge_iff_le]
  have ht : frameText stack formatRegisters N =
      '#' :: fmtDec N ++ "  no stack frame available)\n".toList := by
    simp [frameText, frameSegments, hw, h0, h1, toS32_small N hN]
  have hs := (formatFrame_spec stack formatRegisters N length).2.1 (by rw [ht]; exact hlen)
  rw [hs, ht]

/-- C23 fails on the code for the frame index `0xFFFFFFFF` of a non-empty stack: the
index is at or above the depth 2, yet `frame + 1` wraps to 0 in `uint32_t`, so the entry
address of frame 0 is printed between the prefix and the message, and `%d` prints the
index as `-1`; the text is `#-1  08000400 no stack frame available)\n` (40 bytes) and not
`#4294967295  no stack frame available)\n`. For frame 2, below `2^31`, the text is the
claimed one. -/
theorem C23_frame_index_wraps :
    0xFFFFFFFF ≥ mStackTraceGetDepth twoFrames ∧
    mStackTraceFormatFrame twoFrames none 0xFFFFFFFF 128 =
      ("#-1  08000400 no stack frame available)\n".toList, 40) ∧
    (mStackTraceFormatFrame twoFrames none 0xFFFFFFFF 128).1 ≠
      "#4294967295  no stack frame available)\n".toList ∧
    mStackTraceFormatFrame twoFrames none 2 128 =
      ("#2  no stack frame available)\n".toList, 30) := by
  refine ⟨by decide, by decide, by decide, by decide⟩

/-- The count left by `emitAll` is at least the count before plus the length of the first
text: the first `snprintf` is always made. -/
theorem emitAll_written_ge (length : Nat) (text : List Char) (rest : List (List Char))
    (st : List Char × Nat) : st.2 + text.length ≤ (emitAll length (text :: rest) st).2 := by
  induction rest generalizing text st with
  | nil => exact le_refl _
  | cons next rest ih =>
    by_cases hc : (emit length st text).2 ≥ length
    · have he : emitAll length (text :: next :: rest) st = emit length st text := by
        simp only [emitAll, if_pos hc]
      rw [he]
      exact le_refl _
    · have he : emitAll length (text :: next :: rest) st =
          emitAll length (next :: rest) (emit length st text) := by
        simp only [emitAll, if_neg hc]
      rw [he]
      have h := ih next (emit length st text)
      have hw : (emit length st text).2 = st.2 + text.length := rfl
      omega

/-- `*length` on return is never 0: the first segment starts with `#`. -/
theorem formatFrame_written_pos (stack : mStackTrace)
    (formatRegisters : Option (mStackFrame → List Char)) (frame length : Nat) :
    0 < (mStackTraceFormatFrame stack formatRegisters frame length).2 := by
  rw [formatFrame_eq_emitAll]
  have hseg : ∃ text rest, frameSegments stack formatRegisters frame = text :: rest ∧
      0 < text.length := by
    unfold frameSegments
    exact ⟨_, _, rfl, by simp⟩
  obtain ⟨text, rest, e, hpos⟩ := hseg
  rw [e]
  have h := emitAll_written_ge length text rest ([], 0)
  have h0 : (([], 0) : List Char × Nat).2 = 0 := rfl
  omega

/-! ## C24 -/

/-- C24 as stated fails: with a capacity of 2 the call leaves 4 in `*length`, more than
the capacity, while one byte of text is in the buffer. -/
theorem C24_counterexample :
    (mStackTraceFormatFrame twoFrames none 0 2).2 = 4 ∧
    ¬ ((mStackTraceFormatFrame twoFrames none 0 2).2 ≤ 2) ∧
    (mStackTraceFormatFrame twoFrames none 0 2).1 = ['#'] := by
  refine ⟨by decide, by decide, by decide⟩

/-- C24 (amended): for every stack trace, callback, frame index and capacity `L`, the
buffer receives the complete text cut to `L - 1` characters; when the complete text is
shorter than `L` the buffer holds all of it and `*length` on return is its length, below
`L`; otherwise `*length` on return is at least `L` and at most the length of the complete
text (the length the text would have had up to the `snprintf` call that did not fit), and
it exceeds the number of characters in the buffer, also when `L` is 0. -/
theorem C24_length_on_return (stack : mStackTrace)
    (formatRegisters : Option (mStackFrame → List Char)) (frame L : Nat) :
    (mStackTraceFormatFrame stack formatRegisters frame L).1 =
      (frameText stack formatRegisters frame).take (L - 1) ∧
    (mStackTraceFormatFrame stack formatRegisters frame L).1.length ≤ L - 1 ∧
    ((frameText stack formatRegisters frame).length < L →
      (mStackTraceFormatFrame stack formatRegisters frame L).1 =
        frameText stack formatRegisters frame ∧
      (mStackTraceFormatFrame stack formatRegisters frame L).2 =
        (frameText stack formatRegisters frame).length ∧
      (mStackTraceFormatFrame stack formatRegisters frame L).2 < L) ∧
    (L ≤ (frameText stack formatRegisters frame).length →
      L ≤ (mStackTraceFormatFrame stack formatRegisters frame L).2 ∧
      (mStackTraceFormatFrame stack formatRegisters frame L).2 ≤
        (frameText stack formatRegisters frame).length ∧
      (mStackTraceFormatFrame stack formatRegisters frame L).1.length <
        (mStackTraceFormatFrame stack formatRegisters frame L).2) := by
  obtain ⟨h1, h2, h3⟩ := formatFrame_spec stack formatRegisters frame L
  have hle : (mStackTraceFormatFrame stack formatRegisters frame L).1.length ≤ L - 1 := by
    rw [h1, List.length_take]
    exact Nat.min_le_left _ _
  refine ⟨h1, hle, ?_, ?_⟩
  · intro hl
    rw [h2 hl]
    exact ⟨rfl, rfl, hl⟩
  · intro hl
    obtain ⟨a, b⟩ := h3 hl
    refine ⟨a, b, ?_⟩
    have hp := formatFrame_written_pos stack formatRegisters frame L
    omega

/-- C24 (amended) on the two-frame stack: a buffer of 128 bytes receives the whole text
of frame 0, a buffer of 8 bytes its first 7 characters with 13 left in `*length`. -/
theorem C24_length_on_return_witness :
    (frameText twoFrames none 0).length < 128 ∧
    (mStackTraceFormatFrame twoFrames none 0 128).2 = (frameText twoFrames none 0).length ∧
    8 ≤ (frameText twoFrames none 0).length ∧
    8 ≤ (mStackTraceFormatFrame twoFrames none 0 8).2 ∧
    (mStackTraceFormatFrame twoFrames none 0 8).1 = (frameText twoFrames none 0).take (8 - 1) :=
  ⟨by decide,
    ((C24_length_on_return twoFrames none 0 128).2.2.1 (by decide)).2.1,
    by decide,
    ((C24_length_on_return twoFrames none 0 8).2.2.2 (by decide)).1,
    (C24_length_on_return twoFrames none 0 8).1⟩

end StackTrace
